import Mathlib

/-!
# EBP-Tools detector (`src/detector/script.cpp`): shallow embedding

The C++ program scans a recorded match video backward, recognises screen
states from pixel probes, and reconstructs a list of `Game` records.

Conventions of the embedding

* C++ `int` values are mathematical integers (`Int`).  Signed overflow is
  undefined behaviour in C++, so there is no wrapped value to model; `/` on
  `int` is truncating division (`Int.tdiv`).
* `double` timestamps only ever hold `std::round(...)` results or the `-1`
  sentinel, so they are integers here.
* `std::string` is `String`, a sequence of characters; `length` counts them.
* The video decoder and the Tesseract engines are external.  What they
  deliver in one loop iteration is collected in an `Obs` record, and the
  iteration is a function of that record.
* C++ exceptions are `Except Err`.
* The `debug` parameters only guard logging and are left out.
-/

namespace Detector

/-! ## Data model -/

/-- Exceptions that can leave the functions of the detector.  The last
constructor marks executions the C++ standard leaves undefined. -/
inductive Err where
  | invalid_argument (what : String)
  | out_of_range (what : String)
  | runtime_error (what : String)
  | undefined_behaviour (what : String)
deriving DecidableEq, Repr

/-- Class `RGB`. -/
structure RGB where
  r : Int
  g : Int
  b : Int
deriving DecidableEq, Repr

/-- Struct `Player`. -/
structure Player where
  id : Int
  name : String
deriving DecidableEq, Repr

/-- Class `Team`, with the default member initialisers of the source. -/
structure Team where
  name : String := ""
  names : List String := []
  score : Int := -1
  players : List Player := []
deriving DecidableEq, Repr

/-- Class `End`. -/
structure End where
  time : Int := -1
  elapsed : Int := -1
deriving DecidableEq, Repr

/-- Class `Game`.  The member `end` is spelled `end_` (`end` is reserved in
Lean) and `__debug__jumped` is spelled `debug_jumped`. -/
structure Game where
  start : Int := -1
  end_ : End := {}
  map : String := ""
  orangeTeam : Team := {}
  blueTeam : Team := {}
  debug_jumped : Bool := false
deriving DecidableEq, Repr

/-- Class `Map`: a canonical name and its keywords. -/
structure Map where
  name : String
  dictionnary : List String
deriving DecidableEq, Repr

/-! ## `getMostFrequent` -/

/-- Distinct elements of a list, in order of first occurrence: the key set of
the `unordered_map` built by `++freq[name]`. -/
def keysOf : List String → List String
  | [] => []
  | x :: xs => x :: (keysOf xs).filter (fun y => y != x)

/-- The iteration order of `std::unordered_map<std::string,int>` is
implementation-defined.  It is a parameter: any function that lists the
distinct keys of the inserted sequence in some order. -/
structure HashOrder where
  order : List String → List String
  perm : ∀ names, (order names).Perm (keysOf names)

/-- Keys in first-insertion order. -/
def HashOrder.insertion : HashOrder where
  order := keysOf
  perm := fun _ => List.Perm.refl _

/-- Keys in reverse first-insertion order. -/
def HashOrder.reversed : HashOrder where
  order := fun names => (keysOf names).reverse
  perm := fun _ => List.reverse_perm _

/-- Contents of `freq` after the counting loop, in iteration order. -/
def freqOf (h : HashOrder) (names : List String) : List (String × Nat) :=
  (h.order names).map (fun k => (k, names.count k))

/-- Loop of `std::max_element` with comparator `a.second < b.second`, where
`best` is the current largest element. -/
def maxElementFrom (best : String × Nat) : List (String × Nat) → String × Nat
  | [] => best
  | x :: xs => if best.2 < x.2 then maxElementFrom x xs else maxElementFrom best xs

/-- Function `std::max_element` on the range of `freq`; `none` is the end
iterator, returned for an empty range. -/
def maxElement : List (String × Nat) → Option (String × Nat)
  | [] => none
  | x :: xs => some (maxElementFrom x xs)

/-- Function `getMostFrequent`.  `none` stands for dereferencing the end
iterator (undefined), which happens exactly on an empty `names`. -/
def getMostFrequent (h : HashOrder) (names : List String) : Option String :=
  (maxElement (freqOf h names)).map Prod.fst

/-! ## String utilities and `getMapByName` -/

/-- Function `std::tolower` in the "C" locale. -/
def tolower (c : Char) : Char :=
  if 65 ≤ c.toNat ∧ c.toNat ≤ 90 then Char.ofNat (c.toNat + 32) else c

/-- Function `toLower`. -/
def toLower (str : String) : String :=
  String.mk (str.data.map tolower)

/-- Function `removeNewlines`. -/
def removeNewlines (str : String) : String :=
  String.mk (str.data.filter (fun c => c != '\r' && c != '\n'))

/-- Function `std::isspace` in the "C" locale: space, `\t`, `\n`, `\v`, `\f`, `\r`. -/
def isspace (c : Char) : Bool :=
  c.toNat == 32 || (9 ≤ c.toNat && c.toNat ≤ 13)

/-- Loop `for (std::string s; iss >> s; )`: `cur` holds the characters of the
token being read, most recent first. -/
def splitBySpaceAux : List Char → List Char → List String
  | [], cur => if cur.isEmpty then [] else [String.mk cur.reverse]
  | c :: cs, cur =>
    if isspace c then
      if cur.isEmpty then splitBySpaceAux cs []
      else String.mk cur.reverse :: splitBySpaceAux cs []
    else splitBySpaceAux cs (c :: cur)

/-- Function `splitBySpace`. -/
def splitBySpace (str : String) : List String :=
  splitBySpaceAux str.data []

/-- Constant `MAPS` of `getMapByName`. -/
def MAPS : List Map :=
  [ ⟨"Artefact", ["artefact"]⟩,
    ⟨"Atlantis", ["atlantis"]⟩,
    ⟨"Ceres", ["ceres"]⟩,
    ⟨"Engine", ["engine"]⟩,
    ⟨"Helios Station", ["helios", "station"]⟩,
    ⟨"Lunar Outpost", ["lunar", "outpost"]⟩,
    ⟨"Outlaw", ["outlaw"]⟩,
    ⟨"Polaris", ["polaris"]⟩,
    ⟨"Silva", ["silva"]⟩,
    ⟨"The Cliff", ["cliff"]⟩,
    ⟨"The Rock", ["rock"]⟩ ]

/-- Inner loop of `getMapByName`: is some token of `splitted` found by
`std::find` in the dictionary of `map`? -/
def matchTokens (map : Map) : List String → Bool
  | [] => false
  | s :: rest => if map.dictionnary.elem s then true else matchTokens map rest

/-- Outer loop of `getMapByName` over the table, with its early return. -/
def searchMaps (splitted : List String) : List Map → String
  | [] => ""
  | map :: rest => if matchTokens map splitted then map.name else searchMaps splitted rest

/-- Function `getMapByName`. -/
def getMapByName (search : String) : String :=
  let cleaned := removeNewlines search
  let cleaned := toLower cleaned
  let splitted := splitBySpace cleaned
  searchMaps splitted MAPS

/-! ## Colour probes -/

/-- Function `std::abs` on `int`. -/
def abs (x : Int) : Int := if x < 0 then -x else x

/-- Function `colorSimilarity`; the default tolerance is 20. -/
def colorSimilarity (color1 color2 : RGB) (maxDifference : Int := 20) : Bool :=
  decide (abs (color1.r - color2.r) ≤ maxDifference) &&
  decide (abs (color1.g - color2.g) ≤ maxDifference) &&
  decide (abs (color1.b - color2.b) ≤ maxDifference)

/-! ## Frames and visual state detectors -/

/-- Type `cv::Vec3b`: one pixel, channels in BGR order. -/
structure Vec3b where
  c0 : Int
  c1 : Int
  c2 : Int
deriving DecidableEq, Repr

/-- Type `cv::Mat` as used by the detectors: its size and `at<cv::Vec3b>(row, col)`. -/
structure Frame where
  cols : Int
  rows : Int
  px : Int → Int → Vec3b

/-- Function `getPixelColor`. -/
def getPixelColor (frame : Frame) (x y : Int) : RGB :=
  let pixel := frame.px y x
  RGB.mk pixel.c2 pixel.c1 pixel.c0

/-- Method `std::list::front`; the source only evaluates it behind an
emptiness test. -/
def front (games : List Game) : Game := games.headD {}

/-- Assignment through `games.front()`: apply `f` to the first element. -/
def modifyFront (f : Game → Game) : List Game → List Game
  | [] => []
  | g :: rest => f g :: rest

/-- Function `detectGameScoreFrame`. -/
def detectGameScoreFrame (frame : Frame) (games : List Game) : Bool :=
  if games.isEmpty || (front games).start != -1 then
    if colorSimilarity (getPixelColor frame 325 153) (RGB.mk 239 203 14) &&
       colorSimilarity (getPixelColor frame 313 613) (RGB.mk 50 138 230) then
      true
    else false
  else false

/-- Function `detectGameLoadingFrame`. -/
def detectGameLoadingFrame (frame : Frame) (games : List Game) : Bool :=
  if !games.isEmpty && (front games).end_.time != -1 && (front games).start == -1 then
    if colorSimilarity (getPixelColor frame 958 427) (RGB.mk 255 255 255) &&
       colorSimilarity (getPixelColor frame 857 653) (RGB.mk 255 255 255) &&
       colorSimilarity (getPixelColor frame 1060 653) (RGB.mk 255 255 255) &&
       colorSimilarity (getPixelColor frame 958 642) (RGB.mk 255 255 255) &&
       colorSimilarity (getPixelColor frame 958 463) (RGB.mk 0 0 0) &&
       colorSimilarity (getPixelColor frame 880 653) (RGB.mk 0 0 0) &&
       colorSimilarity (getPixelColor frame 1037 653) (RGB.mk 0 0 0) &&
       colorSimilarity (getPixelColor frame 958 610) (RGB.mk 0 0 0) then
      true
    else false
  else false

/-- Function `detectGameIntro`: five alternative clusters B1..B5 of the "B"
glyph, each with five white probes (tolerance 30) and two black ones
(tolerance 200). -/
def detectGameIntro (frame : Frame) (games : List Game) : Bool :=
  if !games.isEmpty && (front games).end_.time != -1 && (front games).start == -1 then
    if (colorSimilarity (getPixelColor frame 1495 942) (RGB.mk 255 255 255) 30 &&
        colorSimilarity (getPixelColor frame 1512 950) (RGB.mk 255 255 255) 30 &&
        colorSimilarity (getPixelColor frame 1495 962) (RGB.mk 255 255 255) 30 &&
        colorSimilarity (getPixelColor frame 1512 972) (RGB.mk 255 255 255) 30 &&
        colorSimilarity (getPixelColor frame 1495 982) (RGB.mk 255 255 255) 30 &&
        colorSimilarity (getPixelColor frame 1503 951) (RGB.mk 0 0 0) 200 &&
        colorSimilarity (getPixelColor frame 1503 972) (RGB.mk 0 0 0) 200) ||
       (colorSimilarity (getPixelColor frame 1558 960) (RGB.mk 255 255 255) 30 &&
        colorSimilarity (getPixelColor frame 1572 968) (RGB.mk 255 255 255) 30 &&
        colorSimilarity (getPixelColor frame 1558 977) (RGB.mk 255 255 255) 30 &&
        colorSimilarity (getPixelColor frame 1572 987) (RGB.mk 255 255 255) 30 &&
        colorSimilarity (getPixelColor frame 1558 995) (RGB.mk 255 255 255) 30 &&
        colorSimilarity (getPixelColor frame 1564 969) (RGB.mk 0 0 0) 200 &&
        colorSimilarity (getPixelColor frame 1564 986) (RGB.mk 0 0 0) 200) ||
       (colorSimilarity (getPixelColor frame 1556 957) (RGB.mk 255 255 255) 30 &&
        colorSimilarity (getPixelColor frame 1571 964) (RGB.mk 255 255 255) 30 &&
        colorSimilarity (getPixelColor frame 1556 975) (RGB.mk 255 255 255) 30 &&
        colorSimilarity (getPixelColor frame 1571 984) (RGB.mk 255 255 255) 30 &&
        colorSimilarity (getPixelColor frame 1556 993) (RGB.mk 255 255 255) 30 &&
        colorSimilarity (getPixelColor frame 1564 966) (RGB.mk 0 0 0) 200 &&
        colorSimilarity (getPixelColor frame 1564 984) (RGB.mk 0 0 0) 200) ||
       (colorSimilarity (getPixelColor frame 1617 979) (RGB.mk 255 255 255) 30 &&
        colorSimilarity (getPixelColor frame 1630 985) (RGB.mk 255 255 255) 30 &&
        colorSimilarity (getPixelColor frame 1617 995) (RGB.mk 255 255 255) 30 &&
        colorSimilarity (getPixelColor frame 1630 1004) (RGB.mk 255 255 255) 30 &&
        colorSimilarity (getPixelColor frame 1617 1011) (RGB.mk 255 255 255) 30 &&
        colorSimilarity (getPixelColor frame 1623 987) (RGB.mk 0 0 0) 200 &&
        colorSimilarity (getPixelColor frame 1623 1004) (RGB.mk 0 0 0) 200) ||
       (colorSimilarity (getPixelColor frame 1606 976) (RGB.mk 255 255 255) 30 &&
        colorSimilarity (getPixelColor frame 1619 982) (RGB.mk 255 255 255) 30 &&
        colorSimilarity (getPixelColor frame 1606 991) (RGB.mk 255 255 255) 30 &&
        colorSimilarity (getPixelColor frame 1619 1000) (RGB.mk 255 255 255) 30 &&
        colorSimilarity (getPixelColor frame 1606 1008) (RGB.mk 255 255 255) 30 &&
        colorSimilarity (getPixelColor frame 1612 983) (RGB.mk 0 0 0) 200 &&
        colorSimilarity (getPixelColor frame 1612 1000) (RGB.mk 0 0 0) 200) then
      true
    else false
  else false

/-- Function `detectGamePlaying`. -/
def detectGamePlaying (frame : Frame) (games : List Game) : Bool :=
  if !games.isEmpty && (front games).start == -1 then
    let J1_PIXEL := getPixelColor frame 118 742
    let J2_PIXEL := getPixelColor frame 118 825
    let J3_PIXEL := getPixelColor frame 118 907
    let J4_PIXEL := getPixelColor frame 118 991
    let J5_PIXEL := getPixelColor frame 1801 742
    let J6_PIXEL := getPixelColor frame 1801 825
    let J7_PIXEL := getPixelColor frame 1801 907
    let J8_PIXEL := getPixelColor frame 1801 991
    if (colorSimilarity J1_PIXEL (RGB.mk 231 123 9) ||
          colorSimilarity J1_PIXEL (RGB.mk 0 0 0) 50) &&
       (colorSimilarity J2_PIXEL (RGB.mk 231 123 9) ||
          colorSimilarity J2_PIXEL (RGB.mk 0 0 0) 50) &&
       (colorSimilarity J3_PIXEL (RGB.mk 231 123 9) ||
          colorSimilarity J3_PIXEL (RGB.mk 0 0 0) 50) &&
       (colorSimilarity J4_PIXEL (RGB.mk 231 123 9) ||
          colorSimilarity J4_PIXEL (RGB.mk 0 0 0) 50) &&
       (colorSimilarity J5_PIXEL (RGB.mk 30 126 242) ||
          colorSimilarity J5_PIXEL (RGB.mk 0 0 0) 50) &&
       (colorSimilarity J6_PIXEL (RGB.mk 30 126 242) ||
          colorSimilarity J6_PIXEL (RGB.mk 0 0 0) 50) &&
       (colorSimilarity J7_PIXEL (RGB.mk 30 126 242) ||
          colorSimilarity J7_PIXEL (RGB.mk 0 0 0) 50) &&
       (colorSimilarity J8_PIXEL (RGB.mk 30 126 242) ||
          colorSimilarity J8_PIXEL (RGB.mk 0 0 0) 50) then
      true
    else false
  else false

/-! ## `getTextFromImage` -/

/-- Pre-processing applied to the frame before the crop: the frame itself,
the brightened grayscale copy, or that copy inverted. -/
inductive Preproc where
  | raw
  | gray
  | inverted
deriving DecidableEq, Repr

/-- Type `cv::Rect`. -/
structure Rect where
  x : Int
  y : Int
  width : Int
  height : Int
deriving DecidableEq, Repr

/-- A Tesseract engine looking at the current frame: `SetPageSegMode`,
`SetImage` on the crop `roi` of the pre-processed frame, `GetUTF8Text`.
`none` is a null result. -/
def Tess : Type := Preproc → Rect → Int → Option String

/-- Which image `target` is, from the two `if`s on `imageModeIndex`. -/
def targetOf (imageModeIndex : Int) : Preproc :=
  if imageModeIndex = 2 then Preproc.inverted
  else if imageModeIndex ≥ 1 then Preproc.gray
  else Preproc.raw

/-- Body of `getTextFromImage`, recursive on a pass budget `fuel`.  It returns
the values of `imageModeIndex` at which the recogniser was invoked, in order,
and the outcome.  The recursive call is guarded by `imageModeIndex < 2` in
the source; with the budget of `getTextFromImageTraced` the branch `fuel = 0`
under that guard is never taken (see `getTextFromImageTraced_unfold`). -/
def getTextFromImageFuel (frame : Frame) (tess : Tess) (x1 y1 x2 y2 : Int)
    (tesseditPagesegMode : Int) : Nat → Int → List Int × Except Err String
  | fuel, imageModeIndex =>
    if x1 < 0 || y1 < 0 || x2 > frame.cols || y2 > frame.rows || x2 ≤ x1 || y2 ≤ y1 then
      ([], Except.error (Err.invalid_argument "Coordonnées du rectangle invalides."))
    else
      let roi := Rect.mk x1 y1 (x2 - x1) (y2 - y1)
      let out := tess (targetOf imageModeIndex) roi tesseditPagesegMode
      let result := removeNewlines (out.getD "")
      if result == "" && imageModeIndex < 2 then
        match fuel with
        | 0 => ([imageModeIndex], Except.ok result)
        | n + 1 =>
          let r := getTextFromImageFuel frame tess x1 y1 x2 y2 tesseditPagesegMode n
            (imageModeIndex + 1)
          (imageModeIndex :: r.1, r.2)
      else ([imageModeIndex], Except.ok result)

/-- Function `getTextFromImage` together with the log of recogniser calls. -/
def getTextFromImageTraced (frame : Frame) (tess : Tess) (x1 y1 x2 y2 : Int)
    (tesseditPagesegMode : Int := 3) (imageModeIndex : Int := 0) :
    List Int × Except Err String :=
  getTextFromImageFuel frame tess x1 y1 x2 y2 tesseditPagesegMode
    (2 - imageModeIndex).toNat imageModeIndex

/-- Function `getTextFromImage`. -/
def getTextFromImage (frame : Frame) (tess : Tess) (x1 y1 x2 y2 : Int)
    (tesseditPagesegMode : Int := 3) (imageModeIndex : Int := 0) : Except Err String :=
  (getTextFromImageTraced frame tess x1 y1 x2 y2 tesseditPagesegMode imageModeIndex).2

/-! ## Integer conversion and clock splitting -/

/-- Function `std::isdigit`. -/
def isdigit (c : Char) : Bool := 48 ≤ c.toNat && c.toNat ≤ 57

/-- Value of a run of decimal digits. -/
def digitsValue (ds : List Char) : Int :=
  ds.foldl (fun acc c => acc * 10 + ((c.toNat : Int) - 48)) 0

/-- Function `std::stoi` in base 10, after the C++ standard: leading
whitespace is skipped, an optional sign and the longest run of digits are
read and what follows is ignored; `invalid_argument` when there is no digit,
`out_of_range` when the value does not fit an `int`. -/
def stoi (str : String) : Except Err Int :=
  let s := str.data.dropWhile isspace
  let neg := s.head? == some '-'
  let s := match s with
    | '-' :: r => r
    | '+' :: r => r
    | _ => s
  let ds := s.takeWhile isdigit
  if ds.isEmpty then Except.error (Err.invalid_argument "stoi")
  else
    let v := if neg then - digitsValue ds else digitsValue ds
    if v < -2147483648 || 2147483647 < v then Except.error (Err.out_of_range "stoi")
    else Except.ok v

/-- Loop `while (std::getline(iss, part, ':')) SPLITTED.push_back(part)`:
`cur` holds the characters of the current part, most recent first.  A part
is produced at every `:` and at the end of input when characters are pending. -/
def splitColonAux : List Char → List Char → List String
  | [], cur => if cur.isEmpty then [] else [String.mk cur.reverse]
  | c :: cs, cur =>
    if c == ':' then String.mk cur.reverse :: splitColonAux cs []
    else splitColonAux cs (c :: cur)

/-- The vector `SPLITTED` built from the clock text. -/
def splitColon (text : String) : List String :=
  splitColonAux text.data []

/-! ## The scan of `getGames` -/

/-- A line written to standard output during the scan. -/
inductive Line where
  | percent (n : Int)
  | nbGames (n : Nat)
deriving DecidableEq, Repr

/-- What the collaborators deliver in one loop iteration, after
`cap.set(cv::CAP_PROP_POS_FRAMES, i)`: whether `cap.read(frame)` succeeded
with a non-empty frame, the frame, the value of
`std::round(cap.get(cv::CAP_PROP_POS_MSEC) / 1000.0)`, and what the engines
`tess` and `tessNumber` recognise on that frame. -/
structure Obs where
  readOk : Bool
  frame : Frame
  posSec : Int
  tess : Tess
  tessNumber : Tess

/-- Values fixed before the loop of `getGames`, and the iteration order of
the hash map used by `getMostFrequent`. -/
structure Config where
  TOTAL_FRAMES : Int
  FPS : Int
  hash : HashOrder

/-- Constant `JUMP`. -/
def JUMP : Int := 2

/-- Constant `TEAM_NAME_ERROR_ARRAY_SIZE`. -/
def TEAM_NAME_ERROR_ARRAY_SIZE : Nat := 10

/-- Variables that change inside one loop iteration. -/
structure Iter where
  found : Bool
  games : List Game
  i : Int
  out : List Line

/-- Variables that live across loop iterations. -/
structure Scan where
  games : List Game
  i : Int
  oldPercent : Int
  out : List Line

/-- Lines 526-568: the `Game` built at an end screen. -/
def readScoreGame (obs : Obs) : Except Err Game := do
  let game : Game := { end_ := { time := obs.posSec } }
  let ORANGE_SCORE ← getTextFromImage obs.frame obs.tessNumber 530 89 620 127 7
  let game ← (if ORANGE_SCORE != "" then
      (stoi ORANGE_SCORE).map
        (fun v => { game with orangeTeam := { game.orangeTeam with score := v } })
    else pure game)
  let BLUE_SCORE ← getTextFromImage obs.frame obs.tessNumber 1294 89 1384 127 7
  let game ← (if BLUE_SCORE != "" then
      (stoi BLUE_SCORE).map
        (fun v => { game with blueTeam := { game.blueTeam with score := v } })
    else pure game)
  let ELAPSED ← getTextFromImage obs.frame obs.tessNumber 70 60 190 140 7
  let game ← (if ELAPSED != "" then
      (stoi ELAPSED).map (fun v => { game with end_ := { game.end_ with elapsed := v } })
    else pure game)
  pure game

/-- Lines 523-572: end-screen block. -/
def scoreBlock (cfg : Config) (obs : Obs) (it : Iter) : Except Err Iter :=
  if !it.found && detectGameScoreFrame obs.frame it.games then
    (readScoreGame obs).map (fun game =>
      { it with found := true, games := game :: it.games, i := it.i - 30 * cfg.FPS })
  else pure it

/-- Lines 575-578: loading-screen block. -/
def loadingBlock (obs : Obs) (it : Iter) : Iter :=
  if !it.found && detectGameLoadingFrame obs.frame it.games then
    { it with found := true,
              games := modifyFront (fun g => { g with start := obs.posSec + 2 }) it.games }
  else it

/-- Lines 579-582: intro-screen block. -/
def introBlock (obs : Obs) (it : Iter) : Iter :=
  if !it.found && detectGameIntro obs.frame it.games then
    { it with found := true,
              games := modifyFront (fun g => { g with start := obs.posSec + 2 }) it.games }
  else it

/-- Lines 587-600: map name of the front `Game`. -/
def mapBlock (obs : Obs) (g : Game) : Except Err Game :=
  if g.map == "" then do
    let text ← getTextFromImage obs.frame obs.tess 825 81 1093 102 7
    let MAP_NAME := getMapByName text
    if MAP_NAME != "" then pure { g with map := MAP_NAME } else pure g
  else pure g

/-- Lines 602-619 (orange, rectangle 686 22 833 68) and 621-638 (blue,
rectangle 1087 22 1226 68): sample or resolve one team name.  An empty
`names` at the call of `getMostFrequent` is the undefined case. -/
def teamNameBlock (h : HashOrder) (obs : Obs) (x1 y1 x2 y2 : Int) (team : Team) :
    Except Err Team :=
  if team.names.length < TEAM_NAME_ERROR_ARRAY_SIZE then do
    let TEXT ← getTextFromImage obs.frame obs.tess x1 y1 x2 y2 6
    if TEXT.length ≥ 2 then pure { team with names := team.names ++ [TEXT] } else pure team
  else if team.name == "" then
    match getMostFrequent h team.names with
    | some name => pure { team with name := name }
    | none => Except.error (Err.undefined_behaviour "getMostFrequent on empty names")
  else pure team

/-- Lines 641-670: fast-forward block, on the front `Game` `g`, the cursor `i`
and the output; `nb` is `games.size()`. -/
def jumpBlock (cfg : Config) (obs : Obs) (nb : Nat) (g : Game) (i : Int) (out : List Line) :
    Except Err (Game × Int × List Line) :=
  if !g.debug_jumped && g.map != "" && g.orangeTeam.name != "" && g.blueTeam.name != "" then do
    let TEXT ← getTextFromImage obs.frame obs.tess 935 0 985 28 7
    match splitColon TEXT with
    | [p0, p1] => do
      let MINUTES ← stoi p0
      let SECONDES ← stoi p1
      let DIFFERENCE := (10 - MINUTES) * 60 - SECONDES
      let out := out ++ [Line.nbGames nb]
      if MINUTES ≤ 9 then
        pure ({ g with debug_jumped := true }, i - DIFFERENCE * cfg.FPS, out)
      else pure (g, i, out)
    | _ => pure (g, i, out)
  else pure (g, i, out)

/-- Lines 587-670 on the front `Game`. -/
def enrichFront (cfg : Config) (obs : Obs) (nb : Nat) (g : Game) (i : Int) (out : List Line) :
    Except Err (Game × Int × List Line) := do
  let g ← mapBlock obs g
  let orange ← teamNameBlock cfg.hash obs 686 22 833 68 g.orangeTeam
  let g := { g with orangeTeam := orange }
  let blue ← teamNameBlock cfg.hash obs 1087 22 1226 68 g.blueTeam
  let g := { g with blueTeam := blue }
  jumpBlock cfg obs nb g i out

/-- Lines 587-638 on the front `Game`: the game as it stands when the
condition of line 641 is tested, after the map and the two team-name blocks
of the same iteration. -/
def frontAtClock (cfg : Config) (obs : Obs) (g : Game) : Except Err Game := do
  let g ← mapBlock obs g
  let orange ← teamNameBlock cfg.hash obs 686 22 833 68 g.orangeTeam
  let g := { g with orangeTeam := orange }
  let blue ← teamNameBlock cfg.hash obs 1087 22 1226 68 g.blueTeam
  pure { g with blueTeam := blue }

/-- Lines 585-671: in-match block.  The detector is false on an empty list,
so the first branch of the match is never taken. -/
def playingBlock (cfg : Config) (obs : Obs) (it : Iter) : Except Err Iter :=
  if !it.found && detectGamePlaying obs.frame it.games then
    match it.games with
    | [] => pure it
    | g :: rest =>
      (enrichFront cfg obs (g :: rest).length g it.i it.out).map
        (fun r => { it with games := r.1 :: rest, i := r.2.1, out := r.2.2 })
  else pure it

/-- Lines 511-515: progress report at the start of an iteration. -/
def percentBlock (cfg : Config) (s : Scan) : Scan :=
  let NEW_PERCENT := 100 - Int.tdiv (s.i * 100) cfg.TOTAL_FRAMES
  if NEW_PERCENT > s.oldPercent then
    { s with oldPercent := NEW_PERCENT, out := s.out ++ [Line.percent NEW_PERCENT] }
  else s

/-- One iteration of the `for` loop of `getGames` (body and the increment
`i -= FPS * JUMP`), entered with `i >= 0`. -/
def step (cfg : Config) (obs : Obs) (s : Scan) : Except Err Scan :=
  let s := percentBlock cfg s
  if !obs.readOk then pure { s with i := s.i - cfg.FPS * JUMP }
  else do
    let it ← scoreBlock cfg obs { found := false, games := s.games, i := s.i, out := s.out }
    let it := loadingBlock obs it
    let it := introBlock obs it
    let it ← playingBlock cfg obs it
    pure { s with games := it.games, i := it.i - cfg.FPS * JUMP, out := it.out }

/-- Loop variables before the first iteration. -/
def initial (cfg : Config) : Scan :=
  { games := [], i := cfg.TOTAL_FRAMES - 1, oldPercent := 0, out := [] }

/-- The `for` loop run for at most `fuel` iterations; `env i` is what the
collaborators deliver once the capture is positioned on frame `i`.  `none`
means that the loop is still running when the budget is used up. -/
def scanLoop (cfg : Config) (env : Int → Obs) : Nat → Scan → Except Err (Option Scan)
  | 0, s => if s.i ≥ 0 then pure none else pure (some s)
  | fuel + 1, s =>
    if s.i ≥ 0 then (step cfg (env s.i) s).bind (scanLoop cfg env fuel)
    else pure (some s)

/-- The video file and engines as `getGames` sees them. -/
structure Video where
  isOpened : Bool
  tessInit : Bool
  tessNumberInit : Bool
  frameCount : Int
  env : Int → Obs

/-- Lines 502-503: `TOTAL_FRAMES` and `FPS` for a video and a duration. -/
def configOf (h : HashOrder) (video : Video) (duration : Int) : Config :=
  let TOTAL_FRAMES := video.frameCount
  let FPS := Int.tdiv TOTAL_FRAMES duration
  { TOTAL_FRAMES := TOTAL_FRAMES, FPS := FPS, hash := h }

/-- Function `getGames`, with the loop bounded by `fuel`.  A zero `duration`
makes `TOTAL_FRAMES / duration` undefined. -/
def getGames (h : HashOrder) (video : Video) (duration : Int) (fuel : Nat) :
    Except Err (Option (List Game)) :=
  if !video.isOpened then pure (some [])
  else if !video.tessInit then
    Except.error (Err.runtime_error "Impossible d'initialiser Tesseract.")
  else if !video.tessNumberInit then
    Except.error (Err.runtime_error "Impossible d'initialiser Tesseract.")
  else if duration = 0 then Except.error (Err.undefined_behaviour "division by zero")
  else
    let cfg := configOf h video duration
    (scanLoop cfg video.env fuel (initial cfg)).map (Option.map Scan.games)

/-- Loop variables after the first `n` iterations of the `for` loop (fewer
if the loop condition fails earlier). -/
def iterations (cfg : Config) (env : Int → Obs) : Nat → Scan → Except Err Scan
  | 0, s => pure s
  | n + 1, s =>
    if s.i ≥ 0 then (step cfg (env s.i) s).bind (iterations cfg env n)
    else pure s

/-- States of the loop variables that some run of the scan can be in at the
top of the loop, whatever the collaborators deliver. -/
inductive Reachable (cfg : Config) : Scan → Prop where
  | init : Reachable cfg (initial cfg)
  | next {s s2 : Scan} (obs : Obs) : Reachable cfg s → 0 ≤ s.i →
      step cfg obs s = Except.ok s2 → Reachable cfg s2

/-! ## Specification-side definitions -/

/-- The loop iteration as the specification words it: the four detectors are
tried in the order end screen, loading, intro, in-match on the list the
iteration started with, and only the action of the first one that fires is
applied. -/
def firstMatch (cfg : Config) (obs : Obs) (s : Scan) : Except Err Scan :=
  let p := percentBlock cfg s
  if !obs.readOk then pure { p with i := s.i - cfg.FPS * JUMP }
  else if detectGameScoreFrame obs.frame s.games then
    (readScoreGame obs).map (fun game =>
      { p with games := game :: s.games, i := s.i - 30 * cfg.FPS - cfg.FPS * JUMP })
  else if detectGameLoadingFrame obs.frame s.games then
    pure { p with games := modifyFront (fun g => { g with start := obs.posSec + 2 }) s.games,
                  i := s.i - cfg.FPS * JUMP }
  else if detectGameIntro obs.frame s.games then
    pure { p with games := modifyFront (fun g => { g with start := obs.posSec + 2 }) s.games,
                  i := s.i - cfg.FPS * JUMP }
  else if detectGamePlaying obs.frame s.games then
    match s.games with
    | [] => pure { p with i := s.i - cfg.FPS * JUMP }
    | g :: rest =>
      (enrichFront cfg obs (g :: rest).length g s.i p.out).map
        (fun r => { p with games := r.1 :: rest, i := r.2.1 - cfg.FPS * JUMP, out := r.2.2 })
  else pure { p with i := s.i - cfg.FPS * JUMP }

/-- Games of `after` that stand where the games of `before` stood, counting
from the back of the list (the list only grows at the front). -/
def survivors (before after : List Game) : List Game :=
  after.drop (after.length - before.length)

/-- String `x` is a most frequent element of `l`. -/
def MostFrequent (x : String) (l : List String) : Prop :=
  x ∈ l ∧ ∀ y, l.count y ≤ l.count x

/-- Name-sampling invariant of one team. -/
def TeamInv (team : Team) : Prop :=
  team.names.length ≤ 10 ∧ (∀ n ∈ team.names, 2 ≤ n.length) ∧
  (team.name ≠ "" → team.names.length = 10 ∧ MostFrequent team.name team.names)

/-- The rectangle test of `getTextFromImage`, as a proposition. -/
def InvalidRect (frame : Frame) (x1 y1 x2 y2 : Int) : Prop :=
  x1 < 0 ∨ y1 < 0 ∨ x2 > frame.cols ∨ y2 > frame.rows ∨ x2 ≤ x1 ∨ y2 ≤ y1

/-- Text obtained in the pass `imageModeIndex`, line breaks removed. -/
def passText (tess : Tess) (x1 y1 x2 y2 : Int) (tesseditPagesegMode : Int)
    (imageModeIndex : Int) : String :=
  removeNewlines
    ((tess (targetOf imageModeIndex) (Rect.mk x1 y1 (x2 - x1) (y2 - y1))
      tesseditPagesegMode).getD "")

/-- The table entry the specification selects: the first one, in table
order, with a keyword among the tokens. -/
def firstEntry (tokens : List String) : Option Map :=
  MAPS.find? (fun m => tokens.any (fun t => m.dictionnary.elem t))

/-- The clock region of the frame reads as `m` minutes and `sec` seconds. -/
def ClockReads (obs : Obs) (m sec : Int) : Prop :=
  ∃ t p0 p1, getTextFromImage obs.frame obs.tess 935 0 985 28 7 = Except.ok t ∧
    splitColon t = [p0, p1] ∧ stoi p0 = Except.ok m ∧ stoi p1 = Except.ok sec

/-- The condition of line 641 on the front game: the marker is unset and the
map and both team names are resolved. -/
def Ready (g : Game) : Prop :=
  g.debug_jumped = false ∧ g.map ≠ "" ∧ g.orangeTeam.name ≠ "" ∧ g.blueTeam.name ≠ ""

/-- The in-match block is the one that runs in this iteration: the frame was
read, the loading and intro detectors are false and the in-match detector is
true (the end-screen detector is then false by its gate). -/
def InMatchBranch (obs : Obs) (games : List Game) : Prop :=
  obs.readOk = true ∧ detectGameLoadingFrame obs.frame games = false ∧
    detectGameIntro obs.frame games = false ∧ detectGamePlaying obs.frame games = true

/-- The percent values among the lines written so far, in order of emission. -/
def percentsOf : List Line → List Int
  | [] => []
  | Line.percent n :: rest => n :: percentsOf rest
  | Line.nbGames _ :: rest => percentsOf rest

/-- Invariant linking `oldPercent` to the percent values written so far. -/
def PercentInv (s : Scan) : Prop :=
  (percentsOf s.out).Pairwise (fun a b => a < b) ∧
  (∀ p ∈ percentsOf s.out, 0 < p ∧ p ≤ s.oldPercent) ∧
  (s.oldPercent = 0 ∨ s.oldPercent ∈ percentsOf s.out)

/-- The exception is one of the two thrown by `std::stoi`. -/
def ConversionError (e : Err) : Prop :=
  e = Err.invalid_argument "stoi" ∨ e = Err.out_of_range "stoi"

/-- The end-screen block is the one that runs in this iteration: the frame
was read and the end-screen detector is true. -/
def EndScreenBranch (obs : Obs) (games : List Game) : Prop :=
  obs.readOk = true ∧ detectGameScoreFrame obs.frame games = true

/-- Text `t` is recognised by the numeric engine in one of the three regions
read at an end screen: orange score, blue score, elapsed. -/
def ScoreText (obs : Obs) (t : String) : Prop :=
  getTextFromImage obs.frame obs.tessNumber 530 89 620 127 7 = Except.ok t ∨
    getTextFromImage obs.frame obs.tessNumber 1294 89 1384 127 7 = Except.ok t ∨
    getTextFromImage obs.frame obs.tessNumber 70 60 190 140 7 = Except.ok t

/-- The iteration makes a fast-forward read: the in-match block runs and the
front game passes the condition of line 641 once the map and name blocks of
this same iteration have run (lines 587-638), so that the clock is read. -/
def FastForwardRead (cfg : Config) (obs : Obs) (games : List Game) : Prop :=
  InMatchBranch obs games ∧
    ∃ g rest g1, games = g :: rest ∧ frontAtClock cfg obs g = Except.ok g1 ∧ Ready g1

/-- At an end-screen frame, each of the three score and elapsed texts is
empty or converts. -/
def ScoreTextsConvert (obs : Obs) (games : List Game) : Prop :=
  EndScreenBranch obs games → ∀ t, ScoreText obs t → t = "" ∨ ∃ v, stoi t = Except.ok v

/-- At a fast-forward read, if the clock text splits into exactly two parts,
both parts convert. -/
def ClockPartsConvert (cfg : Config) (obs : Obs) (games : List Game) : Prop :=
  FastForwardRead cfg obs games →
    ∀ t p0 p1, getTextFromImage obs.frame obs.tess 935 0 985 28 7 = Except.ok t →
      splitColon t = [p0, p1] → (∃ m, stoi p0 = Except.ok m) ∧ ∃ sec, stoi p1 = Except.ok sec

/-- Invariant of the scan for timestamps `T` that do not decrease with the
frame index: front to back, end times do not decrease, each game ends at
least 2 s before the start assigned to the game behind it, and start times do
not decrease; and the front game ends, and starts if closed, no earlier than
any frame `c >= 0` the cursor can still reach. -/
def TimeInv (T : Int → Int) (s : Scan) : Prop :=
  List.Chain' (fun g g2 : Game => g.end_.time ≤ g2.end_.time ∧ g.end_.time + 2 ≤ g2.start ∧
    g.start ≤ g2.start) s.games ∧
  (∀ g rest, s.games = g :: rest → ∀ c, 0 ≤ c → c ≤ s.i →
    T c ≤ g.end_.time ∧ (g.start ≠ -1 → T c + 2 ≤ g.start))

/-- One health-bar probe passes: the pixel is within tolerance 20 of the team
colour or within tolerance 50 of black. -/
def probeOk (frame : Frame) (x y : Int) (team : RGB) : Prop :=
  colorSimilarity (getPixelColor frame x y) team 20 = true ∨
    colorSimilarity (getPixelColor frame x y) (RGB.mk 0 0 0) 50 = true

/-- The pixel coordinates `(x, y)` read by `detectGameScoreFrame`. -/
def scoreProbes : List (Int × Int) :=
  [(325, 153), (313, 613)]

/-- The pixel coordinates `(x, y)` read by `detectGameLoadingFrame`. -/
def loadingProbes : List (Int × Int) :=
  [(958, 427), (857, 653), (1060, 653), (958, 642), (958, 463), (880, 653), (1037, 653),
   (958, 610)]

/-- The pixel coordinates `(x, y)` read by `detectGameIntro`, cluster by
cluster (B1 to B5). -/
def introProbes : List (Int × Int) :=
  [(1495, 942), (1512, 950), (1495, 962), (1512, 972), (1495, 982), (1503, 951), (1503, 972),
   (1558, 960), (1572, 968), (1558, 977), (1572, 987), (1558, 995), (1564, 969), (1564, 986),
   (1556, 957), (1571, 964), (1556, 975), (1571, 984), (1556, 993), (1564, 966), (1564, 984),
   (1617, 979), (1630, 985), (1617, 995), (1630, 1004), (1617, 1011), (1623, 987),
   (1623, 1004), (1606, 976), (1619, 982), (1606, 991), (1619, 1000), (1606, 1008),
   (1612, 983), (1612, 1000)]

/-- The pixel coordinates `(x, y)` read by `detectGamePlaying`. -/
def playingProbes : List (Int × Int) :=
  [(118, 742), (118, 825), (118, 907), (118, 991), (1801, 742), (1801, 825), (1801, 907),
   (1801, 991)]

/-- The seven rectangles `(x1, y1, x2, y2)` passed to `getTextFromImage` by
`getGames`: orange score, blue score, elapsed, map, orange name, blue name,
clock. -/
def extractionRects : List (Int × Int × Int × Int) :=
  [(530, 89, 620, 127), (1294, 89, 1384, 127), (70, 60, 190, 140), (825, 81, 1093, 102),
   (686, 22, 833, 68), (1087, 22, 1226, 68), (935, 0, 985, 28)]

/-- The exception of the bounds check of `getTextFromImage`. -/
def rectError : Err := Err.invalid_argument "Coordonnées du rectangle invalides."

/-- The exception `e` is the bounds-check exception for one of the seven
rectangles, which is invalid on `frame`. -/
def RectFails (frame : Frame) (e : Err) : Prop :=
  e = rectError ∧ ∃ r ∈ extractionRects, InvalidRect frame r.1 r.2.1 r.2.2.1 r.2.2.2

/-! ## A concrete video

Every decoded frame shows the two end-screen logo colours and is black
elsewhere, so it is an end screen while no game is open and an in-match
frame while one is.  The map banner reads `POLARIS`, both team banners read
`AB`, the score regions read `3`, and the clock reads `9:75`. -/

/-- Pixels of the demo frame. -/
def demoPx : Int → Int → Vec3b := fun y x =>
  if x = 325 ∧ y = 153 then ⟨14, 203, 239⟩
  else if x = 313 ∧ y = 613 then ⟨230, 138, 50⟩
  else ⟨0, 0, 0⟩

/-- The demo frame, 1920 by 1080. -/
def demoFrame : Frame := { cols := 1920, rows := 1080, px := demoPx }

/-- Alphanumeric engine on the demo frame. -/
def demoTess : Tess := fun _ roi _ =>
  if roi.x = 825 then some "POLARIS\n"
  else if roi.x = 935 then some "9:75"
  else some "AB"

/-- Numeric engine on the demo frame. -/
def demoTessNumber : Tess := fun _ _ _ => some "3\n"

/-- One iteration's delivery on the demo video, at second 50. -/
def demoObs : Obs :=
  { readOk := true, frame := demoFrame, posSec := 50, tess := demoTess,
    tessNumber := demoTessNumber }

/-- The demo video: 100 frames, the same picture on each. -/
def demoVideo : Video :=
  { isOpened := true, tessInit := true, tessNumberInit := true, frameCount := 100,
    env := fun _ => demoObs }

/-- Constants of the scan of the demo video with duration 100 s: 100 frames, 1 frame per second. -/
def demoCfg : Config := configOf HashOrder.insertion demoVideo 100

/-- The front game of the demo scan once the end-screen iteration and `k`
in-match iterations have run, for `k` up to 10. -/
def demoGame (k : Nat) : Game :=
  { start := -1, end_ := { time := 50, elapsed := 3 },
    map := if k = 0 then "" else "Polaris",
    orangeTeam := { names := List.replicate k "AB", score := 3 },
    blueTeam := { names := List.replicate k "AB", score := 3 } }

/-- Loop variables of the demo scan once the end-screen iteration and `k`
in-match iterations have run, for `k` up to 10 (see `demoScan_step`). -/
def demoScan (k : Nat) : Scan :=
  { games := [demoGame k], i := 67 - 2 * (k : Int),
    oldPercent := if k = 0 then 1 else 31 + 2 * (k : Int),
    out := Line.percent 1 :: (List.range k).map (fun j => Line.percent (33 + 2 * (j : Int))) }

/-- Loop variables of the demo scan after the next iteration, the twelfth:
both names are resolved and the clock `9:75` has been read. -/
def demoJumped : Scan :=
  { games := [{ demoGame 10 with
      orangeTeam := { (demoGame 10).orangeTeam with name := "AB" },
      blueTeam := { (demoGame 10).blueTeam with name := "AB" },
      debug_jumped := true }],
    i := 60, oldPercent := 53,
    out := (demoScan 10).out ++ [Line.percent 53, Line.nbGames 1] }

/-- A recogniser that reads text only on the inverted image. -/
def invertedOnlyTess : Tess := fun m _ _ =>
  match m with
  | Preproc.inverted => some "42\n"
  | _ => some "\n"

/-! ## The demo video with other clock texts -/

/-- The alphanumeric engine of the demo video with another clock text. -/
def clockTess (clock : String) : Tess := fun _ roi _ =>
  if roi.x = 825 then some "POLARIS\n"
  else if roi.x = 935 then some clock
  else some "AB"

/-- The delivery of the demo video with another clock text. -/
def clockObs (clock : String) : Obs := { demoObs with tess := clockTess clock }

/-- Loop variables after the iteration that follows `demoScan 10` when the
clock reads `10:00`: the names are resolved, a line is written, and there is
neither skip nor mark. -/
def lateA : Scan :=
  { games := [{ demoGame 10 with
      orangeTeam := { (demoGame 10).orangeTeam with name := "AB" },
      blueTeam := { (demoGame 10).blueTeam with name := "AB" } }],
    i := 45, oldPercent := 53,
    out := (demoScan 10).out ++ [Line.percent 53, Line.nbGames 1] }

/-- Loop variables one more iteration after `lateA`, the clock still reading
`10:00`. -/
def lateB : Scan :=
  { lateA with i := 43, oldPercent := 55,
               out := lateA.out ++ [Line.percent 55, Line.nbGames 1] }

/-! ## A video with two matches -/

/-- Pixels of a loading screen: the four white probes of the loader glyph on
a black picture. -/
def loadPx : Int → Int → Vec3b := fun y x =>
  if (x = 958 ∧ y = 427) ∨ (x = 857 ∧ y = 653) ∨ (x = 1060 ∧ y = 653) ∨ (x = 958 ∧ y = 642) then
    ⟨255, 255, 255⟩
  else ⟨0, 0, 0⟩

/-- A loading-screen frame, 1920 by 1080. -/
def loadFrame : Frame := { cols := 1920, rows := 1080, px := loadPx }

/-- A black frame, 1920 by 1080. -/
def blackFrame : Frame := { cols := 1920, rows := 1080, px := fun _ _ => ⟨0, 0, 0⟩ }

/-- An engine that reads nothing. -/
def silentTess : Tess := fun _ _ _ => some ""

/-- A video with two matches, 70 frames at 1 frame per second, the timestamp
of frame `i` being `i` seconds: end screens on frames 69 and 35, loading
screens on frames 37 and 3, black frames elsewhere. -/
def twoEnv (i : Int) : Obs :=
  { readOk := true,
    frame := if i = 69 ∨ i = 35 then demoFrame else if i = 37 ∨ i = 3 then loadFrame
             else blackFrame,
    posSec := i, tess := silentTess, tessNumber := demoTessNumber }

/-- The two-match video as `getGames` sees it. -/
def twoVideo : Video :=
  { isOpened := true, tessInit := true, tessNumberInit := true, frameCount := 70,
    env := twoEnv }

/-- Constants of the scan of the two-match video with duration 70 s. -/
def twoCfg : Config := configOf HashOrder.insertion twoVideo 70

/-- The match of the two-match video that ends on frame 69. -/
def gameA (start : Int) : Game :=
  { start := start, end_ := { time := 69, elapsed := 3 }, orangeTeam := { score := 3 },
    blueTeam := { score := 3 } }

/-- The match of the two-match video that ends on frame 35. -/
def gameB (start : Int) : Game :=
  { start := start, end_ := { time := 35, elapsed := 3 }, orangeTeam := { score := 3 },
    blueTeam := { score := 3 } }

/-- Loop variables of the scan of the two-match video after `n` iterations,
for `n` up to 5 (see `twoScan_step`). -/
def twoScan : Nat → Scan
  | 0 => initial twoCfg
  | 1 => { games := [gameA (-1)], i := 37, oldPercent := 2, out := [Line.percent 2] }
  | 2 => { games := [gameA 39], i := 35, oldPercent := 48,
           out := [Line.percent 2, Line.percent 48] }
  | 3 => { games := [gameB (-1), gameA 39], i := 3, oldPercent := 50,
           out := [Line.percent 2, Line.percent 48, Line.percent 50] }
  | 4 => { games := [gameB 5, gameA 39], i := 1, oldPercent := 96,
           out := [Line.percent 2, Line.percent 48, Line.percent 50, Line.percent 96] }
  | _ => { games := [gameB 5, gameA 39], i := -1, oldPercent := 99,
           out := [Line.percent 2, Line.percent 48, Line.percent 50, Line.percent 96,
             Line.percent 99] }

/-! ## Lemmas and claims

### getMostFrequent -/

theorem mem_keysOf (x : String) (l : List String) : x ∈ keysOf l ↔ x ∈ l := by
  induction l with
  | nil => simp [keysOf]
  | cons a l ih =>
    simp only [keysOf, List.mem_cons, List.mem_filter, ih, bne_iff_ne, ne_eq]
    constructor
    · rintro (h | ⟨h, _⟩)
      · exact Or.inl h
      · exact Or.inr h
    · intro h
      by_cases hx : x = a
      · exact Or.inl hx
      · rcases h with h | h
        · exact Or.inl h
        · exact Or.inr ⟨h, hx⟩

theorem mem_order (h : HashOrder) (x : String) (names : List String) :
    x ∈ h.order names ↔ x ∈ names := by
  rw [(h.perm names).mem_iff, mem_keysOf]

theorem maxElementFrom_mem (best : String × Nat) (l : List (String × Nat)) :
    maxElementFrom best l ∈ best :: l := by
  induction l generalizing best with
  | nil => simp [maxElementFrom]
  | cons x xs ih =>
    simp only [maxElementFrom]
    split
    · have := ih x
      simp only [List.mem_cons] at this ⊢
      tauto
    · have := ih best
      simp only [List.mem_cons] at this ⊢
      tauto

theorem maxElementFrom_ge_best (best : String × Nat) (l : List (String × Nat)) :
    best.2 ≤ (maxElementFrom best l).2 := by
  induction l generalizing best with
  | nil => simp [maxElementFrom]
  | cons x xs ih =>
    simp only [maxElementFrom]
    split
    · rename_i hlt
      exact le_trans (le_of_lt hlt) (ih x)
    · exact ih best

theorem maxElementFrom_ge (best : String × Nat) (l : List (String × Nat)) :
    ∀ y ∈ best :: l, y.2 ≤ (maxElementFrom best l).2 := by
  induction l generalizing best with
  | nil => simp [maxElementFrom]
  | cons x xs ih =>
    intro y hy
    simp only [maxElementFrom]
    split
    · rename_i hlt
      rcases List.mem_cons.mp hy with rfl | hy
      · exact le_trans (le_of_lt hlt) (maxElementFrom_ge_best x xs)
      · exact ih x y hy
    · rename_i hnlt
      rcases List.mem_cons.mp hy with rfl | hy
      · exact maxElementFrom_ge_best _ xs
      · rcases List.mem_cons.mp hy with rfl | hy
        · exact le_trans (not_lt.mp hnlt) (maxElementFrom_ge_best best xs)
        · exact ih best y (List.mem_cons_of_mem _ hy)

theorem maxElement_spec (l : List (String × Nat)) (r : String × Nat)
    (h : maxElement l = some r) : r ∈ l ∧ ∀ y ∈ l, y.2 ≤ r.2 := by
  cases l with
  | nil => simp [maxElement] at h
  | cons x xs =>
    simp only [maxElement, Option.some.injEq] at h
    subst h
    exact ⟨maxElementFrom_mem x xs, maxElementFrom_ge x xs⟩

theorem getMostFrequent_spec (h : HashOrder) (names : List String) (r : String)
    (hr : getMostFrequent h names = some r) : MostFrequent r names := by
  unfold getMostFrequent at hr
  rcases hm : maxElement (freqOf h names) with _ | ⟨k, c⟩
  · simp [hm] at hr
  · simp only [hm, Option.map_some', Option.some.injEq] at hr
    subst hr
    obtain ⟨hmem, hmax⟩ := maxElement_spec _ _ hm
    simp only [freqOf, List.mem_map, Prod.mk.injEq] at hmem
    obtain ⟨a, ha, rfl, rfl⟩ := hmem
    refine ⟨(mem_order h a names).mp ha, fun y => ?_⟩
    by_cases hy : y ∈ names
    · have := hmax (y, names.count y) (by
        simp only [freqOf, List.mem_map, Prod.mk.injEq]
        exact ⟨y, (mem_order h y names).mpr hy, rfl, rfl⟩)
      exact this
    · rw [List.count_eq_zero_of_not_mem hy]
      exact Nat.zero_le _

theorem getMostFrequent_isSome (h : HashOrder) (names : List String) (hne : names ≠ []) :
    ∃ r, getMostFrequent h names = some r := by
  obtain ⟨a, l, rfl⟩ := List.exists_cons_of_ne_nil hne
  have hmem : a ∈ h.order (a :: l) := (mem_order h a (a :: l)).mpr (List.mem_cons_self a l)
  unfold getMostFrequent freqOf
  cases ho : h.order (a :: l) with
  | nil => rw [ho] at hmem; simp at hmem
  | cons k ks => exact ⟨_, rfl⟩

theorem getMostFrequent_none (h : HashOrder) : getMostFrequent h [] = none := by
  have : h.order [] = [] := by
    have := h.perm []
    simpa [keysOf] using this
  simp [getMostFrequent, freqOf, this, maxElement]

/-- Claim C6: for every non-empty sample sequence and every iteration order of
the hash map, `getMostFrequent` returns a string that occurs in the sequence
and occurs at least as often as every other string; a string that is strictly
the most frequent is the result, and `["FOO","FOO","BAR"]` resolves to `"FOO"`. -/
theorem getMostFrequent_most_frequent (h : HashOrder) (names : List String)
    (hne : names ≠ []) :
    ∃ r, getMostFrequent h names = some r ∧ r ∈ names ∧
      (∀ y, names.count y ≤ names.count r) ∧
      (∀ x, (∀ y, y ≠ x → names.count y < names.count x) → r = x) ∧
      getMostFrequent h ["FOO", "FOO", "BAR"] = some "FOO" := by
  have strict : ∀ (l : List String) (r x : String), MostFrequent r l →
      (∀ y, y ≠ x → l.count y < l.count x) → r = x := by
    intro l r x hr hx
    by_contra hne
    exact absurd (hx r hne) (not_lt.mpr (hr.2 x))
  obtain ⟨r, hr⟩ := getMostFrequent_isSome h names hne
  have hmf := getMostFrequent_spec h names r hr
  refine ⟨r, hr, hmf.1, hmf.2, fun x hx => strict names r x hmf hx, ?_⟩
  obtain ⟨q, hq⟩ := getMostFrequent_isSome h ["FOO", "FOO", "BAR"] (by simp)
  have hqf := getMostFrequent_spec h _ q hq
  rw [hq, strict _ q "FOO" hqf]
  intro y hy
  have h1 : ¬ ("FOO" = y) := fun e => hy e.symm
  by_cases hb : "BAR" = y
  · subst hb; decide
  · simp [List.count_cons, h1, hb]

theorem getMostFrequent_most_frequent_witness :
    ∃ r, getMostFrequent HashOrder.reversed ["AB", "CD", "CD"] = some r ∧
      r ∈ ["AB", "CD", "CD"] ∧
      (∀ y, ["AB", "CD", "CD"].count y ≤ ["AB", "CD", "CD"].count r) ∧
      (∀ x, (∀ y, y ≠ x → ["AB", "CD", "CD"].count y < ["AB", "CD", "CD"].count x) → r = x) ∧
      getMostFrequent HashOrder.reversed ["FOO", "FOO", "BAR"] = some "FOO" :=
  getMostFrequent_most_frequent HashOrder.reversed ["AB", "CD", "CD"] (by decide)

/-! ### getMapByName -/

theorem matchTokens_eq_any (map : Map) (tokens : List String) :
    matchTokens map tokens = tokens.any (fun t => map.dictionnary.elem t) := by
  induction tokens with
  | nil => rfl
  | cons t ts ih =>
    simp only [matchTokens, List.any_cons, ih]
    cases map.dictionnary.elem t <;> simp

theorem searchMaps_eq_find (tokens : List String) (maps : List Map) :
    searchMaps tokens maps =
      match maps.find? (fun m => tokens.any (fun t => m.dictionnary.elem t)) with
      | some m => m.name
      | none => "" := by
  induction maps with
  | nil => rfl
  | cons m ms ih =>
    simp only [searchMaps, List.find?_cons, matchTokens_eq_any]
    cases h : tokens.any (fun t => m.dictionnary.elem t)
    · simpa using ih
    · simp

theorem any_perm {α : Type} (p : α → Bool) {l1 l2 : List α} (h : l1.Perm l2) :
    l1.any p = l2.any p := by
  rw [Bool.eq_iff_iff]
  simp only [List.any_eq_true]
  constructor
  · rintro ⟨x, hx, hp⟩; exact ⟨x, h.mem_iff.mp hx, hp⟩
  · rintro ⟨x, hx, hp⟩; exact ⟨x, h.mem_iff.mpr hx, hp⟩

theorem searchMaps_perm {t1 t2 : List String} (h : t1.Perm t2) (maps : List Map) :
    searchMaps t1 maps = searchMaps t2 maps := by
  induction maps with
  | nil => rfl
  | cons m ms ih =>
    simp only [searchMaps, matchTokens_eq_any, any_perm _ h, ih]

theorem searchMaps_range (tokens : List String) (maps : List Map) :
    searchMaps tokens maps = "" ∨ searchMaps tokens maps ∈ maps.map Map.name := by
  induction maps with
  | nil => exact Or.inl rfl
  | cons m ms ih =>
    simp only [searchMaps]
    split
    · exact Or.inr (by simp)
    · rcases ih with h | h
      · exact Or.inl h
      · exact Or.inr (by simp only [List.map_cons, List.mem_cons]; exact Or.inr h)

/-- Claim C8: `getMapByName` returns the canonical name of the first table
entry, in table order, one of whose keywords equals a whitespace-delimited
token of the lower-cased input without line breaks, and `""` when there is
none; the result does not depend on the order of the tokens; matching is
literal (`"p0laris"` gives `""`), `"helios"` and `"station"` each give
`"Helios Station"`, and `"rock cliff"` gives `"The Cliff"`. -/
theorem getMapByName_first_entry (t : String) :
    getMapByName t =
        (match firstEntry (splitBySpace (toLower (removeNewlines t))) with
          | some m => m.name
          | none => "") ∧
      MAPS.map Map.name =
        ["Artefact", "Atlantis", "Ceres", "Engine", "Helios Station", "Lunar Outpost",
          "Outlaw", "Polaris", "Silva", "The Cliff", "The Rock"] ∧
      (∀ u : String, (splitBySpace (toLower (removeNewlines t))).Perm
          (splitBySpace (toLower (removeNewlines u))) → getMapByName t = getMapByName u) ∧
      ((∀ tok ∈ splitBySpace (toLower (removeNewlines t)), ∀ m ∈ MAPS, tok ∉ m.dictionnary) →
        getMapByName t = "") ∧
      getMapByName "p0laris" = "" ∧ getMapByName "helios" = "Helios Station" ∧
      getMapByName "station" = "Helios Station" ∧ getMapByName "rock cliff" = "The Cliff" ∧
      getMapByName "cliff rock" = "The Cliff" := by
  refine ⟨?_, rfl, ?_, ?_, by decide, by decide, by decide, by decide, by decide⟩
  · exact searchMaps_eq_find _ MAPS
  · intro u hp
    exact searchMaps_perm hp MAPS
  · intro hno
    show searchMaps _ MAPS = ""
    rw [searchMaps_eq_find]
    have : MAPS.find? (fun m => (splitBySpace (toLower (removeNewlines t))).any
        (fun tok => m.dictionnary.elem tok)) = none := by
      rw [List.find?_eq_none]
      intro m hm
      simp only [List.any_eq_true, List.elem_eq_mem, decide_eq_true_eq, not_exists, not_and]
      intro tok htok
      exact hno tok htok m hm
    rw [this]

/-- Claim C9: map resolution is idempotent: resolving a resolved result
returns it unchanged, and every canonical name of the table and the empty
string are fixed points of `getMapByName`. -/
theorem getMapByName_idempotent (t : String) :
    getMapByName (getMapByName t) = getMapByName t ∧
      (∀ m ∈ MAPS, getMapByName m.name = m.name) ∧ getMapByName "" = "" := by
  have fix : ∀ n ∈ MAPS.map Map.name, getMapByName n = n := by decide
  refine ⟨?_, ?_, by decide⟩
  · have h := searchMaps_range (splitBySpace (toLower (removeNewlines t))) MAPS
    change getMapByName t = "" ∨ getMapByName t ∈ MAPS.map Map.name at h
    rcases h with h | h
    · rw [h]; decide
    · exact fix _ h
  · intro m hm
    exact fix _ (List.mem_map_of_mem _ hm)

/-! ### getTextFromImage -/

theorem invalidRect_iff (frame : Frame) (x1 y1 x2 y2 : Int) :
    (decide (x1 < 0) || decide (y1 < 0) || decide (x2 > frame.cols) ||
      decide (y2 > frame.rows) || decide (x2 ≤ x1) || decide (y2 ≤ y1)) = true ↔
    InvalidRect frame x1 y1 x2 y2 := by
  simp only [InvalidRect, Bool.or_eq_true, decide_eq_true_eq, or_assoc]

theorem getTextFromImageFuel_zero (frame : Frame) (tess : Tess) (x1 y1 x2 y2 psm : Int)
    (mode : Int) :
    getTextFromImageFuel frame tess x1 y1 x2 y2 psm 0 mode =
      if x1 < 0 || y1 < 0 || x2 > frame.cols || y2 > frame.rows || x2 ≤ x1 || y2 ≤ y1 then
        ([], Except.error (Err.invalid_argument "Coordonnées du rectangle invalides."))
      else ([mode], Except.ok (passText tess x1 y1 x2 y2 psm mode)) := by
  rw [getTextFromImageFuel]
  simp only [passText]
  split
  · rfl
  · split <;> rfl

theorem getTextFromImageFuel_succ (frame : Frame) (tess : Tess) (x1 y1 x2 y2 psm : Int)
    (n : Nat) (mode : Int) :
    getTextFromImageFuel frame tess x1 y1 x2 y2 psm (n + 1) mode =
      if x1 < 0 || y1 < 0 || x2 > frame.cols || y2 > frame.rows || x2 ≤ x1 || y2 ≤ y1 then
        ([], Except.error (Err.invalid_argument "Coordonnées du rectangle invalides."))
      else if passText tess x1 y1 x2 y2 psm mode == "" && mode < 2 then
        (mode :: (getTextFromImageFuel frame tess x1 y1 x2 y2 psm n (mode + 1)).1,
          (getTextFromImageFuel frame tess x1 y1 x2 y2 psm n (mode + 1)).2)
      else ([mode], Except.ok (passText tess x1 y1 x2 y2 psm mode)) := by
  rw [getTextFromImageFuel]
  rfl

theorem getTextFromImageFuel_invalid (frame : Frame) (tess : Tess) (x1 y1 x2 y2 psm : Int)
    (fuel : Nat) (mode : Int) (h : InvalidRect frame x1 y1 x2 y2) :
    getTextFromImageFuel frame tess x1 y1 x2 y2 psm fuel mode =
      ([], Except.error (Err.invalid_argument "Coordonnées du rectangle invalides.")) := by
  have hb := (invalidRect_iff frame x1 y1 x2 y2).mpr h
  cases fuel with
  | zero => rw [getTextFromImageFuel_zero, if_pos hb]
  | succ n => rw [getTextFromImageFuel_succ, if_pos hb]

theorem getTextFromImageFuel_valid (frame : Frame) (tess : Tess) (x1 y1 x2 y2 psm : Int)
    (fuel : Nat) (mode : Int) (h : ¬ InvalidRect frame x1 y1 x2 y2) :
    ∃ r, (getTextFromImageFuel frame tess x1 y1 x2 y2 psm fuel mode).2 = Except.ok r := by
  have hb : ¬ ((decide (x1 < 0) || decide (y1 < 0) || decide (x2 > frame.cols) ||
      decide (y2 > frame.rows) || decide (x2 ≤ x1) || decide (y2 ≤ y1)) = true) :=
    fun hh => h ((invalidRect_iff frame x1 y1 x2 y2).mp hh)
  induction fuel generalizing mode with
  | zero =>
    rw [getTextFromImageFuel_zero, if_neg hb]
    exact ⟨_, rfl⟩
  | succ n ih =>
    rw [getTextFromImageFuel_succ, if_neg hb]
    split
    · exact ih (mode + 1)
    · exact ⟨_, rfl⟩

/-- The fuel of `getTextFromImageTraced` is enough: the function satisfies the
recursive equation of the source. -/
theorem getTextFromImageTraced_unfold (frame : Frame) (tess : Tess) (x1 y1 x2 y2 psm : Int)
    (mode : Int) :
    getTextFromImageTraced frame tess x1 y1 x2 y2 psm mode =
      if x1 < 0 || y1 < 0 || x2 > frame.cols || y2 > frame.rows || x2 ≤ x1 || y2 ≤ y1 then
        ([], Except.error (Err.invalid_argument "Coordonnées du rectangle invalides."))
      else if passText tess x1 y1 x2 y2 psm mode == "" && mode < 2 then
        (mode :: (getTextFromImageTraced frame tess x1 y1 x2 y2 psm (mode + 1)).1,
          (getTextFromImageTraced frame tess x1 y1 x2 y2 psm (mode + 1)).2)
      else ([mode], Except.ok (passText tess x1 y1 x2 y2 psm mode)) := by
  unfold getTextFromImageTraced
  by_cases hm : mode < 2
  · have hf : (2 - mode).toNat = (2 - (mode + 1)).toNat + 1 := by omega
    rw [hf, getTextFromImageFuel_succ]
  · have hf : (2 - mode).toNat = 0 := by omega
    rw [hf, getTextFromImageFuel_zero]
    simp only [hm, decide_False, Bool.and_false, Bool.false_eq_true, ↓reduceIte]

theorem getTextFromImageTraced_valid (frame : Frame) (tess : Tess) (x1 y1 x2 y2 psm : Int)
    (mode : Int) (h : ¬ InvalidRect frame x1 y1 x2 y2) :
    getTextFromImageTraced frame tess x1 y1 x2 y2 psm mode =
      if passText tess x1 y1 x2 y2 psm mode = "" ∧ mode < 2 then
        (mode :: (getTextFromImageTraced frame tess x1 y1 x2 y2 psm (mode + 1)).1,
          (getTextFromImageTraced frame tess x1 y1 x2 y2 psm (mode + 1)).2)
      else ([mode], Except.ok (passText tess x1 y1 x2 y2 psm mode)) := by
  rw [getTextFromImageTraced_unfold]
  have hb : ¬ ((decide (x1 < 0) || decide (y1 < 0) || decide (x2 > frame.cols) ||
      decide (y2 > frame.rows) || decide (x2 ≤ x1) || decide (y2 ≤ y1)) = true) :=
    fun hh => h ((invalidRect_iff frame x1 y1 x2 y2).mp hh)
  rw [if_neg hb]
  simp only [Bool.and_eq_true, beq_iff_eq, decide_eq_true_eq]

/-- Claim C4: on a valid rectangle, `getTextFromImage` started at mode 0
invokes the recogniser on modes 0, 1, 2 in this order (raw, grayscale,
inverted) and returns the text, line breaks removed, of the first mode whose
text is non-empty, or the mode-2 text when modes 0 and 1 are both empty; when
only mode 2 reads text, modes 0 and 1 were attempted first. -/
theorem getTextFromImage_fallback_order (frame : Frame) (tess : Tess)
    (x1 y1 x2 y2 psm : Int) (h : ¬ InvalidRect frame x1 y1 x2 y2) :
    getTextFromImageTraced frame tess x1 y1 x2 y2 psm 0 =
        (if passText tess x1 y1 x2 y2 psm 0 ≠ "" then
          ([0], Except.ok (passText tess x1 y1 x2 y2 psm 0))
        else if passText tess x1 y1 x2 y2 psm 1 ≠ "" then
          ([0, 1], Except.ok (passText tess x1 y1 x2 y2 psm 1))
        else ([0, 1, 2], Except.ok (passText tess x1 y1 x2 y2 psm 2))) ∧
      getTextFromImage frame tess x1 y1 x2 y2 psm 0 =
        (getTextFromImageTraced frame tess x1 y1 x2 y2 psm 0).2 ∧
      targetOf 0 = Preproc.raw ∧ targetOf 1 = Preproc.gray ∧ targetOf 2 = Preproc.inverted ∧
      (passText tess x1 y1 x2 y2 psm 0 = "" → passText tess x1 y1 x2 y2 psm 1 = "" →
        getTextFromImageTraced frame tess x1 y1 x2 y2 psm 0 =
          ([0, 1, 2], Except.ok (passText tess x1 y1 x2 y2 psm 2))) := by
  have e0 := getTextFromImageTraced_valid frame tess x1 y1 x2 y2 psm 0 h
  have e1 := getTextFromImageTraced_valid frame tess x1 y1 x2 y2 psm 1 h
  have e2 := getTextFromImageTraced_valid frame tess x1 y1 x2 y2 psm 2 h
  simp only [Int.reduceLT, and_true, and_false, ↓reduceIte, Int.reduceAdd, zero_add] at e0 e1 e2
  have main : getTextFromImageTraced frame tess x1 y1 x2 y2 psm 0 =
        (if passText tess x1 y1 x2 y2 psm 0 ≠ "" then
          ([0], Except.ok (passText tess x1 y1 x2 y2 psm 0))
        else if passText tess x1 y1 x2 y2 psm 1 ≠ "" then
          ([0, 1], Except.ok (passText tess x1 y1 x2 y2 psm 1))
        else ([0, 1, 2], Except.ok (passText tess x1 y1 x2 y2 psm 2))) := by
    rw [e0]
    by_cases h0 : passText tess x1 y1 x2 y2 psm 0 = ""
    · rw [e1]
      by_cases h1 : passText tess x1 y1 x2 y2 psm 1 = ""
      · simp [h0, h1, e2]
      · simp [h0, h1]
    · simp [h0]
  refine ⟨main, rfl, rfl, rfl, rfl, ?_⟩
  intro h0 h1
  rw [main]
  simp [h0, h1]

theorem getTextFromImage_fallback_order_witness :
    ¬ InvalidRect demoFrame 530 89 620 127 ∧
      getTextFromImageTraced demoFrame invertedOnlyTess 530 89 620 127 7 0 =
        ([0, 1, 2], Except.ok "42") := by
  have hv : ¬ InvalidRect demoFrame 530 89 620 127 := by
    simp [InvalidRect, demoFrame]
  refine ⟨hv, ?_⟩
  have h := (getTextFromImage_fallback_order demoFrame invertedOnlyTess 530 89 620 127 7 hv).2.2.2.2.2
    (by decide) (by decide)
  rw [h]
  rfl

/-- Claim C5: `getTextFromImage` throws the invalid-argument exception exactly
when `x1 < 0`, `y1 < 0`, `x2 > cols`, `y2 > rows`, `x2 <= x1` or `y2 <= y1`
(and throws nothing else); it then has not invoked the recogniser, and a
rectangle with `x2 <= x1` or `x2 > cols` always fails. -/
theorem getTextFromImage_invalid_iff (frame : Frame) (tess : Tess)
    (x1 y1 x2 y2 psm mode : Int) :
    (getTextFromImage frame tess x1 y1 x2 y2 psm mode =
        Except.error (Err.invalid_argument "Coordonnées du rectangle invalides.") ↔
      (x1 < 0 ∨ y1 < 0 ∨ x2 > frame.cols ∨ y2 > frame.rows ∨ x2 ≤ x1 ∨ y2 ≤ y1)) ∧
    ((∃ e, getTextFromImage frame tess x1 y1 x2 y2 psm mode = Except.error e) ↔
      (x1 < 0 ∨ y1 < 0 ∨ x2 > frame.cols ∨ y2 > frame.rows ∨ x2 ≤ x1 ∨ y2 ≤ y1)) ∧
    ((x1 < 0 ∨ y1 < 0 ∨ x2 > frame.cols ∨ y2 > frame.rows ∨ x2 ≤ x1 ∨ y2 ≤ y1) →
      (getTextFromImageTraced frame tess x1 y1 x2 y2 psm mode).1 = []) ∧
    (x2 ≤ x1 → ∃ e, getTextFromImage frame tess x1 y1 x2 y2 psm mode = Except.error e) ∧
    (x2 > frame.cols →
      ∃ e, getTextFromImage frame tess x1 y1 x2 y2 psm mode = Except.error e) := by
  have inv : InvalidRect frame x1 y1 x2 y2 →
      getTextFromImageTraced frame tess x1 y1 x2 y2 psm mode =
        ([], Except.error (Err.invalid_argument "Coordonnées du rectangle invalides.")) :=
    fun h => getTextFromImageFuel_invalid frame tess x1 y1 x2 y2 psm _ mode h
  have val : ¬ InvalidRect frame x1 y1 x2 y2 →
      ∃ r, getTextFromImage frame tess x1 y1 x2 y2 psm mode = Except.ok r :=
    fun h => getTextFromImageFuel_valid frame tess x1 y1 x2 y2 psm _ mode h
  have key : (∃ e, getTextFromImage frame tess x1 y1 x2 y2 psm mode = Except.error e) →
      InvalidRect frame x1 y1 x2 y2 := by
    rintro ⟨e, he⟩
    by_contra hn
    obtain ⟨r, hr⟩ := val hn
    rw [hr] at he
    cases he
  have inv2 : InvalidRect frame x1 y1 x2 y2 →
      getTextFromImage frame tess x1 y1 x2 y2 psm mode =
        Except.error (Err.invalid_argument "Coordonnées du rectangle invalides.") := by
    intro h
    unfold getTextFromImage
    rw [inv h]
  refine ⟨⟨fun h => key ⟨_, h⟩, inv2⟩, ⟨key, fun h => ⟨_, inv2 h⟩⟩, ?_, ?_, ?_⟩
  · intro h
    rw [inv h]
  · intro h
    exact ⟨_, inv2 (Or.inr (Or.inr (Or.inr (Or.inr (Or.inl h)))))⟩
  · intro h
    exact ⟨_, inv2 (Or.inr (Or.inr (Or.inl h)))⟩

/-! ### Except helpers -/

theorem bind_eq_ok {ε α β : Type} {x : Except ε α} {f : α → Except ε β} {b : β}
    (h : (x >>= f) = Except.ok b) : ∃ a, x = Except.ok a ∧ f a = Except.ok b := by
  cases x with
  | error e => cases h
  | ok a => exact ⟨a, rfl, h⟩

theorem map_eq_ok {ε α β : Type} {x : Except ε α} {f : α → β} {b : β}
    (h : x.map f = Except.ok b) : ∃ a, x = Except.ok a ∧ f a = b := by
  cases x with
  | error e => cases h
  | ok a =>
    simp only [Except.map, Except.ok.injEq] at h
    exact ⟨a, rfl, h⟩

/-! ### Detector gates -/

theorem detectGameScoreFrame_gate (frame : Frame) (games : List Game)
    (h : detectGameScoreFrame frame games = true) :
    games = [] ∨ (front games).start ≠ -1 := by
  unfold detectGameScoreFrame at h
  split at h
  · rename_i hg
    simp only [Bool.or_eq_true, List.isEmpty_iff, bne_iff_ne, ne_eq] at hg
    exact hg
  · cases h

theorem detectGameLoadingFrame_gate (frame : Frame) (games : List Game)
    (h : detectGameLoadingFrame frame games = true) :
    ∃ g rest, games = g :: rest ∧ g.end_.time ≠ -1 ∧ g.start = -1 := by
  unfold detectGameLoadingFrame at h
  split at h
  · rename_i hg
    cases games with
    | nil => simp at hg
    | cons g rest =>
      simp only [front, List.headD_cons, Bool.and_eq_true, bne_iff_ne, ne_eq, beq_iff_eq] at hg
      exact ⟨g, rest, rfl, hg.1.2, hg.2⟩
  · cases h

theorem detectGameIntro_gate (frame : Frame) (games : List Game)
    (h : detectGameIntro frame games = true) :
    ∃ g rest, games = g :: rest ∧ g.end_.time ≠ -1 ∧ g.start = -1 := by
  unfold detectGameIntro at h
  split at h
  · rename_i hg
    cases games with
    | nil => simp at hg
    | cons g rest =>
      simp only [front, List.headD_cons, Bool.and_eq_true, bne_iff_ne, ne_eq, beq_iff_eq] at hg
      exact ⟨g, rest, rfl, hg.1.2, hg.2⟩
  · cases h

theorem detectGamePlaying_gate (frame : Frame) (games : List Game)
    (h : detectGamePlaying frame games = true) :
    ∃ g rest, games = g :: rest ∧ g.start = -1 := by
  unfold detectGamePlaying at h
  split at h
  · rename_i hg
    cases games with
    | nil => simp at hg
    | cons g rest =>
      simp only [front, List.headD_cons, Bool.and_eq_true, beq_iff_eq] at hg
      exact ⟨g, rest, rfl, hg.2⟩
  · cases h

/-! ### Blocks -/

theorem readScoreGame_fresh (obs : Obs) (game : Game) (h : readScoreGame obs = Except.ok game) :
    game.start = -1 ∧ game.end_.time = obs.posSec ∧ game.map = "" ∧
      game.orangeTeam.name = "" ∧ game.orangeTeam.names = [] ∧
      game.blueTeam.name = "" ∧ game.blueTeam.names = [] ∧ game.debug_jumped = false := by
  unfold readScoreGame at h
  obtain ⟨o, _, h⟩ := bind_eq_ok h
  obtain ⟨g1, h1, h⟩ := bind_eq_ok h
  obtain ⟨b, _, h⟩ := bind_eq_ok h
  obtain ⟨g2, h2, h⟩ := bind_eq_ok h
  obtain ⟨e, _, h⟩ := bind_eq_ok h
  obtain ⟨g3, h3, h⟩ := bind_eq_ok h
  cases h
  have e1 : g1.start = -1 ∧ g1.end_.time = obs.posSec ∧ g1.map = "" ∧
      g1.orangeTeam.name = "" ∧ g1.orangeTeam.names = [] ∧
      g1.blueTeam.name = "" ∧ g1.blueTeam.names = [] ∧ g1.debug_jumped = false := by
    split at h1
    · obtain ⟨v, _, rfl⟩ := map_eq_ok h1
      simp
    · cases h1
      simp
  have e2 : g2.start = -1 ∧ g2.end_.time = obs.posSec ∧ g2.map = "" ∧
      g2.orangeTeam.name = "" ∧ g2.orangeTeam.names = [] ∧
      g2.blueTeam.name = "" ∧ g2.blueTeam.names = [] ∧ g2.debug_jumped = false := by
    split at h2
    · obtain ⟨v, _, rfl⟩ := map_eq_ok h2
      exact e1
    · cases h2
      exact e1
  split at h3
  · obtain ⟨v, _, rfl⟩ := map_eq_ok h3
    exact e2
  · cases h3
    exact e2

theorem mapBlock_core (obs : Obs) (g g2 : Game) (h : mapBlock obs g = Except.ok g2) :
    g2.start = g.start ∧ g2.end_ = g.end_ ∧ g2.orangeTeam = g.orangeTeam ∧
      g2.blueTeam = g.blueTeam ∧ g2.debug_jumped = g.debug_jumped ∧
      (g.map ≠ "" → g2.map = g.map) := by
  unfold mapBlock at h
  split at h
  · rename_i hm
    obtain ⟨t, _, h⟩ := bind_eq_ok h
    simp only [beq_iff_eq] at hm
    dsimp only at h
    split at h <;> cases h <;> simp [hm]
  · cases h
    simp

theorem jumpBlock_core (cfg : Config) (obs : Obs) (nb : Nat) (g : Game) (i : Int)
    (out : List Line) (r : Game × Int × List Line)
    (h : jumpBlock cfg obs nb g i out = Except.ok r) :
    r.1 = g ∨ r.1 = { g with debug_jumped := true } := by
  unfold jumpBlock at h
  split at h
  · obtain ⟨t, _, h⟩ := bind_eq_ok h
    split at h
    · obtain ⟨m, _, h⟩ := bind_eq_ok h
      obtain ⟨sec, _, h⟩ := bind_eq_ok h
      dsimp only at h
      split at h <;> cases h
      · exact Or.inr rfl
      · exact Or.inl rfl
    · cases h
      exact Or.inl rfl
  · cases h
    exact Or.inl rfl

theorem teamNameBlock_inv (h : HashOrder) (obs : Obs) (x1 y1 x2 y2 : Int) (team team2 : Team)
    (hinv : TeamInv team) (hb : teamNameBlock h obs x1 y1 x2 y2 team = Except.ok team2) :
    TeamInv team2 := by
  obtain ⟨hlen, htwo, hname⟩ := hinv
  unfold teamNameBlock at hb
  split at hb
  · rename_i hlt
    simp only [TEAM_NAME_ERROR_ARRAY_SIZE] at hlt
    obtain ⟨t, _, hb⟩ := bind_eq_ok hb
    split at hb
    · rename_i ht
      cases hb
      refine ⟨?_, ?_, ?_⟩
      · simp only [List.length_append, List.length_singleton]
        omega
      · intro n hn
        simp only [List.mem_append, List.mem_singleton] at hn
        rcases hn with hn | rfl
        · exact htwo n hn
        · exact ht
      · intro hne
        have := (hname hne).1
        omega
    · cases hb
      exact ⟨hlen, htwo, hname⟩
  · rename_i hge
    simp only [TEAM_NAME_ERROR_ARRAY_SIZE, not_lt] at hge
    split at hb
    · split at hb
      · rename_i name hmf
        cases hb
        exact ⟨hlen, htwo, fun _ => ⟨le_antisymm hlen hge, getMostFrequent_spec h _ _ hmf⟩⟩
      · cases hb
    · cases hb
      exact ⟨hlen, htwo, hname⟩

theorem teamNameBlock_name (h : HashOrder) (obs : Obs) (x1 y1 x2 y2 : Int) (team team2 : Team)
    (hb : teamNameBlock h obs x1 y1 x2 y2 team = Except.ok team2) (hne : team.name ≠ "") :
    team2.name = team.name := by
  unfold teamNameBlock at hb
  split at hb
  · obtain ⟨t, _, hb⟩ := bind_eq_ok hb
    split at hb <;> cases hb <;> rfl
  · split at hb
    · rename_i he
      simp only [beq_iff_eq] at he
      exact absurd he hne
    · cases hb
      rfl

/-! ### The loop iteration -/

theorem percentBlock_games (cfg : Config) (s : Scan) : (percentBlock cfg s).games = s.games := by
  unfold percentBlock
  simp only
  split <;> rfl

theorem percentBlock_i (cfg : Config) (s : Scan) : (percentBlock cfg s).i = s.i := by
  unfold percentBlock
  simp only
  split <;> rfl

theorem step_eq_firstMatch (cfg : Config) (obs : Obs) (s : Scan) :
    step cfg obs s = firstMatch cfg obs s := by
  unfold step firstMatch
  simp only [percentBlock_games, percentBlock_i]
  cases hr : obs.readOk
  · simp
  · simp only [Bool.not_true, Bool.false_eq_true, ↓reduceIte]
    cases hs : detectGameScoreFrame obs.frame s.games
    · simp only [scoreBlock, Bool.not_false, Bool.true_and, hs, Bool.false_eq_true, ↓reduceIte,
        pure, Except.pure, bind, Except.bind, loadingBlock]
      cases hl : detectGameLoadingFrame obs.frame s.games
      · simp only [Bool.false_eq_true, ↓reduceIte, introBlock, Bool.not_false, Bool.true_and]
        cases hi : detectGameIntro obs.frame s.games
        · simp only [Bool.false_eq_true, ↓reduceIte, playingBlock, Bool.not_false, Bool.true_and]
          cases hp : detectGamePlaying obs.frame s.games
          · simp [pure, Except.pure]
          · simp only [↓reduceIte]
            cases hg : s.games with
            | nil => simp [pure, Except.pure]
            | cons g rest =>
              simp only [Except.map]
              cases enrichFront cfg obs (g :: rest).length g s.i (percentBlock cfg s).out <;> rfl
        · simp [playingBlock, pure, Except.pure]
      · simp [introBlock, playingBlock, pure, Except.pure]
    · simp only [scoreBlock, Bool.not_false, Bool.true_and, hs, ↓reduceIte]
      cases readScoreGame obs with
      | error e => rfl
      | ok game =>
        simp [Except.map, bind, Except.bind, loadingBlock, introBlock, playingBlock, pure,
          Except.pure]

theorem enrichFront_core (cfg : Config) (obs : Obs) (nb : Nat) (g : Game) (i : Int)
    (out : List Line) (r : Game × Int × List Line)
    (h : enrichFront cfg obs nb g i out = Except.ok r) :
    r.1.start = g.start ∧ r.1.end_ = g.end_ ∧
      (TeamInv g.orangeTeam → TeamInv r.1.orangeTeam) ∧
      (TeamInv g.blueTeam → TeamInv r.1.blueTeam) ∧
      (g.orangeTeam.name ≠ "" → r.1.orangeTeam.name = g.orangeTeam.name) ∧
      (g.blueTeam.name ≠ "" → r.1.blueTeam.name = g.blueTeam.name) := by
  unfold enrichFront at h
  obtain ⟨g1, h1, h⟩ := bind_eq_ok h
  obtain ⟨orange, ho, h⟩ := bind_eq_ok h
  obtain ⟨blue, hb, h⟩ := bind_eq_ok h
  obtain ⟨e1, e2, e3, e4, _, _⟩ := mapBlock_core obs g g1 h1
  dsimp only at hb h
  rw [e3] at ho
  rw [e4] at hb
  have hj := jumpBlock_core cfg obs nb _ i out r h
  have key : r.1.start = g.start ∧ r.1.end_ = g.end_ ∧ r.1.orangeTeam = orange ∧
      r.1.blueTeam = blue := by
    rcases hj with hj | hj <;> rw [hj] <;> exact ⟨e1, e2, rfl, rfl⟩
  obtain ⟨k1, k2, k3, k4⟩ := key
  refine ⟨k1, k2, ?_, ?_, ?_, ?_⟩
  · intro hinv
    rw [k3]
    exact teamNameBlock_inv _ _ _ _ _ _ _ _ hinv ho
  · intro hinv
    rw [k4]
    exact teamNameBlock_inv _ _ _ _ _ _ _ _ hinv hb
  · intro hne
    rw [k3]
    exact teamNameBlock_name _ _ _ _ _ _ _ _ ho hne
  · intro hne
    rw [k4]
    exact teamNameBlock_name _ _ _ _ _ _ _ _ hb hne

/-- What one loop iteration can do to the list of games. -/
theorem step_cases (cfg : Config) (obs : Obs) (s s2 : Scan)
    (h : step cfg obs s = Except.ok s2) :
    s2.games = s.games ∨
    (detectGameScoreFrame obs.frame s.games = true ∧
      ∃ game, readScoreGame obs = Except.ok game ∧ s2.games = game :: s.games) ∨
    (∃ g rest, s.games = g :: rest ∧ g.start = -1 ∧ g.end_.time ≠ -1 ∧
      s2.games = { g with start := obs.posSec + 2 } :: rest) ∨
    (∃ g rest r, s.games = g :: rest ∧ g.start = -1 ∧
      enrichFront cfg obs (g :: rest).length g s.i (percentBlock cfg s).out = Except.ok r ∧
      s2.games = r.1 :: rest) := by
  rw [step_eq_firstMatch] at h
  unfold firstMatch at h
  dsimp only at h
  split at h
  · cases h
    exact Or.inl (percentBlock_games cfg s)
  · split at h
    · rename_i hs
      obtain ⟨game, hg, rfl⟩ := map_eq_ok h
      exact Or.inr (Or.inl ⟨hs, game, hg, rfl⟩)
    · split at h
      · rename_i hl
        obtain ⟨g, rest, hg, ht, hst⟩ := detectGameLoadingFrame_gate _ _ hl
        cases h
        exact Or.inr (Or.inr (Or.inl ⟨g, rest, hg, hst, ht, by simp [hg, modifyFront]⟩))
      · split at h
        · rename_i hi
          obtain ⟨g, rest, hg, ht, hst⟩ := detectGameIntro_gate _ _ hi
          cases h
          exact Or.inr (Or.inr (Or.inl ⟨g, rest, hg, hst, ht, by simp [hg, modifyFront]⟩))
        · split at h
          · rename_i hp
            obtain ⟨g, rest, hg, hst⟩ := detectGamePlaying_gate _ _ hp
            rw [hg] at h
            dsimp only at h
            obtain ⟨r, hr, rfl⟩ := map_eq_ok h
            exact Or.inr (Or.inr (Or.inr ⟨g, rest, r, hg, hst, hr, rfl⟩))
          · cases h
            exact Or.inl (percentBlock_games cfg s)

theorem survivors_self (l : List Game) : survivors l l = l := by
  simp [survivors]

theorem survivors_cons (g : Game) (l : List Game) : survivors l (g :: l) = l := by
  simp [survivors]

theorem survivors_front (g g2 : Game) (l : List Game) :
    survivors (g :: l) (g2 :: l) = g2 :: l := by
  simp [survivors]

theorem forall2_refl (R : Game → Game → Prop) (hrefl : ∀ g, R g g) (l : List Game) :
    List.Forall₂ R l l := by
  induction l with
  | nil => exact List.Forall₂.nil
  | cons a l ih => exact List.Forall₂.cons (hrefl a) ih

/-- A relation between a game before and after one iteration holds for all
games of the list as soon as it is reflexive and holds for the two ways the
front game can change. -/
theorem step_forall2 (cfg : Config) (obs : Obs) (s s2 : Scan) (R : Game → Game → Prop)
    (hrefl : ∀ g, R g g)
    (hclose : ∀ g : Game, g.start = -1 → R g { g with start := obs.posSec + 2 })
    (henrich : ∀ (g : Game) (nb : Nat) (i : Int) (out : List Line) (r : Game × Int × List Line),
      enrichFront cfg obs nb g i out = Except.ok r → R g r.1)
    (h : step cfg obs s = Except.ok s2) :
    s.games.length ≤ s2.games.length ∧ List.Forall₂ R s.games (survivors s.games s2.games) := by
  rcases step_cases cfg obs s s2 h with h1 | ⟨_, game, _, h2⟩ | ⟨g, rest, hg, hst, _, h3⟩ |
    ⟨g, rest, r, hg, _, hr, h4⟩
  · rw [h1, survivors_self]
    exact ⟨le_refl _, forall2_refl R hrefl _⟩
  · rw [h2, survivors_cons]
    exact ⟨by simp, forall2_refl R hrefl _⟩
  · rw [h3, hg, survivors_front]
    exact ⟨by simp, List.Forall₂.cons (hclose g hst) (forall2_refl R hrefl _)⟩
  · rw [h4, hg, survivors_front]
    exact ⟨by simp, List.Forall₂.cons (henrich g _ _ _ r hr) (forall2_refl R hrefl _)⟩

theorem iterations_reachable (cfg : Config) (env : Int → Obs) (n : Nat) (s s2 : Scan)
    (hs : Reachable cfg s) (h : iterations cfg env n s = Except.ok s2) : Reachable cfg s2 := by
  induction n generalizing s with
  | zero =>
    cases h
    exact hs
  | succ n ih =>
    unfold iterations at h
    split at h
    · rename_i hi
      cases hstep : step cfg (env s.i) s with
      | error e => rw [hstep] at h; cases h
      | ok s1 =>
        rw [hstep] at h
        exact ih s1 (Reachable.next (env s.i) hs hi hstep) h
    · cases h
      exact hs

theorem demoScan_first : step demoCfg demoObs (initial demoCfg) = Except.ok (demoScan 0) := by
  rfl

theorem demoScan_step (k : Nat) (hk : k < 10) :
    step demoCfg demoObs (demoScan k) = Except.ok (demoScan (k + 1)) := by
  interval_cases k <;> rfl

theorem demoScan_jump : step demoCfg demoObs (demoScan 10) = Except.ok demoJumped := by
  rfl

theorem demoScan_cursor (k : Nat) (hk : k ≤ 10) : 0 ≤ (demoScan k).i := by
  show (0 : Int) ≤ 67 - 2 * (k : Int)
  omega

theorem demoScan_reachable (k : Nat) (hk : k ≤ 10) : Reachable demoCfg (demoScan k) := by
  induction k with
  | zero => exact Reachable.next demoObs Reachable.init (by decide) demoScan_first
  | succ n ih =>
    exact Reachable.next demoObs (ih (by omega)) (demoScan_cursor n (by omega))
      (demoScan_step n (by omega))

theorem demoJumped_reachable : Reachable demoCfg demoJumped :=
  Reachable.next demoObs (demoScan_reachable 10 (le_refl _)) (demoScan_cursor 10 (le_refl _))
    demoScan_jump

theorem tailClosed_step (cfg : Config) (obs : Obs) (s s2 : Scan)
    (hinv : ∀ g ∈ s.games.tail, g.start ≠ -1) (h : step cfg obs s = Except.ok s2) :
    ∀ g ∈ s2.games.tail, g.start ≠ -1 := by
  rcases step_cases cfg obs s s2 h with h1 | ⟨hd, game, _, h2⟩ | ⟨g, rest, hg, _, _, h3⟩ |
    ⟨g, rest, r, hg, _, _, h4⟩
  · rw [h1]; exact hinv
  · rw [h2]
    simp only [List.tail_cons]
    intro g hg
    rcases detectGameScoreFrame_gate _ _ hd with he | hf
    · rw [he] at hg; cases hg
    · cases hl : s.games with
      | nil => rw [hl] at hg; cases hg
      | cons a l =>
        rw [hl] at hg hf hinv
        rcases List.mem_cons.mp hg with rfl | hm
        · exact hf
        · exact hinv g hm
  · rw [h3]; rw [hg] at hinv; exact hinv
  · rw [h4]; rw [hg] at hinv; exact hinv

theorem reachable_tailClosed (cfg : Config) (s : Scan) (hr : Reachable cfg s) :
    ∀ g ∈ s.games.tail, g.start ≠ -1 := by
  induction hr with
  | init => intro g hg; cases hg
  | next obs _ _ hstep ih => exact tailClosed_step cfg obs _ _ ih hstep

theorem teamInv_step (cfg : Config) (obs : Obs) (s s2 : Scan)
    (hinv : ∀ g ∈ s.games, TeamInv g.orangeTeam ∧ TeamInv g.blueTeam)
    (h : step cfg obs s = Except.ok s2) :
    ∀ g ∈ s2.games, TeamInv g.orangeTeam ∧ TeamInv g.blueTeam := by
  rcases step_cases cfg obs s s2 h with h1 | ⟨_, game, hgame, h2⟩ | ⟨g, rest, hg, _, _, h3⟩ |
    ⟨g, rest, r, hg, _, hr, h4⟩
  · rw [h1]; exact hinv
  · rw [h2]
    intro g hg
    rcases List.mem_cons.mp hg with rfl | hm
    · obtain ⟨_, _, _, ho, hon, hb, hbn, _⟩ := readScoreGame_fresh obs _ hgame
      exact ⟨⟨by simp [hon], by simp [hon], fun hne => absurd ho hne⟩,
        ⟨by simp [hbn], by simp [hbn], fun hne => absurd hb hne⟩⟩
    · exact hinv g hm
  · rw [h3]
    rw [hg] at hinv
    intro x hx
    rcases List.mem_cons.mp hx with rfl | hm
    · exact hinv g (List.mem_cons_self _ _)
    · exact hinv x (List.mem_cons_of_mem _ hm)
  · rw [h4]
    rw [hg] at hinv
    intro x hx
    rcases List.mem_cons.mp hx with rfl | hm
    · obtain ⟨_, _, io, ib, _, _⟩ := enrichFront_core _ _ _ _ _ _ _ hr
      have := hinv g (List.mem_cons_self _ _)
      exact ⟨io this.1, ib this.2⟩
    · exact hinv x (List.mem_cons_of_mem _ hm)

theorem reachable_teamInv (cfg : Config) (s : Scan) (hr : Reachable cfg s) :
    ∀ g ∈ s.games, TeamInv g.orangeTeam ∧ TeamInv g.blueTeam := by
  induction hr with
  | init => intro g hg; cases hg
  | next obs _ _ hstep ih => exact teamInv_step cfg obs _ _ ih hstep

/-! ### The cursor -/

theorem jumpBlock_cursor (cfg : Config) (obs : Obs) (nb : Nat) (g : Game) (i : Int)
    (out : List Line) (r : Game × Int × List Line)
    (h : jumpBlock cfg obs nb g i out = Except.ok r) :
    r.2.1 = i ∨
    ∃ m sec, ClockReads obs m sec ∧ m ≤ 9 ∧ r.2.1 = i - ((10 - m) * 60 - sec) * cfg.FPS := by
  unfold jumpBlock at h
  split at h
  · obtain ⟨t, ht, h⟩ := bind_eq_ok h
    split at h
    · rename_i p0 p1 hsp
      obtain ⟨m, hm, h⟩ := bind_eq_ok h
      obtain ⟨sec, hsec, h⟩ := bind_eq_ok h
      dsimp only at h
      by_cases hle : m ≤ 9
      · rw [if_pos hle] at h
        cases h
        exact Or.inr ⟨m, sec, ⟨t, p0, p1, ht, hsp, hm, hsec⟩, hle, rfl⟩
      · rw [if_neg hle] at h
        cases h
        exact Or.inl rfl
    · cases h
      exact Or.inl rfl
  · cases h
    exact Or.inl rfl

theorem enrichFront_cursor (cfg : Config) (obs : Obs) (nb : Nat) (g : Game) (i : Int)
    (out : List Line) (r : Game × Int × List Line)
    (h : enrichFront cfg obs nb g i out = Except.ok r) :
    r.2.1 = i ∨
    ∃ m sec, ClockReads obs m sec ∧ m ≤ 9 ∧ r.2.1 = i - ((10 - m) * 60 - sec) * cfg.FPS := by
  unfold enrichFront at h
  obtain ⟨g1, _, h⟩ := bind_eq_ok h
  obtain ⟨orange, _, h⟩ := bind_eq_ok h
  obtain ⟨blue, _, h⟩ := bind_eq_ok h
  exact jumpBlock_cursor cfg obs nb _ i out r h

/-- Where one loop iteration leaves the cursor: the regular step, the
30-second skip, or the fast-forward skip computed from a clock reading. -/
theorem step_cursor (cfg : Config) (obs : Obs) (s s2 : Scan)
    (h : step cfg obs s = Except.ok s2) :
    s2.i = s.i - cfg.FPS * JUMP ∨
    s2.i = s.i - 30 * cfg.FPS - cfg.FPS * JUMP ∨
    ∃ m sec, ClockReads obs m sec ∧ m ≤ 9 ∧
      s2.i = s.i - ((10 - m) * 60 - sec) * cfg.FPS - cfg.FPS * JUMP := by
  rw [step_eq_firstMatch] at h
  unfold firstMatch at h
  dsimp only at h
  split at h
  · cases h; exact Or.inl rfl
  · split at h
    · obtain ⟨game, _, rfl⟩ := map_eq_ok h
      exact Or.inr (Or.inl rfl)
    · split at h
      · cases h; exact Or.inl rfl
      · split at h
        · cases h; exact Or.inl rfl
        · split at h
          · split at h
            · cases h; exact Or.inl rfl
            · obtain ⟨r, hr, rfl⟩ := map_eq_ok h
              rcases enrichFront_cursor _ _ _ _ _ _ _ hr with e | ⟨m, sec, hc, hm, e⟩
              · exact Or.inl (by simp only [e])
              · exact Or.inr (Or.inr ⟨m, sec, hc, hm, by simp only [e]⟩)
          · cases h; exact Or.inl rfl

/-- With at least one frame per second, an iteration moves the cursor
backward unless it read a clock whose seconds field overshoots the ten-minute
mark by two seconds or more. -/
theorem step_cursor_decreases (cfg : Config) (obs : Obs) (s s2 : Scan) (hfps : 1 ≤ cfg.FPS)
    (hclock : ∀ m sec, ClockReads obs m sec → m ≤ 9 → sec ≤ (10 - m) * 60 + 1)
    (h : step cfg obs s = Except.ok s2) : s2.i < s.i := by
  rcases step_cursor cfg obs s s2 h with e | e | ⟨m, sec, hc, hm, e⟩
  · rw [e]; simp only [JUMP]; omega
  · rw [e]; simp only [JUMP]; omega
  · rw [e]
    have h1 := hclock m sec hc hm
    have h2 : 0 ≤ ((10 - m) * 60 - sec + 1) * cfg.FPS + (cfg.FPS - 1) :=
      add_nonneg (mul_nonneg (by omega) (by omega)) (by omega)
    simp only [JUMP]
    nlinarith

/-- The loop ends: with at least one frame per second and no overshooting clock
reading anywhere in the video, a budget larger than the cursor is enough for
`scanLoop` to finish (with a final state or an exception). -/
theorem scanLoop_finishes (cfg : Config) (env : Int → Obs) (hfps : 1 ≤ cfg.FPS)
    (hclock : ∀ i m sec, ClockReads (env i) m sec → m ≤ 9 → sec ≤ (10 - m) * 60 + 1)
    (fuel : Nat) (s : Scan) (hfuel : s.i < fuel) :
    scanLoop cfg env fuel s ≠ Except.ok none := by
  induction fuel generalizing s with
  | zero =>
    have hneg : ¬ s.i ≥ 0 := by simp only [Nat.cast_zero] at hfuel; omega
    simp only [scanLoop, hneg, ↓reduceIte, pure, Except.pure]
    intro hc
    cases hc
  | succ n ih =>
    unfold scanLoop
    split
    · cases hstep : step cfg (env s.i) s with
      | error e => intro hc; cases hc
      | ok s1 =>
        have hlt := step_cursor_decreases cfg (env s.i) s s1 hfps (hclock s.i) hstep
        exact ih s1 (by push_cast at hfuel; omega)
    · intro hc
      cases hc

/-! ## Claims about the scan -/

/-- Claim C1: in every state reachable by the scan, every game behind the front
of the list has `start != -1`, so only the front game can be open; and an
iteration either keeps the length of the list or pushes one open game onto a
list that was empty or had a front game with `start != -1`. -/
theorem open_game_is_front (cfg : Config) (s : Scan) (hr : Reachable cfg s) :
    (∀ g ∈ s.games.tail, g.start ≠ -1) ∧
    (∀ (obs : Obs) (s2 : Scan), step cfg obs s = Except.ok s2 →
      s2.games.length = s.games.length ∨
      ((s.games = [] ∨ (front s.games).start ≠ -1) ∧
        ∃ game, game.start = -1 ∧ s2.games = game :: s.games)) := by
  refine ⟨reachable_tailClosed cfg s hr, ?_⟩
  intro obs s2 h
  rcases step_cases cfg obs s s2 h with h1 | ⟨hd, game, hgame, h2⟩ | ⟨g, rest, hg, _, _, h3⟩ |
    ⟨g, rest, r, hg, _, _, h4⟩
  · exact Or.inl (by rw [h1])
  · exact Or.inr ⟨detectGameScoreFrame_gate _ _ hd, game,
      (readScoreGame_fresh obs game hgame).1, h2⟩
  · exact Or.inl (by rw [h3, hg]; rfl)
  · exact Or.inl (by rw [h4, hg]; rfl)

theorem open_game_is_front_witness :
    (∀ g ∈ (demoScan 10).games.tail, g.start ≠ -1) ∧
    (∀ (obs : Obs) (s2 : Scan), step demoCfg obs (demoScan 10) = Except.ok s2 →
      s2.games.length = (demoScan 10).games.length ∨
      (((demoScan 10).games = [] ∨ (front (demoScan 10).games).start ≠ -1) ∧
        ∃ game, game.start = -1 ∧ s2.games = game :: (demoScan 10).games)) :=
  open_game_is_front demoCfg (demoScan 10) (demoScan_reachable 10 (le_refl _))

/-- Claim C2: with a non-negative timestamp, one iteration deletes no game and,
for every game already in the list, leaves `end.time` and `end.elapsed`
unchanged, leaves `start` unchanged when it was assigned (`start != -1`),
and only ever changes `start` to a value different from the sentinel `-1`. -/
theorem set_once_fields (cfg : Config) (obs : Obs) (s s2 : Scan) (hts : 0 ≤ obs.posSec)
    (h : step cfg obs s = Except.ok s2) :
    s.games.length ≤ s2.games.length ∧
    List.Forall₂
      (fun g g2 => g2.end_.time = g.end_.time ∧ g2.end_.elapsed = g.end_.elapsed ∧
        (g.start ≠ -1 → g2.start = g.start) ∧ (g2.start ≠ g.start → g2.start ≠ -1))
      s.games (survivors s.games s2.games) := by
  apply step_forall2 cfg obs s s2 _ _ _ _ h
  · intro g
    exact ⟨rfl, rfl, fun _ => rfl, fun hne => absurd rfl hne⟩
  · intro g hst
    refine ⟨rfl, rfl, fun hne => absurd hst hne, fun _ => ?_⟩
    show obs.posSec + 2 ≠ -1
    omega
  · intro g nb i out r hr
    obtain ⟨e1, e2, _⟩ := enrichFront_core cfg obs nb g i out r hr
    exact ⟨by rw [e2], by rw [e2], fun _ => e1, fun hne => absurd e1 hne⟩

theorem set_once_fields_witness :
    0 ≤ demoObs.posSec ∧ step demoCfg demoObs (demoScan 1) = Except.ok (demoScan 2) ∧
    (demoScan 1).games.length ≤ (demoScan 2).games.length ∧
    List.Forall₂
      (fun g g2 => g2.end_.time = g.end_.time ∧ g2.end_.elapsed = g.end_.elapsed ∧
        (g.start ≠ -1 → g2.start = g.start) ∧ (g2.start ≠ g.start → g2.start ≠ -1))
      (demoScan 1).games (survivors (demoScan 1).games (demoScan 2).games) :=
  ⟨by decide, demoScan_step 1 (by decide),
    set_once_fields demoCfg demoObs (demoScan 1) (demoScan 2) (by decide)
      (demoScan_step 1 (by decide))⟩

/-- Claim C7: in every state reachable by the scan, for both teams of every
game, `names` has at most 10 entries, each of length at least 2, and a
non-empty `name` comes with exactly 10 entries of which it is a most frequent
one; and no iteration changes a non-empty `name`. -/
theorem team_name_sampling (cfg : Config) (s : Scan) (hr : Reachable cfg s) :
    (∀ g ∈ s.games, TeamInv g.orangeTeam ∧ TeamInv g.blueTeam) ∧
    (∀ (obs : Obs) (s2 : Scan), step cfg obs s = Except.ok s2 →
      List.Forall₂
        (fun g g2 => (g.orangeTeam.name ≠ "" → g2.orangeTeam.name = g.orangeTeam.name) ∧
          (g.blueTeam.name ≠ "" → g2.blueTeam.name = g.blueTeam.name))
        s.games (survivors s.games s2.games)) := by
  refine ⟨reachable_teamInv cfg s hr, ?_⟩
  intro obs s2 h
  refine (step_forall2 cfg obs s s2 _ ?_ ?_ ?_ h).2
  · intro g
    exact ⟨fun _ => rfl, fun _ => rfl⟩
  · intro g _
    exact ⟨fun _ => rfl, fun _ => rfl⟩
  · intro g nb i out r hr
    obtain ⟨_, _, _, _, e5, e6⟩ := enrichFront_core cfg obs nb g i out r hr
    exact ⟨e5, e6⟩

theorem team_name_sampling_witness :
    (∀ g ∈ demoJumped.games, TeamInv g.orangeTeam ∧ TeamInv g.blueTeam) ∧
    (∀ (obs : Obs) (s2 : Scan), step demoCfg obs demoJumped = Except.ok s2 →
      List.Forall₂
        (fun g g2 => (g.orangeTeam.name ≠ "" → g2.orangeTeam.name = g.orangeTeam.name) ∧
          (g.blueTeam.name ≠ "" → g2.blueTeam.name = g.blueTeam.name))
        demoJumped.games (survivors demoJumped.games s2.games)) :=
  team_name_sampling demoCfg demoJumped demoJumped_reachable

/-- Claim C10: one iteration equals the first-match cascade `firstMatch`: the
detectors are tried in the order end screen, loading, intro, in-match on the
list the iteration started with and only the first that fires acts; a game
created in an iteration ends that iteration with `start = -1`, an empty map
and no name samples or names. -/
theorem first_match_wins (cfg : Config) (obs : Obs) (s : Scan) :
    step cfg obs s = firstMatch cfg obs s ∧
    (∀ s2, obs.readOk = true → detectGameScoreFrame obs.frame s.games = true →
      step cfg obs s = Except.ok s2 →
      ∃ game, s2.games = game :: s.games ∧ game.start = -1 ∧ game.map = "" ∧
        game.orangeTeam.names = [] ∧ game.blueTeam.names = [] ∧
        game.orangeTeam.name = "" ∧ game.blueTeam.name = "") := by
  refine ⟨step_eq_firstMatch cfg obs s, ?_⟩
  intro s2 hread hd h
  rw [step_eq_firstMatch] at h
  unfold firstMatch at h
  simp only [hread, hd, Bool.not_true, Bool.false_eq_true, ↓reduceIte] at h
  obtain ⟨game, hg, rfl⟩ := map_eq_ok h
  obtain ⟨f1, _, f3, f4, f5, f6, f7, _⟩ := readScoreGame_fresh obs game hg
  exact ⟨game, rfl, f1, f3, f5, f7, f4, f6⟩

theorem first_match_wins_witness :
    detectGameScoreFrame demoObs.frame (initial demoCfg).games = true ∧
    detectGamePlaying demoObs.frame (demoScan 0).games = true ∧
    step demoCfg demoObs (initial demoCfg) = Except.ok (demoScan 0) ∧
    ∃ game, (demoScan 0).games = game :: (initial demoCfg).games ∧ game.start = -1 ∧
      game.map = "" ∧ game.orangeTeam.names = [] ∧ game.blueTeam.names = [] ∧
      game.orangeTeam.name = "" ∧ game.blueTeam.name = "" :=
  ⟨by decide, by decide, demoScan_first,
    (first_match_wins demoCfg demoObs (initial demoCfg)).2 (demoScan 0) (by rfl) (by decide)
      demoScan_first⟩

/-- Claim C3, evaluated on the demo video (100 frames, 1 frame per second): the
state `demoScan 10` is reachable with the cursor on frame 47; the clock reads
`9:75` there, so the fast-forward moves the cursor by `(60 - 75) * FPS`, and
the iteration ends with the cursor on frame 60, higher than it started. -/
theorem cursor_moves_forward_on_clock_9_75 :
    demoCfg.TOTAL_FRAMES = 100 ∧ demoCfg.FPS = 1 ∧
    Reachable demoCfg (demoScan 10) ∧ (demoScan 10).i = 47 ∧
    getTextFromImage demoObs.frame demoObs.tess 935 0 985 28 7 = Except.ok "9:75" ∧
    step demoCfg (demoVideo.env 47) (demoScan 10) = Except.ok demoJumped ∧
    demoJumped.i = 60 ∧ (demoScan 10).i < demoJumped.i :=
  ⟨by decide, by decide, demoScan_reachable 10 (le_refl _), by decide, by rfl, demoScan_jump,
    by decide, by decide⟩

/-! ### Colour probes and detector gates -/

theorem abs_le_iff (x t : Int) : Detector.abs x ≤ t ↔ |x| ≤ t := by
  unfold Detector.abs
  split
  · rw [abs_of_neg (by assumption)]
  · rw [abs_of_nonneg (by omega)]

theorem colorSimilarity_iff (A B : RGB) (T : Int) :
    colorSimilarity A B T = true ↔ |A.r - B.r| ≤ T ∧ |A.g - B.g| ≤ T ∧ |A.b - B.b| ≤ T := by
  simp only [colorSimilarity, Bool.and_eq_true, decide_eq_true_eq, abs_le_iff, and_assoc]

/-- Claim C15: `colorSimilarity A B T` is true exactly when each of the three
channel differences is at most `T` in absolute value, and the tolerance is 20
when the argument is omitted. -/
theorem colorSimilarity_channels (A B : RGB) (T : Int) :
    (colorSimilarity A B T = true ↔
      |A.r - B.r| ≤ T ∧ |A.g - B.g| ≤ T ∧ |A.b - B.b| ≤ T) ∧
    colorSimilarity A B = colorSimilarity A B 20 :=
  ⟨colorSimilarity_iff A B T, rfl⟩

/-- Claim C16: `colorSimilarity` is symmetric in its two colours, and with
tolerance 0 it holds exactly when the colours have equal `r`, `g` and `b`. -/
theorem colorSimilarity_symmetric (A B : RGB) (T : Int) :
    colorSimilarity A B T = colorSimilarity B A T ∧
    (colorSimilarity A B 0 = true ↔ A.r = B.r ∧ A.g = B.g ∧ A.b = B.b) ∧
    (colorSimilarity A B 0 = true ↔ A = B) := by
  have h0 : colorSimilarity A B 0 = true ↔ A.r = B.r ∧ A.g = B.g ∧ A.b = B.b := by
    rw [colorSimilarity_iff]
    simp only [abs_nonpos_iff, sub_eq_zero]
  refine ⟨?_, h0, ?_⟩
  · rw [Bool.eq_iff_iff, colorSimilarity_iff, colorSimilarity_iff, abs_sub_comm A.r,
      abs_sub_comm A.g, abs_sub_comm A.b]
  · rw [h0]
    constructor
    · rintro ⟨h1, h2, h3⟩
      cases A; cases B
      simp only at h1 h2 h3
      rw [h1, h2, h3]
    · rintro rfl
      exact ⟨rfl, rfl, rfl⟩

/-- Claim C20: each detector is false, whatever the frame, when its gate is
closed: the end-screen detector on a non-empty list whose front has
`start = -1`; the loading and intro detectors on an empty list or a front with
`end.time = -1` or `start != -1`; the in-match detector on an empty list or a
front with `start != -1`.  So the end-screen and in-match detectors are never
both true. -/
theorem detector_gates (frame : Frame) (games : List Game) :
    (games ≠ [] → (front games).start = -1 → detectGameScoreFrame frame games = false) ∧
    ((games = [] ∨ (front games).end_.time = -1 ∨ (front games).start ≠ -1) →
      detectGameLoadingFrame frame games = false ∧ detectGameIntro frame games = false) ∧
    ((games = [] ∨ (front games).start ≠ -1) → detectGamePlaying frame games = false) ∧
    ¬ (detectGameScoreFrame frame games = true ∧ detectGamePlaying frame games = true) := by
  refine ⟨?_, ?_, ?_, ?_⟩
  · intro hne hst
    cases h : detectGameScoreFrame frame games
    · rfl
    · rcases detectGameScoreFrame_gate frame games h with he | hf
      · exact absurd he hne
      · exact absurd hst hf
  · intro hc
    constructor
    · cases h : detectGameLoadingFrame frame games
      · rfl
      · obtain ⟨g, rest, hg, ht, hs⟩ := detectGameLoadingFrame_gate frame games h
        subst hg
        rcases hc with hc | hc | hc
        · cases hc
        · exact absurd hc ht
        · exact absurd hs hc
    · cases h : detectGameIntro frame games
      · rfl
      · obtain ⟨g, rest, hg, ht, hs⟩ := detectGameIntro_gate frame games h
        subst hg
        rcases hc with hc | hc | hc
        · cases hc
        · exact absurd hc ht
        · exact absurd hs hc
  · intro hc
    cases h : detectGamePlaying frame games
    · rfl
    · obtain ⟨g, rest, hg, hs⟩ := detectGamePlaying_gate frame games h
      subst hg
      rcases hc with hc | hc
      · cases hc
      · exact absurd hs hc
  · rintro ⟨h1, h2⟩
    obtain ⟨g, rest, hg, hs⟩ := detectGamePlaying_gate frame games h2
    subst hg
    rcases detectGameScoreFrame_gate frame _ h1 with he | hf
    · cases he
    · exact hf hs

/-! ### The fast-forward block -/

theorem ready_iff (g : Game) :
    (!g.debug_jumped && g.map != "" && g.orangeTeam.name != "" && g.blueTeam.name != "") = true ↔
      Ready g := by
  simp only [Ready, Bool.and_eq_true, Bool.not_eq_true', bne_iff_ne, ne_eq, and_assoc]

theorem clockReads_unique (obs : Obs) (m sec m2 sec2 : Int) (h1 : ClockReads obs m sec)
    (h2 : ClockReads obs m2 sec2) : m = m2 ∧ sec = sec2 := by
  obtain ⟨t, p0, p1, ht, hs, hm, hsec⟩ := h1
  obtain ⟨t2, q0, q1, ht2, hs2, hm2, hsec2⟩ := h2
  rw [ht] at ht2
  cases ht2
  rw [hs] at hs2
  cases hs2
  rw [hm] at hm2
  rw [hsec] at hsec2
  cases hm2
  cases hsec2
  exact ⟨rfl, rfl⟩

/-- The three outcomes of the fast-forward block: skip with line, line
without skip, or nothing. -/
theorem jumpBlock_cases (cfg : Config) (obs : Obs) (nb : Nat) (g : Game) (i : Int)
    (out : List Line) (r : Game × Int × List Line)
    (h : jumpBlock cfg obs nb g i out = Except.ok r) :
    (Ready g ∧ ∃ m sec, ClockReads obs m sec ∧ m ≤ 9 ∧
      r = ({ g with debug_jumped := true }, i - ((10 - m) * 60 - sec) * cfg.FPS,
            out ++ [Line.nbGames nb])) ∨
    (Ready g ∧ ∃ m sec, ClockReads obs m sec ∧ 9 < m ∧ r = (g, i, out ++ [Line.nbGames nb])) ∨
    (¬ (Ready g ∧ ∃ m sec, ClockReads obs m sec) ∧ r = (g, i, out)) := by
  unfold jumpBlock at h
  split at h
  · rename_i hready
    rw [ready_iff] at hready
    obtain ⟨t, ht, h⟩ := bind_eq_ok h
    split at h
    · rename_i p0 p1 hsp
      obtain ⟨m, hm, h⟩ := bind_eq_ok h
      obtain ⟨sec, hsec, h⟩ := bind_eq_ok h
      dsimp only at h
      have hc : ClockReads obs m sec := ⟨t, p0, p1, ht, hsp, hm, hsec⟩
      by_cases hle : m ≤ 9
      · rw [if_pos hle] at h
        cases h
        exact Or.inl ⟨hready, m, sec, hc, hle, rfl⟩
      · rw [if_neg hle] at h
        cases h
        exact Or.inr (Or.inl ⟨hready, m, sec, hc, by omega, rfl⟩)
    · rename_i hsp
      cases h
      refine Or.inr (Or.inr ⟨?_, rfl⟩)
      rintro ⟨_, m, sec, t2, p0, p1, ht2, hs2, _, _⟩
      rw [ht] at ht2
      cases ht2
      exact hsp p0 p1 hs2
  · rename_i hready
    rw [ready_iff] at hready
    cases h
    exact Or.inr (Or.inr ⟨fun hh => hready hh.1, rfl⟩)

/-- The game handed to the fast-forward block by `enrichFront`: the map and
name blocks leave `start`, `end` and the marker alone. -/
theorem enrichFront_cases (cfg : Config) (obs : Obs) (nb : Nat) (g : Game) (i : Int)
    (out : List Line) (r : Game × Int × List Line)
    (h : enrichFront cfg obs nb g i out = Except.ok r) :
    ∃ g1 : Game, g1.debug_jumped = g.debug_jumped ∧ g1.start = g.start ∧ g1.end_ = g.end_ ∧
      ((Ready g1 ∧ ∃ m sec, ClockReads obs m sec ∧ m ≤ 9 ∧
          r = ({ g1 with debug_jumped := true }, i - ((10 - m) * 60 - sec) * cfg.FPS,
                out ++ [Line.nbGames nb])) ∨
        (Ready g1 ∧ ∃ m sec, ClockReads obs m sec ∧ 9 < m ∧
          r = (g1, i, out ++ [Line.nbGames nb])) ∨
        (¬ (Ready g1 ∧ ∃ m sec, ClockReads obs m sec) ∧ r = (g1, i, out))) := by
  unfold enrichFront at h
  obtain ⟨g0, h0, h⟩ := bind_eq_ok h
  obtain ⟨orange, _, h⟩ := bind_eq_ok h
  obtain ⟨blue, _, h⟩ := bind_eq_ok h
  obtain ⟨e1, e2, _, _, e5, _⟩ := mapBlock_core obs g g0 h0
  dsimp only at h
  exact ⟨{ g0 with orangeTeam := orange, blueTeam := blue }, e5, e1, e2,
    jumpBlock_cases cfg obs nb _ i out r h⟩

theorem forall2_marker_refl (l : List Game) :
    List.Forall₂ (fun g g2 : Game => g2.debug_jumped = g.debug_jumped) l l :=
  forall2_refl (fun g g2 : Game => g2.debug_jumped = g.debug_jumped) (fun _ => rfl) l

/-- One loop iteration, seen from the fast-forward block: a skip with its
line, a line without skip, or neither. -/
theorem step_jump_cases (cfg : Config) (obs : Obs) (s s2 : Scan)
    (h : step cfg obs s = Except.ok s2) :
    (∃ g rest g1 m sec, s.games = g :: rest ∧ InMatchBranch obs s.games ∧
      g1.debug_jumped = g.debug_jumped ∧ Ready g1 ∧ ClockReads obs m sec ∧ m ≤ 9 ∧
      s2.games = { g1 with debug_jumped := true } :: rest ∧
      s2.i = s.i - ((10 - m) * 60 - sec) * cfg.FPS - cfg.FPS * JUMP ∧
      s2.out = (percentBlock cfg s).out ++ [Line.nbGames s.games.length]) ∨
    (∃ g rest g1 m sec, s.games = g :: rest ∧ InMatchBranch obs s.games ∧
      g1.debug_jumped = g.debug_jumped ∧ Ready g1 ∧ ClockReads obs m sec ∧ 9 < m ∧
      s2.games = g1 :: rest ∧ s2.i = s.i - cfg.FPS * JUMP ∧
      s2.out = (percentBlock cfg s).out ++ [Line.nbGames s.games.length]) ∨
    (s2.out = (percentBlock cfg s).out ∧
      (s2.i = s.i - cfg.FPS * JUMP ∨ s2.i = s.i - 30 * cfg.FPS - cfg.FPS * JUMP) ∧
      List.Forall₂ (fun g g2 : Game => g2.debug_jumped = g.debug_jumped) s.games
        (survivors s.games s2.games) ∧
      ¬ (InMatchBranch obs s.games ∧ (∃ g2 rest2, s2.games = g2 :: rest2 ∧ Ready g2) ∧
          ∃ m sec, ClockReads obs m sec)) := by
  rw [step_eq_firstMatch] at h
  unfold firstMatch at h
  dsimp only at h
  split at h
  · rename_i hr
    cases h
    refine Or.inr (Or.inr ⟨rfl, Or.inl rfl, ?_, ?_⟩)
    · simp only [percentBlock_games, survivors_self]
      exact forall2_marker_refl _
    · rintro ⟨⟨hread, _⟩, _⟩
      simp [hread] at hr
  · split at h
    · rename_i hs
      obtain ⟨game, hg, rfl⟩ := map_eq_ok h
      refine Or.inr (Or.inr ⟨rfl, Or.inr rfl, ?_, ?_⟩)
      · simp only [survivors_cons]
        exact forall2_marker_refl _
      · rintro ⟨⟨_, _, _, hp⟩, _⟩
        obtain ⟨g, rest, hgl, hst⟩ := detectGamePlaying_gate _ _ hp
        rcases detectGameScoreFrame_gate _ _ hs with he | hf
        · rw [hgl] at he; cases he
        · rw [hgl] at hf; exact hf hst
    · split at h
      · rename_i hl
        obtain ⟨g, rest, hg, _, _⟩ := detectGameLoadingFrame_gate _ _ hl
        cases h
        refine Or.inr (Or.inr ⟨rfl, Or.inl rfl, ?_, ?_⟩)
        · simp only [hg, modifyFront, survivors_front]
          exact List.Forall₂.cons rfl (forall2_marker_refl _)
        · rintro ⟨⟨_, hl2, _⟩, _⟩
          rw [hl] at hl2
          cases hl2
      · split at h
        · rename_i hi
          obtain ⟨g, rest, hg, _, _⟩ := detectGameIntro_gate _ _ hi
          cases h
          refine Or.inr (Or.inr ⟨rfl, Or.inl rfl, ?_, ?_⟩)
          · simp only [hg, modifyFront, survivors_front]
            exact List.Forall₂.cons rfl (forall2_marker_refl _)
          · rintro ⟨⟨_, _, hi2, _⟩, _⟩
            rw [hi] at hi2
            cases hi2
        · split at h
          · rename_i hr hs hl hi hp
            have hbranch : InMatchBranch obs s.games :=
              ⟨by simpa using hr, by simpa using hl, by simpa using hi, hp⟩
            obtain ⟨g, rest, hg, _⟩ := detectGamePlaying_gate _ _ hp
            rw [hg] at h
            dsimp only at h
            obtain ⟨r, hr, rfl⟩ := map_eq_ok h
            obtain ⟨g1, hj, _, _, hcase⟩ := enrichFront_cases _ _ _ _ _ _ _ hr
            rcases hcase with ⟨hrd, m, sec, hc, hm, rfl⟩ | ⟨hrd, m, sec, hc, hm, rfl⟩ | ⟨hn, rfl⟩
            · exact Or.inl ⟨g, rest, g1, m, sec, hg, hbranch, hj, hrd, hc, hm, rfl, rfl,
                by rw [hg]⟩
            · exact Or.inr (Or.inl ⟨g, rest, g1, m, sec, hg, hbranch, hj, hrd, hc, hm, rfl, rfl,
                by rw [hg]⟩)
            · refine Or.inr (Or.inr ⟨rfl, Or.inl rfl, ?_, ?_⟩)
              · simp only [hg, survivors_front]
                exact List.Forall₂.cons hj (forall2_marker_refl _)
              · rintro ⟨_, ⟨g2, rest2, hg2, hrd2⟩, hc⟩
                simp only [List.cons.injEq] at hg2
                rw [hg2.1] at hn
                exact hn ⟨hrd2, hc⟩
          · rename_i hp
            cases h
            refine Or.inr (Or.inr ⟨rfl, Or.inl rfl, ?_, ?_⟩)
            · simp only [percentBlock_games, survivors_self]
              exact forall2_marker_refl _
            · rintro ⟨⟨_, _, _, hp2⟩, _⟩
              exact hp hp2

/-! ### Progress reports -/

theorem percentsOf_append (a b : List Line) :
    percentsOf (a ++ b) = percentsOf a ++ percentsOf b := by
  induction a with
  | nil => rfl
  | cons x xs ih =>
    cases x <;> simp [percentsOf, ih]

theorem step_percent (cfg : Config) (obs : Obs) (s s2 : Scan)
    (h : step cfg obs s = Except.ok s2) :
    s2.oldPercent = (percentBlock cfg s).oldPercent ∧
      percentsOf s2.out = percentsOf (percentBlock cfg s).out := by
  have hout : percentsOf s2.out = percentsOf (percentBlock cfg s).out := by
    rcases step_jump_cases cfg obs s s2 h with ⟨_, _, _, _, _, _, _, _, _, _, _, _, _, e⟩ |
      ⟨_, _, _, _, _, _, _, _, _, _, _, _, _, e⟩ | ⟨e, _⟩
    · rw [e, percentsOf_append]; simp [percentsOf]
    · rw [e, percentsOf_append]; simp [percentsOf]
    · rw [e]
  refine ⟨?_, hout⟩
  rw [step_eq_firstMatch] at h
  unfold firstMatch at h
  dsimp only at h
  split at h
  · cases h; rfl
  · split at h
    · obtain ⟨game, _, rfl⟩ := map_eq_ok h
      rfl
    · split at h
      · cases h; rfl
      · split at h
        · cases h; rfl
        · split at h
          · split at h
            · cases h; rfl
            · obtain ⟨r, _, rfl⟩ := map_eq_ok h
              rfl
          · cases h; rfl

/-- What the progress report does to the emitted percent values. -/
theorem percentBlock_percents (cfg : Config) (s : Scan) (hinv : PercentInv s) :
    percentsOf (percentBlock cfg s).out =
        (if 0 < 100 - Int.tdiv (s.i * 100) cfg.TOTAL_FRAMES ∧
            ∀ p ∈ percentsOf s.out, p < 100 - Int.tdiv (s.i * 100) cfg.TOTAL_FRAMES then
          percentsOf s.out ++ [100 - Int.tdiv (s.i * 100) cfg.TOTAL_FRAMES]
        else percentsOf s.out) ∧
      PercentInv (percentBlock cfg s) := by
  obtain ⟨hp, hb, hl⟩ := hinv
  have hold : 0 ≤ s.oldPercent := by
    rcases hl with h0 | hm
    · omega
    · exact le_of_lt (hb _ hm).1
  unfold percentBlock
  dsimp only
  by_cases hnew : 100 - Int.tdiv (s.i * 100) cfg.TOTAL_FRAMES > s.oldPercent
  · rw [if_pos hnew]
    have hcond : 0 < 100 - Int.tdiv (s.i * 100) cfg.TOTAL_FRAMES ∧
        ∀ p ∈ percentsOf s.out, p < 100 - Int.tdiv (s.i * 100) cfg.TOTAL_FRAMES :=
      ⟨by omega, fun p hpm => lt_of_le_of_lt (hb p hpm).2 hnew⟩
    rw [if_pos hcond]
    refine ⟨by simp [percentsOf_append, percentsOf], ?_, ?_, ?_⟩
    · simp only [percentsOf_append, percentsOf, List.pairwise_append, List.pairwise_cons,
        List.mem_singleton]
      exact ⟨hp, ⟨by simp, List.Pairwise.nil⟩, fun a ha b hb2 => by rw [hb2]; exact hcond.2 a ha⟩
    · intro p hpm
      simp only [percentsOf_append, percentsOf, List.mem_append, List.mem_singleton] at hpm
      rcases hpm with hpm | rfl
      · exact ⟨(hb p hpm).1, le_of_lt (hcond.2 p hpm)⟩
      · exact ⟨hcond.1, le_refl _⟩
    · right
      simp [percentsOf_append, percentsOf]
  · rw [if_neg hnew]
    have hcond : ¬ (0 < 100 - Int.tdiv (s.i * 100) cfg.TOTAL_FRAMES ∧
        ∀ p ∈ percentsOf s.out, p < 100 - Int.tdiv (s.i * 100) cfg.TOTAL_FRAMES) := by
      rintro ⟨h0, hall⟩
      rcases hl with h0' | hm
      · omega
      · exact hnew (hall _ hm)
    rw [if_neg hcond]
    exact ⟨rfl, hp, hb, hl⟩

theorem percentInv_step (cfg : Config) (obs : Obs) (s s2 : Scan) (hinv : PercentInv s)
    (h : step cfg obs s = Except.ok s2) : PercentInv s2 := by
  obtain ⟨e1, e2⟩ := step_percent cfg obs s s2 h
  obtain ⟨hp, hb, hl⟩ := (percentBlock_percents cfg s hinv).2
  unfold PercentInv
  rw [e1, e2]
  exact ⟨hp, hb, hl⟩

theorem reachable_percentInv (cfg : Config) (s : Scan) (hr : Reachable cfg s) :
    PercentInv s := by
  induction hr with
  | init =>
    refine ⟨List.Pairwise.nil, ?_, Or.inl rfl⟩
    intro p hp
    simp [initial, percentsOf] at hp
  | next obs _ _ hstep ih => exact percentInv_step cfg obs _ _ ih hstep

/-- Claim C12: in every state reachable by the scan, the percent values emitted
so far are strictly increasing, hence without duplicates; and an iteration,
whether it completes or throws after its progress report, emits its computed
percentage `100 - i*100/TOTAL_FRAMES` exactly when that value exceeds 0 and
every value emitted before, and emits no other percent value. -/
theorem percent_strictly_increasing (cfg : Config) (s : Scan) (hr : Reachable cfg s) :
    (percentsOf s.out).Pairwise (fun a b => a < b) ∧ (percentsOf s.out).Nodup ∧
    (percentsOf (percentBlock cfg s).out =
        (if 0 < 100 - Int.tdiv (s.i * 100) cfg.TOTAL_FRAMES ∧
            ∀ p ∈ percentsOf s.out, p < 100 - Int.tdiv (s.i * 100) cfg.TOTAL_FRAMES then
          percentsOf s.out ++ [100 - Int.tdiv (s.i * 100) cfg.TOTAL_FRAMES]
        else percentsOf s.out)) ∧
    (∀ (obs : Obs) (s2 : Scan), step cfg obs s = Except.ok s2 →
      percentsOf s2.out =
        (if 0 < 100 - Int.tdiv (s.i * 100) cfg.TOTAL_FRAMES ∧
            ∀ p ∈ percentsOf s.out, p < 100 - Int.tdiv (s.i * 100) cfg.TOTAL_FRAMES then
          percentsOf s.out ++ [100 - Int.tdiv (s.i * 100) cfg.TOTAL_FRAMES]
        else percentsOf s.out)) := by
  have hinv := reachable_percentInv cfg s hr
  refine ⟨hinv.1, ?_, (percentBlock_percents cfg s hinv).1, ?_⟩
  · exact hinv.1.imp (fun hlt => ne_of_lt hlt)
  · intro obs s2 h
    rw [(step_percent cfg obs s s2 h).2]
    exact (percentBlock_percents cfg s hinv).1

theorem percent_strictly_increasing_witness :
    percentsOf demoJumped.out = [1, 33, 35, 37, 39, 41, 43, 45, 47, 49, 51, 53] ∧
    (percentsOf demoJumped.out).Pairwise (fun a b => a < b) :=
  ⟨by decide, (percent_strictly_increasing demoCfg demoJumped demoJumped_reachable).1⟩

/-! ### The nbGames line -/

theorem lateA_step : step demoCfg (clockObs "10:00") (demoScan 10) = Except.ok lateA := by
  rfl

theorem lateB_step : step demoCfg (clockObs "10:00") lateA = Except.ok lateB := by
  rfl

theorem append_singleton_ne (l : List Line) (x : Line) : l ++ [x] ≠ l := by
  intro h
  have := congrArg List.length h
  simp at this

/-- Claim C13, refuted on the demo video with the clock reading `10:00`: the
iteration after `demoScan 10` writes an `nbGames` line although the cursor
only makes the regular step and the game is not marked, and the next
iteration writes a second line for the same, single game. -/
theorem nbGames_line_without_skip :
    Reachable demoCfg (demoScan 10) ∧
    step demoCfg (clockObs "10:00") (demoScan 10) = Except.ok lateA ∧
    lateA.out = (percentBlock demoCfg (demoScan 10)).out ++ [Line.nbGames 1] ∧
    lateA.i = (demoScan 10).i - 2 * demoCfg.FPS ∧
    (lateA.games.map Game.debug_jumped) = [false] ∧
    step demoCfg (clockObs "10:00") lateA = Except.ok lateB ∧
    lateB.games.length = 1 ∧ lateB.out.count (Line.nbGames 1) = 2 :=
  ⟨demoScan_reachable 10 (le_refl _), lateA_step, by decide, by decide, by decide, lateB_step,
    by decide, by decide⟩

/-- Claim C13 as amended: an iteration writes at most one `nbGames` line, with
the number of games, and writes it exactly when the in-match block runs, the
front game was unmarked, its map and both names are resolved once the map and
name blocks have run, and the clock text splits into two parts that convert
to integers; this includes every iteration in which the fast-forward fires,
and given a line the fast-forward fires exactly when minutes `<= 9`. -/
theorem nbGames_line_emitted (cfg : Config) (obs : Obs) (s s2 : Scan)
    (h : step cfg obs s = Except.ok s2) :
    (s2.out = (percentBlock cfg s).out ∨
      s2.out = (percentBlock cfg s).out ++ [Line.nbGames s.games.length]) ∧
    (s2.out = (percentBlock cfg s).out ++ [Line.nbGames s.games.length] ↔
      InMatchBranch obs s.games ∧
      (∃ g rest g2, s.games = g :: rest ∧ s2.games = g2 :: rest ∧ g.debug_jumped = false ∧
        g2.map ≠ "" ∧ g2.orangeTeam.name ≠ "" ∧ g2.blueTeam.name ≠ "") ∧
      ∃ m sec, ClockReads obs m sec) ∧
    ((∃ g rest g2, s.games = g :: rest ∧ s2.games = g2 :: rest ∧ g.debug_jumped = false ∧
        g2.debug_jumped = true) →
      s2.out = (percentBlock cfg s).out ++ [Line.nbGames s.games.length]) ∧
    (s2.out = (percentBlock cfg s).out ++ [Line.nbGames s.games.length] →
      ∀ m sec, ClockReads obs m sec →
        (m ≤ 9 ↔ ∃ g rest g2, s.games = g :: rest ∧ s2.games = g2 :: rest ∧
          g.debug_jumped = false ∧ g2.debug_jumped = true)) := by
  rcases step_jump_cases cfg obs s s2 h with
    ⟨g, rest, g1, m, sec, hg, hbr, hj, hrd, hc, hm, hg2, _, hout⟩ |
    ⟨g, rest, g1, m, sec, hg, hbr, hj, hrd, hc, hm, hg2, _, hout⟩ | ⟨hout, _, hmark, hneg⟩
  · have hfire : ∃ g rest g2, s.games = g :: rest ∧ s2.games = g2 :: rest ∧
        g.debug_jumped = false ∧ g2.debug_jumped = true :=
      ⟨g, rest, _, hg, hg2, by rw [← hj]; exact hrd.1, rfl⟩
    refine ⟨Or.inr hout, ⟨fun _ => ⟨hbr, ⟨g, rest, _, hg, hg2, by rw [← hj]; exact hrd.1,
      hrd.2.1, hrd.2.2.1, hrd.2.2.2⟩, m, sec, hc⟩, fun _ => hout⟩, fun _ => hout, ?_⟩
    intro _ m2 sec2 hc2
    obtain ⟨rfl, rfl⟩ := clockReads_unique obs m sec m2 sec2 hc hc2
    exact ⟨fun _ => hfire, fun _ => hm⟩
  · refine ⟨Or.inr hout, ⟨fun _ => ⟨hbr, ⟨g, rest, _, hg, hg2, by rw [← hj]; exact hrd.1,
      hrd.2.1, hrd.2.2.1, hrd.2.2.2⟩, m, sec, hc⟩, fun _ => hout⟩, fun _ => hout, ?_⟩
    intro _ m2 sec2 hc2
    obtain ⟨rfl, rfl⟩ := clockReads_unique obs m sec m2 sec2 hc hc2
    constructor
    · intro hle
      omega
    · rintro ⟨g', rest', g2', hg', hg2', _, hj2⟩
      rw [hg2] at hg2'
      simp only [List.cons.injEq] at hg2'
      rw [← hg2'.1, hrd.1] at hj2
      cases hj2
  · have hno : s2.out ≠ (percentBlock cfg s).out ++ [Line.nbGames s.games.length] := by
      rw [hout]
      exact fun e => append_singleton_ne _ _ e.symm
    have hnofire : ¬ ∃ g rest g2, s.games = g :: rest ∧ s2.games = g2 :: rest ∧
        g.debug_jumped = false ∧ g2.debug_jumped = true := by
      rintro ⟨g, rest, g2, hg, hg2, hf, ht⟩
      rw [hg, hg2, survivors_front] at hmark
      cases hmark with
      | cons hhead _ =>
        rw [hf, ht] at hhead
        cases hhead
    refine ⟨Or.inl hout, ⟨fun e => absurd e hno, ?_⟩, fun hf => absurd hf hnofire,
      fun e => absurd e hno⟩
    rintro ⟨hbr, ⟨g, rest, g2, hg, hg2, hf, hmap, ho, hb⟩, hc⟩
    exfalso
    apply hneg
    refine ⟨hbr, ⟨g2, rest, hg2, ?_, hmap, ho, hb⟩, hc⟩
    rw [hg, hg2, survivors_front] at hmark
    cases hmark with
    | cons hhead _ => rw [hhead, hf]

theorem nbGames_line_emitted_witness :
    step demoCfg demoObs (demoScan 10) = Except.ok demoJumped ∧
    demoJumped.out =
      (percentBlock demoCfg (demoScan 10)).out ++ [Line.nbGames (demoScan 10).games.length] :=
  ⟨demoScan_jump,
    (nbGames_line_emitted demoCfg demoObs (demoScan 10) demoJumped demoScan_jump).2.2.1
      ⟨demoGame 10, [], _, rfl, rfl, rfl, rfl⟩⟩

/-! ### The fast-forward skip -/

/-- Claim C19: an iteration never unsets a marker.  It applies the fast-forward
skip to the front game only if the marker was unset, the in-match block runs,
the map and both names are non-empty and the clock text splits into two
integers with minutes `<= 9`; it then sets the marker and moves the cursor by
`((10 - minutes) * 60 - seconds) * FPS` on top of the regular step `2 * FPS`.
Every other iteration leaves all markers as they are and moves the cursor by
the regular step or the 30-second skip; this is so whenever the front game is
already marked, hence at most one skip per game. -/
theorem fast_forward_once (cfg : Config) (obs : Obs) (s s2 : Scan)
    (h : step cfg obs s = Except.ok s2) :
    List.Forall₂ (fun g g2 : Game => g.debug_jumped = true → g2.debug_jumped = true)
      s.games (survivors s.games s2.games) ∧
    ((∃ g rest g2 m sec, s.games = g :: rest ∧ s2.games = g2 :: rest ∧
        g.debug_jumped = false ∧ g2.debug_jumped = true ∧ InMatchBranch obs s.games ∧
        g2.map ≠ "" ∧ g2.orangeTeam.name ≠ "" ∧ g2.blueTeam.name ≠ "" ∧
        ClockReads obs m sec ∧ m ≤ 9 ∧
        s2.i = s.i - ((10 - m) * 60 - sec) * cfg.FPS - 2 * cfg.FPS) ∨
      (List.Forall₂ (fun g g2 : Game => g2.debug_jumped = g.debug_jumped)
          s.games (survivors s.games s2.games) ∧
        (s2.i = s.i - 2 * cfg.FPS ∨ s2.i = s.i - 30 * cfg.FPS - 2 * cfg.FPS))) ∧
    (∀ g rest, s.games = g :: rest → g.debug_jumped = true →
      s2.i = s.i - 2 * cfg.FPS ∨ s2.i = s.i - 30 * cfg.FPS - 2 * cfg.FPS) := by
  have hcases := step_jump_cases cfg obs s s2 h
  have main : (∃ g rest g2 m sec, s.games = g :: rest ∧ s2.games = g2 :: rest ∧
        g.debug_jumped = false ∧ g2.debug_jumped = true ∧ InMatchBranch obs s.games ∧
        g2.map ≠ "" ∧ g2.orangeTeam.name ≠ "" ∧ g2.blueTeam.name ≠ "" ∧
        ClockReads obs m sec ∧ m ≤ 9 ∧
        s2.i = s.i - ((10 - m) * 60 - sec) * cfg.FPS - 2 * cfg.FPS) ∨
      (List.Forall₂ (fun g g2 : Game => g2.debug_jumped = g.debug_jumped)
          s.games (survivors s.games s2.games) ∧
        (s2.i = s.i - 2 * cfg.FPS ∨ s2.i = s.i - 30 * cfg.FPS - 2 * cfg.FPS)) := by
    rcases hcases with ⟨g, rest, g1, m, sec, hg, hbr, hj, hrd, hc, hm, hg2, hi, _⟩ |
      ⟨g, rest, g1, m, sec, hg, hbr, hj, hrd, hc, hm, hg2, hi, _⟩ | ⟨_, hi, hmark, _⟩
    · refine Or.inl ⟨g, rest, _, m, sec, hg, hg2, by rw [← hj]; exact hrd.1, rfl, hbr,
        hrd.2.1, hrd.2.2.1, hrd.2.2.2, hc, hm, ?_⟩
      rw [hi]
      simp only [JUMP]
      ring
    · refine Or.inr ⟨?_, Or.inl ?_⟩
      · rw [hg, hg2, survivors_front]
        exact List.Forall₂.cons hj (forall2_marker_refl _)
      · rw [hi]
        simp only [JUMP]
        ring
    · refine Or.inr ⟨hmark, ?_⟩
      rcases hi with hi | hi
      · left
        rw [hi]
        simp only [JUMP]
        ring
      · right
        rw [hi]
        simp only [JUMP]
        ring
  refine ⟨?_, main, ?_⟩
  · rcases main with ⟨g, rest, g2, _, _, hg, hg2, _, ht, _⟩ | ⟨hmark, _⟩
    · rw [hg, hg2, survivors_front]
      exact List.Forall₂.cons (fun _ => ht)
        (forall2_refl (fun g g2 : Game => g.debug_jumped = true → g2.debug_jumped = true)
          (fun _ hh => hh) _)
    · exact hmark.imp (fun _ _ e hh => by rw [e]; exact hh)
  · intro g rest hg hj
    rcases main with ⟨g', rest', _, _, _, hg', _, hf, _⟩ | ⟨_, hi⟩
    · rw [hg] at hg'
      simp only [List.cons.injEq] at hg'
      rw [hg'.1, hf] at hj
      cases hj
    · exact hi

theorem fast_forward_once_witness :
    step demoCfg demoObs (demoScan 10) = Except.ok demoJumped ∧
    List.Forall₂ (fun g g2 : Game => g.debug_jumped = true → g2.debug_jumped = true)
      (demoScan 10).games (survivors (demoScan 10).games demoJumped.games) ∧
    demoJumped.i = (demoScan 10).i - ((10 - 9) * 60 - 75) * demoCfg.FPS - 2 * demoCfg.FPS :=
  ⟨demoScan_jump,
    (fast_forward_once demoCfg demoObs (demoScan 10) demoJumped demoScan_jump).1, by decide⟩

/-! ### End screens and start screens -/

theorem twoScan_step (n : Nat) (hn : n < 5) :
    step twoCfg (twoVideo.env (twoScan n).i) (twoScan n) = Except.ok (twoScan (n + 1)) := by
  interval_cases n <;> rfl

theorem twoScan_cursor (n : Nat) (hn : n < 5) : 0 ≤ (twoScan n).i := by
  interval_cases n <;> decide

theorem readScoreGame_eq (obs : Obs) (ot bt et : String) (vo vb ve : Int)
    (hto : getTextFromImage obs.frame obs.tessNumber 530 89 620 127 7 = Except.ok ot)
    (htb : getTextFromImage obs.frame obs.tessNumber 1294 89 1384 127 7 = Except.ok bt)
    (hte : getTextFromImage obs.frame obs.tessNumber 70 60 190 140 7 = Except.ok et)
    (hvo : (ot = "" ∧ vo = -1) ∨ (ot ≠ "" ∧ stoi ot = Except.ok vo))
    (hvb : (bt = "" ∧ vb = -1) ∨ (bt ≠ "" ∧ stoi bt = Except.ok vb))
    (hve : (et = "" ∧ ve = -1) ∨ (et ≠ "" ∧ stoi et = Except.ok ve)) :
    readScoreGame obs = Except.ok
      { start := -1, end_ := { time := obs.posSec, elapsed := ve }, map := "",
        orangeTeam := { name := "", names := [], score := vo, players := [] },
        blueTeam := { name := "", names := [], score := vb, players := [] },
        debug_jumped := false } := by
  unfold readScoreGame
  simp only [hto, htb, hte, bind, Except.bind, pure, Except.pure]
  rcases hvo with ⟨rfl, rfl⟩ | ⟨h1, h1'⟩ <;> rcases hvb with ⟨rfl, rfl⟩ | ⟨h2, h2'⟩ <;>
    rcases hve with ⟨rfl, rfl⟩ | ⟨h3, h3'⟩ <;>
    simp [*, Except.map]

/-- Claim C17: when the frame is read and the end-screen detector fires, and
the three score regions are read, the iteration yields the new game in front
of the unchanged old list; the new game has `end.time` equal to the rounded
timestamp, `start = -1`, an empty map, no name samples and empty names, and
each of the two scores and `end.elapsed` is the integer parsed from its text
when the text is non-empty and `-1` when it is empty; the cursor goes to
`i - 30*FPS - 2*FPS`. -/
theorem end_screen_creates_game (cfg : Config) (obs : Obs) (s : Scan) (ot bt et : String)
    (vo vb ve : Int) (hread : obs.readOk = true)
    (hdet : detectGameScoreFrame obs.frame s.games = true)
    (hto : getTextFromImage obs.frame obs.tessNumber 530 89 620 127 7 = Except.ok ot)
    (htb : getTextFromImage obs.frame obs.tessNumber 1294 89 1384 127 7 = Except.ok bt)
    (hte : getTextFromImage obs.frame obs.tessNumber 70 60 190 140 7 = Except.ok et)
    (hvo : (ot = "" ∧ vo = -1) ∨ (ot ≠ "" ∧ stoi ot = Except.ok vo))
    (hvb : (bt = "" ∧ vb = -1) ∨ (bt ≠ "" ∧ stoi bt = Except.ok vb))
    (hve : (et = "" ∧ ve = -1) ∨ (et ≠ "" ∧ stoi et = Except.ok ve)) :
    step cfg obs s = Except.ok
      { games :=
          { start := -1, end_ := { time := obs.posSec, elapsed := ve }, map := "",
            orangeTeam := { name := "", names := [], score := vo, players := [] },
            blueTeam := { name := "", names := [], score := vb, players := [] },
            debug_jumped := false } :: s.games,
        i := s.i - 30 * cfg.FPS - 2 * cfg.FPS,
        oldPercent := (percentBlock cfg s).oldPercent,
        out := (percentBlock cfg s).out } := by
  rw [step_eq_firstMatch]
  unfold firstMatch
  simp only [hread, hdet, Bool.not_true, Bool.false_eq_true, ↓reduceIte,
    readScoreGame_eq obs ot bt et vo vb ve hto htb hte hvo hvb hve, Except.map, JUMP]
  rw [mul_comm cfg.FPS 2]

theorem end_screen_creates_game_witness :
    step twoCfg (twoEnv 35) (twoScan 2) = Except.ok
      { games :=
          { start := -1, end_ := { time := 35, elapsed := 3 }, map := "",
            orangeTeam := { name := "", names := [], score := 3, players := [] },
            blueTeam := { name := "", names := [], score := 3, players := [] },
            debug_jumped := false } :: (twoScan 2).games,
        i := (twoScan 2).i - 30 * twoCfg.FPS - 2 * twoCfg.FPS,
        oldPercent := (percentBlock twoCfg (twoScan 2)).oldPercent,
        out := (percentBlock twoCfg (twoScan 2)).out } :=
  end_screen_creates_game twoCfg (twoEnv 35) (twoScan 2) "3" "3" "3" 3 3 3 (by rfl) (by decide)
    (by rfl) (by rfl) (by rfl) (Or.inr ⟨by decide, by rfl⟩) (Or.inr ⟨by decide, by rfl⟩)
    (Or.inr ⟨by decide, by rfl⟩)

/-- Claim C18: when the frame is read and the loading-screen or the intro-screen
detector fires, the list is non-empty with an open front game, and the
iteration only sets that game's `start` to the rounded timestamp plus 2: the
other fields of the front game, the other games and the length of the list
are unchanged, and the cursor makes the regular step `2*FPS`. -/
theorem start_screen_closes_game (cfg : Config) (obs : Obs) (s : Scan)
    (hread : obs.readOk = true)
    (hdet : detectGameLoadingFrame obs.frame s.games = true ∨
      detectGameIntro obs.frame s.games = true) :
    ∃ g rest, s.games = g :: rest ∧ g.start = -1 ∧
      step cfg obs s = Except.ok
        { games := { g with start := obs.posSec + 2 } :: rest,
          i := s.i - 2 * cfg.FPS,
          oldPercent := (percentBlock cfg s).oldPercent,
          out := (percentBlock cfg s).out } := by
  have hgate : ∃ g rest, s.games = g :: rest ∧ g.start = -1 := by
    rcases hdet with hl | hi
    · obtain ⟨g, rest, hg, _, hst⟩ := detectGameLoadingFrame_gate _ _ hl
      exact ⟨g, rest, hg, hst⟩
    · obtain ⟨g, rest, hg, _, hst⟩ := detectGameIntro_gate _ _ hi
      exact ⟨g, rest, hg, hst⟩
  obtain ⟨g, rest, hg, hst⟩ := hgate
  have hscore : detectGameScoreFrame obs.frame s.games = false := by
    cases hs : detectGameScoreFrame obs.frame s.games
    · rfl
    · rcases detectGameScoreFrame_gate _ _ hs with he | hf
      · rw [hg] at he; cases he
      · rw [hg] at hf; exact absurd hst hf
  refine ⟨g, rest, hg, hst, ?_⟩
  rw [step_eq_firstMatch]
  unfold firstMatch
  dsimp only
  rw [if_neg (by simp [hread]), if_neg (by simp [hscore])]
  have hres : (pure { percentBlock cfg s with
        games := modifyFront (fun g => { g with start := obs.posSec + 2 }) s.games,
        i := s.i - cfg.FPS * JUMP } : Except Err Scan) =
      Except.ok
        { games := { g with start := obs.posSec + 2 } :: rest,
          i := s.i - 2 * cfg.FPS,
          oldPercent := (percentBlock cfg s).oldPercent,
          out := (percentBlock cfg s).out } := by
    simp only [hg, modifyFront, JUMP, pure, Except.pure, mul_comm cfg.FPS 2]
  rcases hdet with hl | hi
  · rw [if_pos hl]
    exact hres
  · by_cases hl : detectGameLoadingFrame obs.frame s.games = true
    · rw [if_pos hl]
      exact hres
    · rw [if_neg hl, if_pos hi]
      exact hres

theorem start_screen_closes_game_witness :
    ∃ g rest, (twoScan 1).games = g :: rest ∧ g.start = -1 ∧
      step twoCfg (twoEnv 37) (twoScan 1) = Except.ok
        { games := { g with start := (twoEnv 37).posSec + 2 } :: rest,
          i := (twoScan 1).i - 2 * twoCfg.FPS,
          oldPercent := (percentBlock twoCfg (twoScan 1)).oldPercent,
          out := (percentBlock twoCfg (twoScan 1)).out } :=
  start_screen_closes_game twoCfg (twoEnv 37) (twoScan 1) (by rfl) (Or.inl (by decide))

/-! ### Integer conversion -/

theorem bind_eq_error {ε α β : Type} {x : Except ε α} {f : α → Except ε β} {e : ε}
    (h : (x >>= f) = Except.error e) :
    x = Except.error e ∨ ∃ a, x = Except.ok a ∧ f a = Except.error e := by
  cases x with
  | error e2 =>
    left
    simp only [bind, Except.bind, Except.error.injEq] at h
    rw [h]
  | ok a => exact Or.inr ⟨a, rfl, h⟩

theorem map_eq_error {ε α β : Type} {x : Except ε α} {f : α → β} {e : ε}
    (h : x.map f = Except.error e) : x = Except.error e := by
  cases x with
  | error e2 =>
    simp only [Except.map, Except.error.injEq] at h
    rw [h]
  | ok a => cases h

theorem not_ok_error {ε α : Type} (x : Except ε α) (h : ∀ a, x ≠ Except.ok a) :
    ∃ e, x = Except.error e := by
  cases x with
  | error e => exact ⟨e, rfl⟩
  | ok a => exact absurd rfl (h a)

theorem stoi_error (t : String) (e : Err) (h : stoi t = Except.error e) : ConversionError e := by
  unfold stoi at h
  dsimp only at h
  split_ifs at h
  all_goals first
    | (cases h; exact Or.inl rfl)
    | (cases h; exact Or.inr rfl)

theorem getTextFromImage_error (frame : Frame) (tess : Tess) (x1 y1 x2 y2 psm mode : Int)
    (e : Err) (h : getTextFromImage frame tess x1 y1 x2 y2 psm mode = Except.error e) :
    ¬ ConversionError e := by
  by_cases hv : InvalidRect frame x1 y1 x2 y2
  · have := getTextFromImageFuel_invalid frame tess x1 y1 x2 y2 psm (2 - mode).toNat mode hv
    unfold getTextFromImage getTextFromImageTraced at h
    rw [this] at h
    cases h
    rintro (hc | hc)
    · injection hc with hs
      revert hs
      decide
    · cases hc
  · obtain ⟨r, hr⟩ := getTextFromImageFuel_valid frame tess x1 y1 x2 y2 psm (2 - mode).toNat mode hv
    unfold getTextFromImage getTextFromImageTraced at h
    rw [hr] at h
    cases h

theorem readScoreGame_error_of_bad (obs : Obs) (t : String)
    (ht : getTextFromImage obs.frame obs.tessNumber 530 89 620 127 7 = Except.ok t ∨
      getTextFromImage obs.frame obs.tessNumber 1294 89 1384 127 7 = Except.ok t ∨
      getTextFromImage obs.frame obs.tessNumber 70 60 190 140 7 = Except.ok t)
    (hne : t ≠ "") (hbad : ∃ e, stoi t = Except.error e) :
    ∃ e, readScoreGame obs = Except.error e := by
  apply not_ok_error
  intro game hgame
  obtain ⟨e, he⟩ := hbad
  unfold readScoreGame at hgame
  obtain ⟨o, hO, hgame⟩ := bind_eq_ok hgame
  obtain ⟨g1, h1, hgame⟩ := bind_eq_ok hgame
  obtain ⟨b, hB, hgame⟩ := bind_eq_ok hgame
  obtain ⟨g2, h2, hgame⟩ := bind_eq_ok hgame
  obtain ⟨el, hE, hgame⟩ := bind_eq_ok hgame
  obtain ⟨g3, h3, hgame⟩ := bind_eq_ok hgame
  have hcond : (t != "") = true := by simpa using hne
  rcases ht with ht | ht | ht
  · rw [hO] at ht
    cases ht
    rw [if_pos hcond] at h1
    obtain ⟨v, hv, _⟩ := map_eq_ok h1
    rw [he] at hv
    cases hv
  · rw [hB] at ht
    cases ht
    rw [if_pos hcond] at h2
    obtain ⟨v, hv, _⟩ := map_eq_ok h2
    rw [he] at hv
    cases hv
  · rw [hE] at ht
    cases ht
    rw [if_pos hcond] at h3
    obtain ⟨v, hv, _⟩ := map_eq_ok h3
    rw [he] at hv
    cases hv

theorem guarded_stoi_error (t : String) (f : Int → Game) (game : Game) (e : Err)
    (hs : t = "" ∨ ∃ v, stoi t = Except.ok v)
    (h : (if (t != "") = true then (stoi t).map f else pure game) = Except.error e) : False := by
  split at h
  · rename_i hne
    have herr := map_eq_error h
    rcases hs with he | ⟨v, hv⟩
    · simp [he] at hne
    · rw [hv] at herr
      cases herr
  · cases h

theorem readScoreGame_error (obs : Obs)
    (hs : ∀ t, ScoreText obs t → t = "" ∨ ∃ v, stoi t = Except.ok v) (e : Err)
    (h : readScoreGame obs = Except.error e) : ¬ ConversionError e := by
  unfold readScoreGame at h
  rcases bind_eq_error h with h | ⟨o, hO, h⟩
  · exact getTextFromImage_error _ _ _ _ _ _ _ _ _ h
  rcases bind_eq_error h with h | ⟨g1, _, h⟩
  · exact (guarded_stoi_error o _ _ e (hs o (Or.inl hO)) h).elim
  rcases bind_eq_error h with h | ⟨b, hB, h⟩
  · exact getTextFromImage_error _ _ _ _ _ _ _ _ _ h
  rcases bind_eq_error h with h | ⟨g2, _, h⟩
  · exact (guarded_stoi_error b _ _ e (hs b (Or.inr (Or.inl hB))) h).elim
  rcases bind_eq_error h with h | ⟨el, hE, h⟩
  · exact getTextFromImage_error _ _ _ _ _ _ _ _ _ h
  rcases bind_eq_error h with h | ⟨g3, _, h⟩
  · exact (guarded_stoi_error el _ _ e (hs el (Or.inr (Or.inr hE))) h).elim
  cases h

theorem jumpBlock_error_of_bad (cfg : Config) (obs : Obs) (nb : Nat) (g : Game) (i : Int)
    (out : List Line) (t p0 p1 : String) (hready : Ready g)
    (ht : getTextFromImage obs.frame obs.tess 935 0 985 28 7 = Except.ok t)
    (hsp : splitColon t = [p0, p1])
    (hbad : (∃ e, stoi p0 = Except.error e) ∨ ∃ e, stoi p1 = Except.error e) :
    ∃ e, jumpBlock cfg obs nb g i out = Except.error e := by
  apply not_ok_error
  intro r hr
  unfold jumpBlock at hr
  rw [if_pos ((ready_iff g).mpr hready)] at hr
  obtain ⟨t2, ht2, hr⟩ := bind_eq_ok hr
  rw [ht] at ht2
  cases ht2
  split at hr
  · rename_i q0 q1 hq
    rw [hsp] at hq
    cases hq
    obtain ⟨m, hm, hr⟩ := bind_eq_ok hr
    obtain ⟨sec, hsec, hr⟩ := bind_eq_ok hr
    rcases hbad with ⟨e, he⟩ | ⟨e, he⟩
    · rw [he] at hm
      cases hm
    · rw [he] at hsec
      cases hsec
  · rename_i hno
    exact hno p0 p1 hsp

/-- When the clock region was read, an exception of the fast-forward block is
one of `std::stoi`. -/
theorem jumpBlock_error_conversion (cfg : Config) (obs : Obs) (nb : Nat) (g : Game) (i : Int)
    (out : List Line) (t : String) (e : Err)
    (ht : getTextFromImage obs.frame obs.tess 935 0 985 28 7 = Except.ok t)
    (h : jumpBlock cfg obs nb g i out = Except.error e) : ConversionError e := by
  unfold jumpBlock at h
  split at h
  · rcases bind_eq_error h with h | ⟨t2, _, h⟩
    · rw [ht] at h
      cases h
    split at h
    · rcases bind_eq_error h with h | ⟨m2, _, h⟩
      · exact stoi_error _ _ h
      rcases bind_eq_error h with h | ⟨sec2, _, h⟩
      · exact stoi_error _ _ h
      dsimp only at h
      split at h <;> cases h
    · cases h
  · cases h

theorem jumpBlock_error (cfg : Config) (obs : Obs) (nb : Nat) (g : Game) (i : Int)
    (out : List Line)
    (hc : Ready g → ∀ t p0 p1, getTextFromImage obs.frame obs.tess 935 0 985 28 7 = Except.ok t →
      splitColon t = [p0, p1] → (∃ m, stoi p0 = Except.ok m) ∧ ∃ sec, stoi p1 = Except.ok sec)
    (e : Err)
    (h : jumpBlock cfg obs nb g i out = Except.error e) : ¬ ConversionError e := by
  unfold jumpBlock at h
  split at h
  · rename_i hcond
    rcases bind_eq_error h with h | ⟨t, ht, h⟩
    · exact getTextFromImage_error _ _ _ _ _ _ _ _ _ h
    split at h
    · rename_i p0 p1 hsp
      obtain ⟨⟨m, hm⟩, sec, hsec⟩ := hc ((ready_iff g).mp hcond) t p0 p1 ht hsp
      rcases bind_eq_error h with h | ⟨m2, _, h⟩
      · rw [hm] at h
        cases h
      rcases bind_eq_error h with h | ⟨sec2, _, h⟩
      · rw [hsec] at h
        cases h
      dsimp only at h
      split at h <;> cases h
    · cases h
  · cases h

theorem mapBlock_error (obs : Obs) (g : Game) (e : Err)
    (h : mapBlock obs g = Except.error e) : ¬ ConversionError e := by
  unfold mapBlock at h
  split at h
  · rcases bind_eq_error h with h | ⟨t, _, h⟩
    · exact getTextFromImage_error _ _ _ _ _ _ _ _ _ h
    dsimp only at h
    split at h <;> cases h
  · cases h

theorem teamNameBlock_error (hh : HashOrder) (obs : Obs) (x1 y1 x2 y2 : Int) (team : Team)
    (e : Err) (h : teamNameBlock hh obs x1 y1 x2 y2 team = Except.error e) :
    ¬ ConversionError e := by
  unfold teamNameBlock at h
  split at h
  · rcases bind_eq_error h with h | ⟨t, _, h⟩
    · exact getTextFromImage_error _ _ _ _ _ _ _ _ _ h
    split at h <;> cases h
  · split at h
    · split at h
      · cases h
      · cases h
        rintro (hc | hc) <;> cases hc
    · cases h

theorem except_bind_bind {ε α β γ : Type} (x : Except ε α) (f : α → Except ε β)
    (k : β → Except ε γ) : (x >>= f).bind k = x >>= fun a => (f a).bind k := by
  cases x <;> rfl

theorem except_pure_bind {ε α β : Type} (a : α) (k : α → Except ε β) :
    (pure a : Except ε α).bind k = k a := rfl

/-- The in-match work on the front game is the map and name blocks followed by
the fast-forward block on their result. -/
theorem enrichFront_frontAtClock (cfg : Config) (obs : Obs) (nb : Nat) (g : Game) (i : Int)
    (out : List Line) :
    enrichFront cfg obs nb g i out =
      (frontAtClock cfg obs g).bind (fun g1 => jumpBlock cfg obs nb g1 i out) := by
  unfold enrichFront frontAtClock
  simp only [except_bind_bind, except_pure_bind]

theorem frontAtClock_error (cfg : Config) (obs : Obs) (g : Game) (e : Err)
    (h : frontAtClock cfg obs g = Except.error e) : ¬ ConversionError e := by
  unfold frontAtClock at h
  rcases bind_eq_error h with h | ⟨g0, _, h⟩
  · exact mapBlock_error _ _ _ h
  rcases bind_eq_error h with h | ⟨orange, _, h⟩
  · exact teamNameBlock_error _ _ _ _ _ _ _ _ h
  rcases bind_eq_error h with h | ⟨blue, _, h⟩
  · exact teamNameBlock_error _ _ _ _ _ _ _ _ h
  cases h

theorem enrichFront_error (cfg : Config) (obs : Obs) (nb : Nat) (g : Game) (i : Int)
    (out : List Line)
    (hc : ∀ g1, frontAtClock cfg obs g = Except.ok g1 → Ready g1 →
      ∀ t p0 p1, getTextFromImage obs.frame obs.tess 935 0 985 28 7 = Except.ok t →
        splitColon t = [p0, p1] → (∃ m, stoi p0 = Except.ok m) ∧ ∃ sec, stoi p1 = Except.ok sec)
    (e : Err)
    (h : enrichFront cfg obs nb g i out = Except.error e) : ¬ ConversionError e := by
  rw [enrichFront_frontAtClock] at h
  cases hf : frontAtClock cfg obs g with
  | error e2 =>
    rw [hf] at h
    cases h
    exact frontAtClock_error cfg obs g _ hf
  | ok g1 =>
    rw [hf] at h
    exact jumpBlock_error cfg obs nb g1 i out (hc g1 hf) e h

theorem step_error (cfg : Config) (obs : Obs) (s : Scan) (hs : ScoreTextsConvert obs s.games)
    (hc : ClockPartsConvert cfg obs s.games) (e : Err) (h : step cfg obs s = Except.error e) :
    ¬ ConversionError e := by
  rw [step_eq_firstMatch] at h
  unfold firstMatch at h
  dsimp only at h
  by_cases hread : obs.readOk = true
  swap
  · rw [if_pos (by simpa using hread)] at h
    cases h
  rw [if_neg (by simp [hread])] at h
  by_cases hsc : detectGameScoreFrame obs.frame s.games = true
  · rw [if_pos hsc] at h
    exact readScoreGame_error obs (hs ⟨hread, hsc⟩) e (map_eq_error h)
  rw [if_neg hsc] at h
  by_cases hl : detectGameLoadingFrame obs.frame s.games = true
  · rw [if_pos hl] at h
    cases h
  rw [if_neg hl] at h
  by_cases hi : detectGameIntro obs.frame s.games = true
  · rw [if_pos hi] at h
    cases h
  rw [if_neg hi] at h
  by_cases hp : detectGamePlaying obs.frame s.games = true
  swap
  · rw [if_neg hp] at h
    cases h
  rw [if_pos hp] at h
  have hbr : InMatchBranch obs s.games := ⟨hread, by simpa using hl, by simpa using hi, hp⟩
  split at h
  · cases h
  · rename_i g rest hg
    exact enrichFront_error _ _ _ _ _ _
      (fun g1 hok hready => hc ⟨hbr, g, rest, g1, hg, hok, hready⟩) e (map_eq_error h)

theorem step_error_of_bad_score (cfg : Config) (obs : Obs) (s : Scan) (t : String)
    (hread : obs.readOk = true) (hdet : detectGameScoreFrame obs.frame s.games = true)
    (ht : getTextFromImage obs.frame obs.tessNumber 530 89 620 127 7 = Except.ok t ∨
      getTextFromImage obs.frame obs.tessNumber 1294 89 1384 127 7 = Except.ok t ∨
      getTextFromImage obs.frame obs.tessNumber 70 60 190 140 7 = Except.ok t)
    (hne : t ≠ "") (hbad : ∃ e, stoi t = Except.error e) :
    ∃ e, step cfg obs s = Except.error e := by
  obtain ⟨e, he⟩ := readScoreGame_error_of_bad obs t ht hne hbad
  refine ⟨e, ?_⟩
  rw [step_eq_firstMatch]
  unfold firstMatch
  simp only [hread, hdet, Bool.not_true, Bool.false_eq_true, ↓reduceIte, he, Except.map]

/-- An exception thrown by an iteration leaves `scanLoop` as it is. -/
theorem scanLoop_error (cfg : Config) (env : Int → Obs) (n fuel : Nat) (s0 s1 : Scan)
    (e : Err) (hit : iterations cfg env n s0 = Except.ok s1) (hi : 0 ≤ s1.i)
    (hstep : step cfg (env s1.i) s1 = Except.error e) (hfuel : n < fuel) :
    scanLoop cfg env fuel s0 = Except.error e := by
  induction n generalizing s0 fuel with
  | zero =>
    cases hit
    obtain ⟨f, rfl⟩ : ∃ f, fuel = f + 1 := ⟨fuel - 1, by omega⟩
    unfold scanLoop
    rw [if_pos hi, hstep]
    rfl
  | succ n ih =>
    obtain ⟨f, rfl⟩ : ∃ f, fuel = f + 1 := ⟨fuel - 1, by omega⟩
    unfold iterations at hit
    split at hit
    · rename_i h0
      cases hs : step cfg (env s0.i) s0 with
      | error e2 => rw [hs] at hit; cases hit
      | ok s =>
        rw [hs] at hit
        unfold scanLoop
        rw [if_pos h0, hs]
        exact ih f s hit (by omega)
    · rename_i h0
      cases hit
      exact absurd hi h0

theorem getGames_error (h : HashOrder) (video : Video) (duration : Int) (n fuel : Nat)
    (s1 : Scan) (e : Err) (hopen : video.isOpened = true) (ht : video.tessInit = true)
    (htn : video.tessNumberInit = true) (hd : duration ≠ 0)
    (hit : iterations (configOf h video duration) video.env n
      (initial (configOf h video duration)) = Except.ok s1)
    (hi : 0 ≤ s1.i)
    (hstep : step (configOf h video duration) (video.env s1.i) s1 = Except.error e)
    (hfuel : n < fuel) : getGames h video duration fuel = Except.error e := by
  unfold getGames
  simp only [hopen, ht, htn, hd, Bool.not_true, Bool.false_eq_true, ↓reduceIte]
  rw [scanLoop_error _ _ n fuel _ s1 e hit hi hstep hfuel]
  rfl

theorem step_error_of_bad_clock (cfg : Config) (obs : Obs) (s : Scan) (t p0 p1 : String)
    (hff : FastForwardRead cfg obs s.games)
    (ht : getTextFromImage obs.frame obs.tess 935 0 985 28 7 = Except.ok t)
    (hsp : splitColon t = [p0, p1])
    (hbad : (∃ e, stoi p0 = Except.error e) ∨ ∃ e, stoi p1 = Except.error e) :
    ∃ e, step cfg obs s = Except.error e ∧ ConversionError e := by
  obtain ⟨⟨hread, hl, hi, hp⟩, g, rest, g1, hg, hok, hready⟩ := hff
  have hscore : detectGameScoreFrame obs.frame s.games = false := by
    cases hs : detectGameScoreFrame obs.frame s.games
    · rfl
    · obtain ⟨g', rest', hg', hst⟩ := detectGamePlaying_gate _ _ hp
      rcases detectGameScoreFrame_gate _ _ hs with he | hf
      · rw [hg'] at he; cases he
      · rw [hg'] at hf; exact absurd hst hf
  obtain ⟨e, he⟩ := jumpBlock_error_of_bad cfg obs (g :: rest).length g1 s.i
    (percentBlock cfg s).out t p0 p1 hready ht hsp hbad
  refine ⟨e, ?_, jumpBlock_error_conversion _ _ _ _ _ _ t e ht he⟩
  have henrich : enrichFront cfg obs (g :: rest).length g s.i (percentBlock cfg s).out =
      Except.error e := by
    rw [enrichFront_frontAtClock, hok]
    exact he
  rw [step_eq_firstMatch]
  unfold firstMatch
  dsimp only
  rw [if_neg (by simp [hread]), if_neg (by simp [hscore]), if_neg (by simp [hl]),
    if_neg (by simp [hi]), if_pos hp, hg]
  dsimp only
  rw [henrich]
  rfl

/-- An exception of `scanLoop` is the one thrown by the iteration that follows
some number of completed iterations. -/
theorem scanLoop_error_at (cfg : Config) (env : Int → Obs) (fuel : Nat) (s : Scan) (e : Err)
    (h : scanLoop cfg env fuel s = Except.error e) :
    ∃ n s1, iterations cfg env n s = Except.ok s1 ∧ 0 ≤ s1.i ∧
      step cfg (env s1.i) s1 = Except.error e := by
  induction fuel generalizing s with
  | zero =>
    unfold scanLoop at h
    split at h <;> cases h
  | succ f ih =>
    unfold scanLoop at h
    split at h
    · rename_i hi
      cases hst : step cfg (env s.i) s with
      | error e2 =>
        rw [hst] at h
        cases h
        exact ⟨0, s, rfl, hi, hst⟩
      | ok s1 =>
        rw [hst] at h
        obtain ⟨n, s2, hit, hi2, hstep⟩ := ih s1 h
        refine ⟨n + 1, s2, ?_, hi2, hstep⟩
        unfold iterations
        rw [if_pos hi, hst]
        exact hit
    · cases h

theorem getGames_no_conversion_error (hh : HashOrder) (video : Video) (duration : Int)
    (fuel : Nat) (e : Err)
    (hconv : ∀ n s1, iterations (configOf hh video duration) video.env n
        (initial (configOf hh video duration)) = Except.ok s1 → 0 ≤ s1.i →
      ScoreTextsConvert (video.env s1.i) s1.games ∧
      ClockPartsConvert (configOf hh video duration) (video.env s1.i) s1.games)
    (h : getGames hh video duration fuel = Except.error e) : ¬ ConversionError e := by
  unfold getGames at h
  split at h
  · cases h
  · split at h
    · cases h
      rintro (hc | hc) <;> cases hc
    · split at h
      · cases h
        rintro (hc | hc) <;> cases hc
      · split at h
        · cases h
          rintro (hc | hc) <;> cases hc
        · dsimp only at h
          obtain ⟨n, s1, hit, hi, hstep⟩ := scanLoop_error_at _ _ _ _ _ (map_eq_error h)
          exact step_error _ _ _ (hconv n s1 hit hi).1 (hconv n s1 hit hi).2 e hstep

theorem lateA_reachable : Reachable demoCfg lateA :=
  Reachable.next (clockObs "10:00") (demoScan_reachable 10 (le_refl _))
    (demoScan_cursor 10 (le_refl _)) lateA_step

/-- Claim C14, refuted on the demo video: with the clock text `5:xx`, and with
the clock text `5::`, every recognised text is empty or starts with an
in-range integer (`stoi` returns 5 on the clock text, 3 on the score texts;
the parts of `5::` are `5` and the empty string), yet the iteration throws the
exception of `std::stoi`. -/
theorem conversion_error_on_clock_5_xx :
    Reachable demoCfg lateA ∧
    getTextFromImage (clockObs "5:xx").frame (clockObs "5:xx").tess 935 0 985 28 7 =
      Except.ok "5:xx" ∧
    stoi "5:xx" = Except.ok 5 ∧
    getTextFromImage (clockObs "5:xx").frame (clockObs "5:xx").tessNumber 530 89 620 127 7 =
      Except.ok "3" ∧
    stoi "3" = Except.ok 3 ∧
    step demoCfg (clockObs "5:xx") lateA = Except.error (Err.invalid_argument "stoi") ∧
    stoi "5::" = Except.ok 5 ∧ splitColon "5::" = ["5", ""] ∧
    step demoCfg (clockObs "5::") lateA = Except.error (Err.invalid_argument "stoi") :=
  ⟨lateA_reachable, by rfl, by rfl, by rfl, by rfl, by rfl, by rfl, by rfl, by rfl⟩

/-- Claim C14 as amended: integer conversion in the scan is unguarded.  At an
end screen a non-empty score or elapsed text on which `std::stoi` throws makes
the iteration throw.  At a fast-forward read, that is when the in-match block
runs and the front game passes the condition of line 641 after the map and
name blocks of this same iteration, a clock text that splits into exactly two
parts on one of which `std::stoi` throws (`:5`, `ab:cd`) makes the iteration
throw an exception of `std::stoi`.  An exception of an iteration makes
`getGames` throw it and return no list.  When at every end screen each score
or elapsed text is empty or converts, and at every fast-forward read a clock
text that splits into exactly two parts has both parts converting, no
iteration and no run of `getGames` throws a conversion exception. -/
theorem unguarded_conversion (cfg : Config) (obs : Obs) (s : Scan) :
    (∀ t, EndScreenBranch obs s.games → ScoreText obs t →
      t ≠ "" → (∃ e, stoi t = Except.error e) → ∃ e, step cfg obs s = Except.error e) ∧
    (∀ t p0 p1, FastForwardRead cfg obs s.games →
      getTextFromImage obs.frame obs.tess 935 0 985 28 7 = Except.ok t →
      splitColon t = [p0, p1] →
      ((∃ e, stoi p0 = Except.error e) ∨ ∃ e, stoi p1 = Except.error e) →
      ∃ e, step cfg obs s = Except.error e ∧ ConversionError e) ∧
    (∀ nb g i out t p0 p1, Ready g →
      getTextFromImage obs.frame obs.tess 935 0 985 28 7 = Except.ok t →
      splitColon t = [p0, p1] →
      ((∃ e, stoi p0 = Except.error e) ∨ ∃ e, stoi p1 = Except.error e) →
      ∃ e, jumpBlock cfg obs nb g i out = Except.error e) ∧
    (ScoreTextsConvert obs s.games → ClockPartsConvert cfg obs s.games →
      ∀ e, step cfg obs s = Except.error e → ¬ ConversionError e) ∧
    (∀ (h : HashOrder) (video : Video) (duration : Int) (n fuel : Nat) (s1 : Scan) (e : Err),
      video.isOpened = true → video.tessInit = true → video.tessNumberInit = true →
      duration ≠ 0 →
      iterations (configOf h video duration) video.env n
        (initial (configOf h video duration)) = Except.ok s1 →
      0 ≤ s1.i → step (configOf h video duration) (video.env s1.i) s1 = Except.error e →
      n < fuel → getGames h video duration fuel = Except.error e) ∧
    (∀ (h : HashOrder) (video : Video) (duration : Int) (fuel : Nat) (e : Err),
      (∀ n s1, iterations (configOf h video duration) video.env n
          (initial (configOf h video duration)) = Except.ok s1 → 0 ≤ s1.i →
        ScoreTextsConvert (video.env s1.i) s1.games ∧
        ClockPartsConvert (configOf h video duration) (video.env s1.i) s1.games) →
      getGames h video duration fuel = Except.error e → ¬ ConversionError e) ∧
    splitColon ":5" = ["", "5"] ∧ stoi "" = Except.error (Err.invalid_argument "stoi") ∧
    splitColon "ab:cd" = ["ab", "cd"] ∧ stoi "ab" = Except.error (Err.invalid_argument "stoi") :=
  ⟨fun t hbr ht hne hbad => step_error_of_bad_score cfg obs s t hbr.1 hbr.2 ht hne hbad,
    fun t p0 p1 hff ht hsp hbad => step_error_of_bad_clock cfg obs s t p0 p1 hff ht hsp hbad,
    fun nb g i out t p0 p1 hready ht hsp hbad =>
      jumpBlock_error_of_bad cfg obs nb g i out t p0 p1 hready ht hsp hbad,
    fun hs hc e he => step_error cfg obs s hs hc e he,
    fun h video duration n fuel s1 e hopen ht htn hd hit hi hstep hfuel =>
      getGames_error h video duration n fuel s1 e hopen ht htn hd hit hi hstep hfuel,
    fun h video duration fuel e hconv he =>
      getGames_no_conversion_error h video duration fuel e hconv he,
    by rfl, by rfl, by rfl, by rfl⟩

theorem unguarded_conversion_witness :
    ¬ Ready (demoGame 10) ∧
    FastForwardRead demoCfg (clockObs ":5") (demoScan 10).games ∧
    ∃ e, step demoCfg (clockObs ":5") (demoScan 10) = Except.error e ∧ ConversionError e :=
  ⟨fun h => h.2.2.1 rfl,
    ⟨⟨by rfl, by decide, by decide, by decide⟩, demoGame 10, [],
      { demoGame 10 with
        orangeTeam := { (demoGame 10).orangeTeam with name := "AB" },
        blueTeam := { (demoGame 10).blueTeam with name := "AB" } },
      rfl, by rfl, ⟨by rfl, by decide, by decide, by decide⟩⟩,
    (unguarded_conversion demoCfg (clockObs ":5") (demoScan 10)).2.1 ":5" "" "5"
      ⟨⟨by rfl, by decide, by decide, by decide⟩, demoGame 10, [],
        { demoGame 10 with
          orangeTeam := { (demoGame 10).orangeTeam with name := "AB" },
          blueTeam := { (demoGame 10).blueTeam with name := "AB" } },
        rfl, by rfl, ⟨by rfl, by decide, by decide, by decide⟩⟩
      (by rfl) (by rfl) (Or.inl ⟨_, by rfl⟩)⟩

/-! ### Order of the returned list -/

theorem scanLoop_succ (cfg : Config) (env : Int → Obs) (n : Nat) (s s2 : Scan)
    (hi : 0 ≤ s.i) (hstep : step cfg (env s.i) s = Except.ok s2) :
    scanLoop cfg env (n + 1) s = scanLoop cfg env n s2 := by
  rw [scanLoop, if_pos hi, hstep]
  rfl

theorem scanLoop_done (cfg : Config) (env : Int → Obs) (n : Nat) (s : Scan) (hi : s.i < 0) :
    scanLoop cfg env n s = Except.ok (some s) := by
  have hneg : ¬ s.i ≥ 0 := by omega
  cases n with
  | zero => simp only [scanLoop, hneg, ↓reduceIte, pure, Except.pure]
  | succ n => simp only [scanLoop, hneg, ↓reduceIte, pure, Except.pure]

/-- A property kept by every iteration of the loop holds when the loop ends. -/
theorem scanLoop_inv (cfg : Config) (env : Int → Obs) (P : Scan → Prop)
    (hstep : ∀ s s2, P s → 0 ≤ s.i → step cfg (env s.i) s = Except.ok s2 → P s2)
    (fuel : Nat) (s sf : Scan) (hs : P s)
    (h : scanLoop cfg env fuel s = Except.ok (some sf)) : P sf := by
  induction fuel generalizing s with
  | zero =>
    unfold scanLoop at h
    split at h
    · cases h
    · cases h
      exact hs
  | succ n ih =>
    unfold scanLoop at h
    split at h
    · rename_i hi
      cases hst : step cfg (env s.i) s with
      | error e => rw [hst] at h; cases h
      | ok s1 =>
        rw [hst] at h
        exact ih s1 (hstep s s1 hs hi hst) h
    · cases h
      exact hs

theorem fps_pos (frameCount duration : Int) (hd : 1 ≤ duration) (hf : duration ≤ frameCount) :
    1 ≤ Int.tdiv frameCount duration := by
  rw [Int.tdiv_eq_ediv (by omega) (by omega)]
  exact Int.le_ediv_of_mul_le (by omega) (by omega)

theorem timeInv_step (cfg : Config) (env : Int → Obs) (s s2 : Scan)
    (hmono : ∀ i j, 0 ≤ i → i ≤ j → (env i).posSec ≤ (env j).posSec)
    (hnonneg : ∀ i, 0 ≤ i → 0 ≤ (env i).posSec) (hfps : 1 ≤ cfg.FPS)
    (hclock : ∀ i m sec, 0 ≤ i → ClockReads (env i) m sec → m ≤ 9 → sec ≤ (10 - m) * 60 + 1)
    (hinv : TimeInv (fun c => (env c).posSec) s) (hi : 0 ≤ s.i)
    (h : step cfg (env s.i) s = Except.ok s2) :
    TimeInv (fun c => (env c).posSec) s2 := by
  have hlt : s2.i < s.i :=
    step_cursor_decreases cfg (env s.i) s s2 hfps (fun m sec => hclock s.i m sec hi) h
  obtain ⟨hchain, hbound⟩ := hinv
  rcases step_cases cfg (env s.i) s s2 h with h1 | ⟨hd, game, hgame, h2⟩ |
    ⟨g, rest, hg, hst, _, h3⟩ | ⟨g, rest, r, hg, _, hr, h4⟩
  · refine ⟨by rw [h1]; exact hchain, ?_⟩
    intro g rest hg c hc0 hc
    rw [h1] at hg
    exact hbound g rest hg c hc0 (by omega)
  · obtain ⟨f1, f2, _⟩ := readScoreGame_fresh (env s.i) game hgame
    refine ⟨?_, ?_⟩
    · rw [h2, List.chain'_cons']
      refine ⟨?_, hchain⟩
      intro y hy
      cases hl : s.games with
      | nil => rw [hl] at hy; cases hy
      | cons a l =>
        rw [hl] at hy
        simp only [List.head?_cons, Option.mem_def, Option.some.injEq] at hy
        subst hy
        have hb := hbound a l hl s.i hi (le_refl _)
        have hclosed : a.start ≠ -1 := by
          rcases detectGameScoreFrame_gate _ _ hd with he | hf
          · rw [hl] at he; cases he
          · rw [hl] at hf; exact hf
        have h0 := hnonneg s.i hi
        have hb2 := hb.2 hclosed
        dsimp only at hb hb2
        rw [f1, f2]
        exact ⟨hb.1, hb2, by omega⟩
    · intro g rest hg c hc0 hc
      rw [h2] at hg
      simp only [List.cons.injEq] at hg
      rw [← hg.1, f1, f2]
      exact ⟨hmono c s.i hc0 (by omega), fun hne => absurd rfl hne⟩
  · have hb := hbound g rest hg s.i hi (le_refl _)
    dsimp only at hb
    refine ⟨?_, ?_⟩
    · rw [h3]
      rw [hg, List.chain'_cons'] at hchain
      rw [List.chain'_cons']
      refine ⟨?_, hchain.2⟩
      intro y hy
      obtain ⟨r1, r2, _⟩ := hchain.1 y hy
      refine ⟨r1, r2, ?_⟩
      show (env s.i).posSec + 2 ≤ y.start
      omega
    · intro g' rest' hg' c hc0 hc
      rw [h3] at hg'
      simp only [List.cons.injEq] at hg'
      rw [← hg'.1]
      have hb' := hbound g rest hg c hc0 (by omega)
      dsimp only at hb'
      refine ⟨hb'.1, fun _ => ?_⟩
      show (env c).posSec + 2 ≤ (env s.i).posSec + 2
      have := hmono c s.i hc0 (by omega)
      omega
  · obtain ⟨e1, e2, _⟩ := enrichFront_core _ _ _ _ _ _ _ hr
    refine ⟨?_, ?_⟩
    · rw [h4]
      rw [hg, List.chain'_cons'] at hchain
      rw [List.chain'_cons']
      refine ⟨?_, hchain.2⟩
      intro y hy
      rw [e1, e2]
      exact hchain.1 y hy
    · intro g' rest' hg' c hc0 hc
      rw [h4] at hg'
      simp only [List.cons.injEq] at hg'
      rw [← hg'.1, e1, e2]
      exact hbound g rest hg c hc0 (by omega)

theorem getGames_scan (h : HashOrder) (video : Video) (duration : Int) (fuel : Nat)
    (games : List Game) (hres : getGames h video duration fuel = Except.ok (some games)) :
    games = [] ∨ ∃ sf, scanLoop (configOf h video duration) video.env fuel
      (initial (configOf h video duration)) = Except.ok (some sf) ∧ sf.games = games := by
  unfold getGames at hres
  split at hres
  · cases hres
    exact Or.inl rfl
  · split at hres
    · cases hres
    · split at hres
      · cases hres
      · split at hres
        · cases hres
        · dsimp only at hres
          obtain ⟨r, hr, hmap⟩ := map_eq_ok hres
          cases r with
          | none => cases hmap
          | some sf =>
            simp only [Option.map_some', Option.some.injEq] at hmap
            exact Or.inr ⟨sf, hr, hmap⟩

theorem twoVideo_result :
    getGames HashOrder.insertion twoVideo 70 10 = Except.ok (some [gameB 5, gameA 39]) := by
  have hloop : scanLoop twoCfg twoVideo.env 10 (twoScan 0) = Except.ok (some (twoScan 5)) := by
    rw [scanLoop_succ twoCfg twoVideo.env 9 (twoScan 0) (twoScan 1) (twoScan_cursor 0 (by decide))
        (twoScan_step 0 (by decide)),
      scanLoop_succ twoCfg twoVideo.env 8 (twoScan 1) (twoScan 2) (twoScan_cursor 1 (by decide))
        (twoScan_step 1 (by decide)),
      scanLoop_succ twoCfg twoVideo.env 7 (twoScan 2) (twoScan 3) (twoScan_cursor 2 (by decide))
        (twoScan_step 2 (by decide)),
      scanLoop_succ twoCfg twoVideo.env 6 (twoScan 3) (twoScan 4) (twoScan_cursor 3 (by decide))
        (twoScan_step 3 (by decide)),
      scanLoop_succ twoCfg twoVideo.env 5 (twoScan 4) (twoScan 5) (twoScan_cursor 4 (by decide))
        (twoScan_step 4 (by decide)),
      scanLoop_done twoCfg twoVideo.env 5 (twoScan 5) (by decide)]
  show (scanLoop twoCfg twoVideo.env 10 (twoScan 0)).map (Option.map Scan.games) = _
  rw [hloop]
  rfl

theorem twoEnv_clock (i : Int) (m sec : Int) : ¬ ClockReads (twoVideo.env i) m sec := by
  rintro ⟨t, p0, p1, ht, hsp, _, _⟩
  have hread : getTextFromImage (twoVideo.env i).frame (twoVideo.env i).tess 935 0 985 28 7 =
      Except.ok "" := by
    show getTextFromImage (twoEnv i).frame silentTess 935 0 985 28 7 = Except.ok ""
    unfold twoEnv
    dsimp only
    split_ifs <;> rfl
  rw [hread] at ht
  cases ht
  have hnil : splitColon "" = [] := rfl
  rw [hnil] at hsp
  cases hsp

/-- Claim C11, refuted on the two-match video, whose timestamps grow with the
frame index: `getGames` returns the match that ends at second 35 in front of
the match that ends at second 69, so the game nearer the front has the
smaller start and end time. -/
theorem games_not_newest_first :
    getGames HashOrder.insertion twoVideo 70 10 = Except.ok (some [gameB 5, gameA 39]) ∧
    (∀ i j, i ≤ j → (twoVideo.env i).posSec ≤ (twoVideo.env j).posSec) ∧
    (gameB 5).start < (gameA 39).start ∧ (gameB 5).end_.time < (gameA 39).end_.time ∧
    ¬ List.Chain' (fun g g2 : Game => g.start ≥ g2.start ∧ g.end_.time ≥ g2.end_.time)
      [gameB 5, gameA 39] := by
  refine ⟨twoVideo_result, fun i j hij => hij, by decide, by decide, ?_⟩
  simp only [List.chain'_cons, List.chain'_singleton, and_true, not_and]
  decide

/-- Claim C11 as amended: the list returned by `getGames` is in video order,
oldest first.  For a video with duration `>= 1` and at least `duration`
frames, whose timestamps (of the frames `i >= 0`) are non-negative and do not
decrease with the frame index, and in which no clock reading overshoots the ten-minute mark (the case
in which the fast-forward moves the cursor forward), every two adjacent games
of the returned list have the one nearer the front with start time and end
time `<=` those of the one behind it. -/
theorem games_in_video_order (h : HashOrder) (video : Video) (duration : Int) (fuel : Nat)
    (games : List Game)
    (hmono : ∀ i j, 0 ≤ i → i ≤ j → (video.env i).posSec ≤ (video.env j).posSec)
    (hnonneg : ∀ i, 0 ≤ i → 0 ≤ (video.env i).posSec)
    (hd : 1 ≤ duration) (hframes : duration ≤ video.frameCount)
    (hclock : ∀ i m sec, 0 ≤ i → ClockReads (video.env i) m sec → m ≤ 9 →
      sec ≤ (10 - m) * 60 + 1)
    (hres : getGames h video duration fuel = Except.ok (some games)) :
    List.Chain' (fun g g2 : Game => g.start ≤ g2.start ∧ g.end_.time ≤ g2.end_.time) games := by
  rcases getGames_scan h video duration fuel games hres with rfl | ⟨sf, hsf, rfl⟩
  · exact List.chain'_nil
  · have hfps : 1 ≤ (configOf h video duration).FPS := fps_pos _ _ hd hframes
    have hinit : TimeInv (fun c => (video.env c).posSec) (initial (configOf h video duration)) :=
      ⟨List.chain'_nil, fun g rest hg => by cases hg⟩
    have hfin := scanLoop_inv (configOf h video duration) video.env
      (TimeInv (fun c => (video.env c).posSec))
      (fun s s2 hs hi hstep =>
        timeInv_step _ video.env s s2 hmono hnonneg hfps hclock hs hi hstep)
      fuel _ sf hinit hsf
    exact hfin.1.imp (fun _ _ hr => ⟨hr.2.2, hr.1⟩)

theorem games_in_video_order_witness :
    getGames HashOrder.insertion twoVideo 70 10 = Except.ok (some [gameB 5, gameA 39]) ∧
    List.Chain' (fun g g2 : Game => g.start ≤ g2.start ∧ g.end_.time ≤ g2.end_.time)
      [gameB 5, gameA 39] :=
  ⟨twoVideo_result,
    games_in_video_order HashOrder.insertion twoVideo 70 10 [gameB 5, gameA 39]
      (fun _ _ _ hij => hij) (fun _ hi => hi) (by decide) (by decide)
      (fun i m sec _ hc => absurd hc (twoEnv_clock i m sec)) twoVideo_result⟩

/-! ### The in-match probes and line breaks -/

/-- Claim C21: with an open front game, `detectGamePlaying` is true exactly when
each of the four left probes (x = 118, y = 742, 825, 907, 991) is within
tolerance 20 of the orange reference (231,123,9) or within tolerance 50 of
black, and each of the four right probes (x = 1801, same rows) is within
tolerance 20 of the blue reference (30,126,242) or within tolerance 50 of
black; a frame whose eight probes are black is in-match. -/
theorem detectGamePlaying_probes (frame : Frame) (g : Game) (rest : List Game)
    (hopen : g.start = -1) :
    (detectGamePlaying frame (g :: rest) = true ↔
      (probeOk frame 118 742 (RGB.mk 231 123 9) ∧ probeOk frame 118 825 (RGB.mk 231 123 9) ∧
        probeOk frame 118 907 (RGB.mk 231 123 9) ∧ probeOk frame 118 991 (RGB.mk 231 123 9)) ∧
      (probeOk frame 1801 742 (RGB.mk 30 126 242) ∧ probeOk frame 1801 825 (RGB.mk 30 126 242) ∧
        probeOk frame 1801 907 (RGB.mk 30 126 242) ∧
        probeOk frame 1801 991 (RGB.mk 30 126 242))) ∧
    ((∀ x ∈ [118, 1801], ∀ y ∈ [742, 825, 907, 991],
        getPixelColor frame x y = RGB.mk 0 0 0) →
      detectGamePlaying frame (g :: rest) = true) ∧
    (∀ c team : RGB, (colorSimilarity c team 20 = true ↔
        |c.r - team.r| ≤ 20 ∧ |c.g - team.g| ≤ 20 ∧ |c.b - team.b| ≤ 20) ∧
      (colorSimilarity c (RGB.mk 0 0 0) 50 = true ↔ |c.r| ≤ 50 ∧ |c.g| ≤ 50 ∧ |c.b| ≤ 50)) := by
  have main : detectGamePlaying frame (g :: rest) = true ↔
      (probeOk frame 118 742 (RGB.mk 231 123 9) ∧ probeOk frame 118 825 (RGB.mk 231 123 9) ∧
        probeOk frame 118 907 (RGB.mk 231 123 9) ∧ probeOk frame 118 991 (RGB.mk 231 123 9)) ∧
      (probeOk frame 1801 742 (RGB.mk 30 126 242) ∧ probeOk frame 1801 825 (RGB.mk 30 126 242) ∧
        probeOk frame 1801 907 (RGB.mk 30 126 242) ∧
        probeOk frame 1801 991 (RGB.mk 30 126 242)) := by
    unfold detectGamePlaying
    simp only [front, List.headD_cons, hopen, List.isEmpty_cons, Bool.not_false, beq_self_eq_true,
      Bool.and_self, ↓reduceIte, probeOk, Bool.if_false_right, Bool.and_true, Bool.and_eq_true,
      Bool.or_eq_true, and_assoc, decide_eq_true_eq]
  refine ⟨main, ?_, ?_⟩
  · intro hblack
    rw [main]
    have hb : ∀ x ∈ [118, 1801], ∀ y ∈ [742, 825, 907, 991], ∀ team,
        probeOk frame x y team := by
      intro x hx y hy team
      right
      rw [hblack x hx y hy]
      decide
    simp only [List.mem_cons, List.mem_singleton, List.not_mem_nil, or_false] at hb
    exact ⟨⟨hb _ (Or.inl rfl) _ (Or.inl rfl) _, hb _ (Or.inl rfl) _ (Or.inr (Or.inl rfl)) _,
        hb _ (Or.inl rfl) _ (Or.inr (Or.inr (Or.inl rfl))) _,
        hb _ (Or.inl rfl) _ (Or.inr (Or.inr (Or.inr rfl))) _⟩,
      ⟨hb _ (Or.inr rfl) _ (Or.inl rfl) _, hb _ (Or.inr rfl) _ (Or.inr (Or.inl rfl)) _,
        hb _ (Or.inr rfl) _ (Or.inr (Or.inr (Or.inl rfl))) _,
        hb _ (Or.inr rfl) _ (Or.inr (Or.inr (Or.inr rfl))) _⟩⟩
  · intro c team
    refine ⟨colorSimilarity_iff c team 20, ?_⟩
    rw [colorSimilarity_iff]
    simp only [sub_zero]

theorem detectGamePlaying_probes_witness :
    (demoGame 0).start = -1 ∧ detectGamePlaying demoFrame [demoGame 0] = true :=
  ⟨rfl, (detectGamePlaying_probes demoFrame (demoGame 0) [] rfl).2.1 (by decide)⟩

theorem removeNewlines_idem (t : String) : removeNewlines (removeNewlines t) = removeNewlines t := by
  simp only [removeNewlines, List.filter_filter, Bool.and_self]

theorem removeNewlines_join (a b : String) (c : Char) (hc : c = '\n' ∨ c = '\r') :
    removeNewlines (a ++ String.mk [c] ++ b) = removeNewlines (a ++ b) := by
  unfold removeNewlines
  congr 1
  simp only [String.data_append, List.filter_append]
  rcases hc with rfl | rfl <;> simp

/-- Claim C24: `getMapByName` deletes line breaks before it splits, it does not
split at them: a `\n` or `\r` between two texts joins them, so
`"lunar\noutpost"` is the single token `lunaroutpost` and resolves to `""`
while `"lunar outpost"` resolves to `"Lunar Outpost"`; and
`getMapByName t = getMapByName (removeNewlines t)` for every text. -/
theorem getMapByName_line_breaks (t : String) :
    getMapByName t = getMapByName (removeNewlines t) ∧
    (∀ a b : String, getMapByName (a ++ "\n" ++ b) = getMapByName (a ++ b) ∧
      getMapByName (a ++ "\r" ++ b) = getMapByName (a ++ b)) ∧
    splitBySpace (toLower (removeNewlines "lunar\noutpost")) = ["lunaroutpost"] ∧
    splitBySpace (toLower (removeNewlines "lunar\routpost")) = ["lunaroutpost"] ∧
    getMapByName "lunar\noutpost" = "" ∧ getMapByName "lunar\routpost" = "" ∧
    getMapByName "lunar outpost" = "Lunar Outpost" := by
  refine ⟨?_, ?_, by decide, by decide, by decide, by decide, by decide⟩
  · unfold getMapByName
    rw [removeNewlines_idem]
  · intro a b
    unfold getMapByName
    constructor
    · rw [removeNewlines_join a b '\n' (Or.inl rfl)]
    · rw [removeNewlines_join a b '\r' (Or.inr rfl)]

/-! ### Probe coordinates -/

theorem detectGameScoreFrame_reads (frame frame2 : Frame) (games : List Game)
    (h : ∀ x y, (x, y) ∈ scoreProbes → getPixelColor frame x y = getPixelColor frame2 x y) :
    detectGameScoreFrame frame games = detectGameScoreFrame frame2 games := by
  unfold detectGameScoreFrame
  rw [h 325 153 (by simp [scoreProbes]),
    h 313 613 (by simp [scoreProbes])]

theorem detectGameLoadingFrame_reads (frame frame2 : Frame) (games : List Game)
    (h : ∀ x y, (x, y) ∈ loadingProbes → getPixelColor frame x y = getPixelColor frame2 x y) :
    detectGameLoadingFrame frame games = detectGameLoadingFrame frame2 games := by
  unfold detectGameLoadingFrame
  rw [h 958 427 (by simp [loadingProbes]),
    h 857 653 (by simp [loadingProbes]),
    h 1060 653 (by simp [loadingProbes]),
    h 958 642 (by simp [loadingProbes]),
    h 958 463 (by simp [loadingProbes]),
    h 880 653 (by simp [loadingProbes]),
    h 1037 653 (by simp [loadingProbes]),
    h 958 610 (by simp [loadingProbes])]

theorem detectGameIntro_reads (frame frame2 : Frame) (games : List Game)
    (h : ∀ x y, (x, y) ∈ introProbes → getPixelColor frame x y = getPixelColor frame2 x y) :
    detectGameIntro frame games = detectGameIntro frame2 games := by
  unfold detectGameIntro
  rw [h 1495 942 (by simp [introProbes]),
    h 1512 950 (by simp [introProbes]),
    h 1495 962 (by simp [introProbes]),
    h 1512 972 (by simp [introProbes]),
    h 1495 982 (by simp [introProbes]),
    h 1503 951 (by simp [introProbes]),
    h 1503 972 (by simp [introProbes]),
    h 1558 960 (by simp [introProbes]),
    h 1572 968 (by simp [introProbes]),
    h 1558 977 (by simp [introProbes]),
    h 1572 987 (by simp [introProbes]),
    h 1558 995 (by simp [introProbes]),
    h 1564 969 (by simp [introProbes]),
    h 1564 986 (by simp [introProbes]),
    h 1556 957 (by simp [introProbes]),
    h 1571 964 (by simp [introProbes]),
    h 1556 975 (by simp [introProbes]),
    h 1571 984 (by simp [introProbes]),
    h 1556 993 (by simp [introProbes]),
    h 1564 966 (by simp [introProbes]),
    h 1564 984 (by simp [introProbes]),
    h 1617 979 (by simp [introProbes]),
    h 1630 985 (by simp [introProbes]),
    h 1617 995 (by simp [introProbes]),
    h 1630 1004 (by simp [introProbes]),
    h 1617 1011 (by simp [introProbes]),
    h 1623 987 (by simp [introProbes]),
    h 1623 1004 (by simp [introProbes]),
    h 1606 976 (by simp [introProbes]),
    h 1619 982 (by simp [introProbes]),
    h 1606 991 (by simp [introProbes]),
    h 1619 1000 (by simp [introProbes]),
    h 1606 1008 (by simp [introProbes]),
    h 1612 983 (by simp [introProbes]),
    h 1612 1000 (by simp [introProbes])]

theorem detectGamePlaying_reads (frame frame2 : Frame) (games : List Game)
    (h : ∀ x y, (x, y) ∈ playingProbes → getPixelColor frame x y = getPixelColor frame2 x y) :
    detectGamePlaying frame games = detectGamePlaying frame2 games := by
  unfold detectGamePlaying
  rw [h 118 742 (by simp [playingProbes]),
    h 118 825 (by simp [playingProbes]),
    h 118 907 (by simp [playingProbes]),
    h 118 991 (by simp [playingProbes]),
    h 1801 742 (by simp [playingProbes]),
    h 1801 825 (by simp [playingProbes]),
    h 1801 907 (by simp [playingProbes]),
    h 1801 991 (by simp [playingProbes])]

/-! ### Exceptions of the scan, samples and bounds -/

theorem getTextFromImage_error_rect (frame : Frame) (tess : Tess) (x1 y1 x2 y2 psm mode : Int)
    (e : Err) (h : getTextFromImage frame tess x1 y1 x2 y2 psm mode = Except.error e) :
    e = rectError ∧ InvalidRect frame x1 y1 x2 y2 := by
  by_cases hv : InvalidRect frame x1 y1 x2 y2
  · have := getTextFromImageFuel_invalid frame tess x1 y1 x2 y2 psm (2 - mode).toNat mode hv
    unfold getTextFromImage getTextFromImageTraced at h
    rw [this] at h
    cases h
    exact ⟨rfl, hv⟩
  · obtain ⟨r, hr⟩ := getTextFromImageFuel_valid frame tess x1 y1 x2 y2 psm (2 - mode).toNat mode hv
    unfold getTextFromImage getTextFromImageTraced at h
    rw [hr] at h
    cases h

theorem rectFails_of_error (frame : Frame) (tess : Tess) (x1 y1 x2 y2 psm : Int) (e : Err)
    (hmem : (x1, y1, x2, y2) ∈ extractionRects)
    (h : getTextFromImage frame tess x1 y1 x2 y2 psm = Except.error e) : RectFails frame e := by
  obtain ⟨he, hv⟩ := getTextFromImage_error_rect frame tess x1 y1 x2 y2 psm 0 e h
  exact ⟨he, (x1, y1, x2, y2), hmem, hv⟩

theorem guarded_stoi_conversion (t : String) (f : Int → Game) (game : Game) (e : Err)
    (h : (if (t != "") = true then (stoi t).map f else pure game) = Except.error e) :
    ConversionError e := by
  split at h
  · exact stoi_error t e (map_eq_error h)
  · cases h

theorem readScoreGame_error_source (obs : Obs) (e : Err)
    (h : readScoreGame obs = Except.error e) : ConversionError e ∨ RectFails obs.frame e := by
  unfold readScoreGame at h
  rcases bind_eq_error h with h | ⟨o, _, h⟩
  · exact Or.inr (rectFails_of_error _ _ _ _ _ _ _ _ (by simp [extractionRects]) h)
  rcases bind_eq_error h with h | ⟨g1, _, h⟩
  · exact Or.inl (guarded_stoi_conversion _ _ _ _ h)
  rcases bind_eq_error h with h | ⟨b, _, h⟩
  · exact Or.inr (rectFails_of_error _ _ _ _ _ _ _ _ (by simp [extractionRects]) h)
  rcases bind_eq_error h with h | ⟨g2, _, h⟩
  · exact Or.inl (guarded_stoi_conversion _ _ _ _ h)
  rcases bind_eq_error h with h | ⟨el, _, h⟩
  · exact Or.inr (rectFails_of_error _ _ _ _ _ _ _ _ (by simp [extractionRects]) h)
  rcases bind_eq_error h with h | ⟨g3, _, h⟩
  · exact Or.inl (guarded_stoi_conversion _ _ _ _ h)
  cases h

theorem mapBlock_error_source (obs : Obs) (g : Game) (e : Err)
    (h : mapBlock obs g = Except.error e) : RectFails obs.frame e := by
  unfold mapBlock at h
  split at h
  · rcases bind_eq_error h with h | ⟨t, _, h⟩
    · exact rectFails_of_error _ _ _ _ _ _ _ _ (by simp [extractionRects]) h
    dsimp only at h
    split at h <;> cases h
  · cases h

/-- The call of `getMostFrequent` in the name block always has at least ten
samples, so it returns a name and the block does not fail there. -/
theorem teamNameBlock_resolves (hh : HashOrder) (obs : Obs) (x1 y1 x2 y2 : Int) (team : Team)
    (hlen : ¬ team.names.length < TEAM_NAME_ERROR_ARRAY_SIZE) (hname : team.name = "") :
    10 ≤ team.names.length ∧ ∃ n, getMostFrequent hh team.names = some n ∧ n ∈ team.names ∧
      teamNameBlock hh obs x1 y1 x2 y2 team = Except.ok { team with name := n } := by
  have h10 : 10 ≤ team.names.length := by
    simp only [TEAM_NAME_ERROR_ARRAY_SIZE] at hlen
    omega
  have hne : team.names ≠ [] := by
    intro he
    rw [he] at h10
    simp at h10
  obtain ⟨n, hn⟩ := getMostFrequent_isSome hh team.names hne
  refine ⟨h10, n, hn, (getMostFrequent_spec hh team.names n hn).1, ?_⟩
  unfold teamNameBlock
  rw [if_neg hlen, if_pos (by simp [hname]), hn]
  rfl

theorem teamNameBlock_error_source (hh : HashOrder) (obs : Obs) (x1 y1 x2 y2 : Int)
    (team : Team) (e : Err) (hmem : (x1, y1, x2, y2) ∈ extractionRects)
    (h : teamNameBlock hh obs x1 y1 x2 y2 team = Except.error e) : RectFails obs.frame e := by
  by_cases hlen : team.names.length < TEAM_NAME_ERROR_ARRAY_SIZE
  · unfold teamNameBlock at h
    rw [if_pos hlen] at h
    rcases bind_eq_error h with h | ⟨t, _, h⟩
    · exact rectFails_of_error _ _ _ _ _ _ _ _ hmem h
    split at h <;> cases h
  · by_cases hname : team.name = ""
    · obtain ⟨_, n, _, _, hok⟩ := teamNameBlock_resolves hh obs x1 y1 x2 y2 team hlen hname
      rw [hok] at h
      cases h
    · unfold teamNameBlock at h
      rw [if_neg hlen, if_neg (by simp [hname])] at h
      cases h

theorem jumpBlock_error_source (cfg : Config) (obs : Obs) (nb : Nat) (g : Game) (i : Int)
    (out : List Line) (e : Err) (h : jumpBlock cfg obs nb g i out = Except.error e) :
    ConversionError e ∨ RectFails obs.frame e := by
  unfold jumpBlock at h
  split at h
  · rcases bind_eq_error h with h | ⟨t, ht, h⟩
    · exact Or.inr (rectFails_of_error _ _ _ _ _ _ _ _ (by simp [extractionRects]) h)
    split at h
    · rcases bind_eq_error h with h | ⟨m2, _, h⟩
      · exact Or.inl (stoi_error _ _ h)
      rcases bind_eq_error h with h | ⟨sec2, _, h⟩
      · exact Or.inl (stoi_error _ _ h)
      dsimp only at h
      split at h <;> cases h
    · cases h
  · cases h

theorem enrichFront_error_source (cfg : Config) (obs : Obs) (nb : Nat) (g : Game) (i : Int)
    (out : List Line) (e : Err) (h : enrichFront cfg obs nb g i out = Except.error e) :
    ConversionError e ∨ RectFails obs.frame e := by
  unfold enrichFront at h
  rcases bind_eq_error h with h | ⟨g0, _, h⟩
  · exact Or.inr (mapBlock_error_source _ _ _ h)
  rcases bind_eq_error h with h | ⟨orange, _, h⟩
  · exact Or.inr (teamNameBlock_error_source _ _ _ _ _ _ _ _ (by simp [extractionRects]) h)
  rcases bind_eq_error h with h | ⟨blue, _, h⟩
  · exact Or.inr (teamNameBlock_error_source _ _ _ _ _ _ _ _ (by simp [extractionRects]) h)
  exact jumpBlock_error_source _ _ _ _ _ _ _ h

/-- Where an exception of one loop iteration comes from: `std::stoi`, or the
bounds check of `getTextFromImage` on one of the seven rectangles. -/
theorem step_error_source (cfg : Config) (obs : Obs) (s : Scan) (e : Err)
    (h : step cfg obs s = Except.error e) : ConversionError e ∨ RectFails obs.frame e := by
  rw [step_eq_firstMatch] at h
  unfold firstMatch at h
  dsimp only at h
  split at h
  · cases h
  · split at h
    · exact readScoreGame_error_source obs e (map_eq_error h)
    · split at h
      · cases h
      · split at h
        · cases h
        · split at h
          · split at h
            · cases h
            · exact enrichFront_error_source _ _ _ _ _ _ _ (map_eq_error h)
          · cases h

theorem scanLoop_error_source (cfg : Config) (env : Int → Obs) (fuel : Nat) (s : Scan)
    (e : Err) (h : scanLoop cfg env fuel s = Except.error e) :
    ∃ s1, 0 ≤ s1.i ∧ step cfg (env s1.i) s1 = Except.error e := by
  induction fuel generalizing s with
  | zero =>
    unfold scanLoop at h
    split at h <;> cases h
  | succ n ih =>
    unfold scanLoop at h
    split at h
    · rename_i hi
      cases hst : step cfg (env s.i) s with
      | error e2 =>
        rw [hst] at h
        cases h
        exact ⟨s, hi, hst⟩
      | ok s1 =>
        rw [hst] at h
        exact ih s1 h
    · cases h

/-- Where an exception of `getGames` comes from. -/
theorem getGames_error_source (hh : HashOrder) (video : Video) (duration : Int) (fuel : Nat)
    (e : Err) (h : getGames hh video duration fuel = Except.error e) :
    e = Err.runtime_error "Impossible d'initialiser Tesseract." ∨
    e = Err.undefined_behaviour "division by zero" ∨
    ∃ s1, 0 ≤ s1.i ∧ step (configOf hh video duration) (video.env s1.i) s1 = Except.error e := by
  unfold getGames at h
  split at h
  · cases h
  · split at h
    · cases h
      exact Or.inl rfl
    · split at h
      · cases h
        exact Or.inl rfl
      · split at h
        · cases h
          exact Or.inr (Or.inl rfl)
        · dsimp only at h
          exact Or.inr (Or.inr (scanLoop_error_source _ _ _ _ _ (map_eq_error h)))

theorem conversionError_ne (e : Err) (h : ConversionError e) :
    e ≠ rectError ∧ ∀ w, e ≠ Err.undefined_behaviour w := by
  rcases h with rfl | rfl
  · refine ⟨?_, fun w hw => (by cases hw)⟩
    intro hc
    injection hc with hs
    revert hs
    decide
  · exact ⟨fun hc => (by cases hc), fun w hw => (by cases hw)⟩

theorem step_error_not_undefined (cfg : Config) (obs : Obs) (s : Scan) (e : Err) (w : String)
    (h : step cfg obs s = Except.error e) : e ≠ Err.undefined_behaviour w := by
  rcases step_error_source cfg obs s e h with hc | ⟨hr, _⟩
  · exact (conversionError_ne e hc).2 w
  · rw [hr]
    intro hc
    cases hc

theorem teamInv_name_length (team : Team) (hinv : TeamInv team) (hne : team.name ≠ "") :
    2 ≤ team.name.length ∧ 10 ≤ team.names.length := by
  obtain ⟨_, htwo, hname⟩ := hinv
  obtain ⟨hlen, hmem, _⟩ := hname hne
  exact ⟨htwo _ hmem, by omega⟩

/-- Claim C22: `getMostFrequent` is never called on an empty sequence during
the scan.  At its call site (the same code for both teams) `names` has at
least 10 entries, so the lookup returns an element of `names` and the name
block succeeds; `getMostFrequent` has no result only on the empty sequence;
no iteration and no run of `getGames` ends in that undefined case; and in
every reachable state, and after every iteration from one, a resolved name has
length at least 2 and comes with at least 10 samples. -/
theorem getMostFrequent_never_on_empty (cfg : Config) (s : Scan) (hr : Reachable cfg s) :
    (∀ (hh : HashOrder) (obs : Obs) (x1 y1 x2 y2 : Int) (team : Team),
      ¬ team.names.length < TEAM_NAME_ERROR_ARRAY_SIZE → team.name = "" →
      10 ≤ team.names.length ∧ ∃ n, getMostFrequent hh team.names = some n ∧ n ∈ team.names ∧
        teamNameBlock hh obs x1 y1 x2 y2 team = Except.ok { team with name := n }) ∧
    (∀ (hh : HashOrder) (names : List String), getMostFrequent hh names = none ↔ names = []) ∧
    (∀ (obs : Obs) (e : Err) (w : String), step cfg obs s = Except.error e →
      e ≠ Err.undefined_behaviour w) ∧
    (∀ (hh : HashOrder) (video : Video) (duration : Int) (fuel : Nat),
      getGames hh video duration fuel ≠
        Except.error (Err.undefined_behaviour "getMostFrequent on empty names")) ∧
    (∀ g ∈ s.games,
      (g.orangeTeam.name ≠ "" → 2 ≤ g.orangeTeam.name.length ∧ 10 ≤ g.orangeTeam.names.length) ∧
      (g.blueTeam.name ≠ "" → 2 ≤ g.blueTeam.name.length ∧ 10 ≤ g.blueTeam.names.length)) ∧
    (∀ (obs : Obs) (s2 : Scan), step cfg obs s = Except.ok s2 → ∀ g ∈ s2.games,
      (g.orangeTeam.name ≠ "" → 2 ≤ g.orangeTeam.name.length ∧ 10 ≤ g.orangeTeam.names.length) ∧
      (g.blueTeam.name ≠ "" → 2 ≤ g.blueTeam.name.length ∧ 10 ≤ g.blueTeam.names.length)) := by
  refine ⟨fun hh obs x1 y1 x2 y2 team hlen hname =>
      teamNameBlock_resolves hh obs x1 y1 x2 y2 team hlen hname, ?_,
    fun obs e w h => step_error_not_undefined cfg obs s e w h, ?_, ?_, ?_⟩
  · intro hh names
    constructor
    · intro hnone
      by_contra hne
      obtain ⟨n, hn⟩ := getMostFrequent_isSome hh names hne
      rw [hn] at hnone
      cases hnone
    · rintro rfl
      exact getMostFrequent_none hh
  · intro hh video duration fuel hc
    rcases getGames_error_source hh video duration fuel _ hc with h1 | h2 | ⟨s1, _, h3⟩
    · cases h1
    · injection h2 with hs
      revert hs
      decide
    · exact step_error_not_undefined _ _ _ _ _ h3 rfl
  · intro g hg
    obtain ⟨ho, hb⟩ := reachable_teamInv cfg s hr g hg
    exact ⟨teamInv_name_length _ ho, teamInv_name_length _ hb⟩
  · intro obs s2 h g hg
    obtain ⟨ho, hb⟩ := teamInv_step cfg obs s s2 (reachable_teamInv cfg s hr) h g hg
    exact ⟨teamInv_name_length _ ho, teamInv_name_length _ hb⟩

theorem getMostFrequent_never_on_empty_witness :
    Reachable demoCfg demoJumped ∧
    (∀ g ∈ demoJumped.games,
      (g.orangeTeam.name ≠ "" → 2 ≤ g.orangeTeam.name.length ∧ 10 ≤ g.orangeTeam.names.length) ∧
      (g.blueTeam.name ≠ "" → 2 ≤ g.blueTeam.name.length ∧ 10 ≤ g.blueTeam.names.length)) :=
  ⟨demoJumped_reachable,
    (getMostFrequent_never_on_empty demoCfg demoJumped demoJumped_reachable).2.2.2.2.1⟩

theorem probes_bounded :
    ∀ p ∈ scoreProbes ++ loadingProbes ++ introProbes ++ playingProbes,
      0 ≤ p.1 ∧ p.1 ≤ 1801 ∧ 0 ≤ p.2 ∧ p.2 ≤ 1011 := by
  decide

theorem rects_bounded :
    ∀ r ∈ extractionRects,
      0 ≤ r.1 ∧ 0 ≤ r.2.1 ∧ r.2.2.1 ≤ 1802 ∧ r.2.2.2 ≤ 1012 ∧ r.1 < r.2.2.1 ∧
        r.2.1 < r.2.2.2 := by
  decide

theorem rects_valid (frame : Frame) (hc : 1802 ≤ frame.cols) (hr : 1012 ≤ frame.rows) :
    ∀ r ∈ extractionRects, ¬ InvalidRect frame r.1 r.2.1 r.2.2.1 r.2.2.2 := by
  intro r hmem
  obtain ⟨h1, h2, h3, h4, h5, h6⟩ := rects_bounded r hmem
  unfold InvalidRect
  omega

theorem step_error_not_rect (cfg : Config) (obs : Obs) (s : Scan) (e : Err)
    (hc : 1802 ≤ obs.frame.cols) (hr : 1012 ≤ obs.frame.rows)
    (h : step cfg obs s = Except.error e) : e ≠ rectError := by
  rcases step_error_source cfg obs s e h with hconv | ⟨_, r, hmem, hinv⟩
  · exact (conversionError_ne e hconv).1
  · exact absurd hinv (rects_valid obs.frame hc hr r hmem)

/-- Claim C23: on a frame at least 1802 pixels wide and 1012 pixels high, every
coordinate read by the four detectors is inside the frame and each of the
seven extraction rectangles passes the bounds check of `getTextFromImage`, so
an iteration on such a frame never throws the invalid-rectangle exception,
and neither does `getGames` on a video of such frames.  The detectors read no
other pixel: two frames that agree on the listed coordinates give the same
answers. -/
theorem probes_and_rects_in_bounds (frame : Frame) (hc : 1802 ≤ frame.cols)
    (hr : 1012 ≤ frame.rows) :
    (∀ p ∈ scoreProbes ++ loadingProbes ++ introProbes ++ playingProbes,
      0 ≤ p.1 ∧ p.1 < frame.cols ∧ 0 ≤ p.2 ∧ p.2 < frame.rows) ∧
    (∀ r ∈ extractionRects, ¬ InvalidRect frame r.1 r.2.1 r.2.2.1 r.2.2.2) ∧
    (∀ (tess : Tess) (psm : Int), ∀ r ∈ extractionRects,
      ∃ t, getTextFromImage frame tess r.1 r.2.1 r.2.2.1 r.2.2.2 psm = Except.ok t) ∧
    (∀ (cfg : Config) (obs : Obs) (s : Scan) (e : Err), obs.frame = frame →
      step cfg obs s = Except.error e → e ≠ rectError) ∧
    (∀ (hh : HashOrder) (video : Video) (duration : Int) (fuel : Nat),
      (∀ i, 1802 ≤ (video.env i).frame.cols ∧ 1012 ≤ (video.env i).frame.rows) →
      getGames hh video duration fuel ≠ Except.error rectError) ∧
    (∀ (frame2 : Frame) (games : List Game),
      ((∀ x y, (x, y) ∈ scoreProbes → getPixelColor frame x y = getPixelColor frame2 x y) →
        detectGameScoreFrame frame games = detectGameScoreFrame frame2 games) ∧
      ((∀ x y, (x, y) ∈ loadingProbes → getPixelColor frame x y = getPixelColor frame2 x y) →
        detectGameLoadingFrame frame games = detectGameLoadingFrame frame2 games) ∧
      ((∀ x y, (x, y) ∈ introProbes → getPixelColor frame x y = getPixelColor frame2 x y) →
        detectGameIntro frame games = detectGameIntro frame2 games) ∧
      ((∀ x y, (x, y) ∈ playingProbes → getPixelColor frame x y = getPixelColor frame2 x y) →
        detectGamePlaying frame games = detectGamePlaying frame2 games)) := by
  refine ⟨?_, rects_valid frame hc hr, ?_, ?_, ?_, ?_⟩
  · intro p hp
    obtain ⟨h1, h2, h3, h4⟩ := probes_bounded p hp
    omega
  · intro tess psm r hmem
    exact getTextFromImageFuel_valid frame tess _ _ _ _ psm _ 0 (rects_valid frame hc hr r hmem)
  · intro cfg obs s e hf h
    subst hf
    exact step_error_not_rect cfg obs s e hc hr h
  · intro hh video duration fuel hall hce
    rcases getGames_error_source hh video duration fuel _ hce with h1 | h2 | ⟨s1, _, h3⟩
    · cases h1
    · cases h2
    · exact step_error_not_rect _ _ _ _ (hall s1.i).1 (hall s1.i).2 h3 rfl
  · intro frame2 games
    exact ⟨detectGameScoreFrame_reads frame frame2 games,
      detectGameLoadingFrame_reads frame frame2 games,
      detectGameIntro_reads frame frame2 games, detectGamePlaying_reads frame frame2 games⟩

theorem probes_and_rects_in_bounds_witness :
    demoFrame.cols = 1920 ∧ demoFrame.rows = 1080 ∧
    (∀ p ∈ scoreProbes ++ loadingProbes ++ introProbes ++ playingProbes,
      0 ≤ p.1 ∧ p.1 < demoFrame.cols ∧ 0 ≤ p.2 ∧ p.2 < demoFrame.rows) ∧
    (∀ r ∈ extractionRects, ¬ InvalidRect demoFrame r.1 r.2.1 r.2.2.1 r.2.2.2) :=
  ⟨rfl, rfl, (probes_and_rects_in_bounds demoFrame (by decide) (by decide)).1,
    (probes_and_rects_in_bounds demoFrame (by decide) (by decide)).2.1⟩

end Detector
